import Mathlib

/-!
# The blend tool's pending-edit state machine

A shallow embedding of `app/tools/gimpblendtool.c`: the tool object is a record of the
C fields the hooks read and write, every hook is a function on that record, and the
calls into collaborators that have an observable outcome (the preview filter, the
distance-map computation, the image flush) are appended to an effect log.

Conventions.
* `gdouble` coordinates are exact rationals; they are only copied, and shifted by the
  integer drawable offset in `gimp_blend_tool_update_graph`.
* A C pointer to a collaborator object is an `Option`; where identity matters (the line
  widget, the preview filter) the object carries the number it was allocated with.
* `GList` stacks are Lean lists, head first.
* The line widget's answer to an event (the geometry it moves to, whether it claims a
  press) is an argument of the hook that forwards the event.
* A hook that can dereference `NULL` or a freed widget returns `Except Fault`.
-/

namespace GimpBlendTool

/-! ## Data model -/

/-- The C record `struct _BlendInfo`: one snapshot of the line. -/
structure BlendInfo where
  start_x : ℚ
  start_y : ℚ
  end_x : ℚ
  end_y : ℚ
deriving DecidableEq

/-- The two fields of `GimpCoords` the tool reads. -/
structure GimpCoords where
  x : ℚ
  y : ℚ
deriving DecidableEq

/-- A `GimpDisplay *`, compared by identity only. -/
abbrev GimpDisplay := Nat

/-- A `GimpDrawable *` together with what `gimp_item_get_offset` reports for it. -/
structure GimpDrawable where
  id : Nat
  off_x : Int
  off_y : Int
deriving DecidableEq

/-- A `GimpGradient *` and the answer of `gimp_gradient_has_fg_bg_segments`. -/
structure GimpGradient where
  id : Nat
  has_fg_bg_segments : Bool
deriving DecidableEq

/-- A `GeglBuffer *` holding a distance map. -/
structure GeglBuffer where
  id : Nat
deriving DecidableEq

/-- The enumeration `GimpButtonReleaseType`. -/
inductive GimpButtonReleaseType where
  | NORMAL
  | CANCEL
  | CLICK
  | NO_MOTION
deriving DecidableEq

/-- The enumeration `GimpToolAction`. -/
inductive GimpToolAction where
  | PAUSE
  | RESUME
  | HALT
  | COMMIT
deriving DecidableEq

/-- The response ids a tool widget emits; `OTHER` stands for every id the switch in
`gimp_blend_tool_line_response` has no case for. -/
inductive GimpToolWidgetResponse where
  | CONFIRM
  | CANCEL
  | OTHER
deriving DecidableEq

/-- The enumeration `GimpGradientType`, in declaration order. -/
inductive GimpGradientType where
  | LINEAR
  | BILINEAR
  | RADIAL
  | SQUARE
  | CONICAL_SYMMETRIC
  | CONICAL_ASYMMETRIC
  | SHAPEBURST_ANGULAR
  | SHAPEBURST_SPHERICAL
  | SHAPEBURST_DIMPLED
  | SPIRAL_CLOCKWISE
  | SPIRAL_ANTICLOCKWISE
deriving DecidableEq

/-- The integer value of a `GimpGradientType` enumerator. -/
def GimpGradientType.toNat : GimpGradientType → Nat
  | .LINEAR => 0
  | .BILINEAR => 1
  | .RADIAL => 2
  | .SQUARE => 3
  | .CONICAL_SYMMETRIC => 4
  | .CONICAL_ASYMMETRIC => 5
  | .SHAPEBURST_ANGULAR => 6
  | .SHAPEBURST_SPHERICAL => 7
  | .SHAPEBURST_DIMPLED => 8
  | .SPIRAL_CLOCKWISE => 9
  | .SPIRAL_ANTICLOCKWISE => 10

/-- The line widget: its identity and its `x1`, `y1`, `x2`, `y2` properties. -/
structure GimpToolLine where
  id : Nat
  x1 : ℚ
  y1 : ℚ
  x2 : ℚ
  y2 : ℚ
deriving DecidableEq

/-- The `gimp:blend` node: the line parameters last set on it (`none` while they were
never set or were set from an indeterminate offset) and its `gradient` parameter. -/
structure RenderNode where
  geom : Option BlendInfo
  gradient : Option GimpGradient
deriving DecidableEq

/-- The `gegl:buffer-source` node and its `buffer` parameter. -/
structure DistNode where
  buffer : Option GeglBuffer
deriving DecidableEq

/-- Calls into collaborators, in the order they are made. -/
inductive Effect where
  | line_new (widget : Nat) (info : BlendInfo)
  | filter_new (filter : Nat) (drawable : GimpDrawable)
  | filter_set_region (filter : Nat)
  | filter_set_opacity (filter : Nat)
  | filter_set_mode (filter : Nat)
  | filter_apply (filter : Option Nat)
  | filter_abort (filter : Nat)
  | filter_commit (filter : Nat)
  | config_sync_node
  | node_set_property (name : String)
  | shapeburst_distmap (drawable : GimpDrawable)
  | image_flush (display : Option GimpDisplay)
deriving DecidableEq

/-- Ways a hook can leave defined behaviour. -/
inductive Fault where
  | null_dereference
  | freed_widget
deriving DecidableEq

/-- What the hooks read from their surroundings: the active drawable of the display's
image, the tool options, and the answers of the mask and distance-map queries. -/
structure Env where
  drawable : GimpDrawable
  gradient_type : GimpGradientType
  gradient : Option GimpGradient
  mask_intersect : Bool
  distmap : Option GeglBuffer
deriving DecidableEq

/-- The fields of `GimpTool`, `GimpDrawTool` and `GimpBlendTool` that the hooks use,
with the effect log and the allocation counter. The tool control object (its active
flag, the preserve stack) and the status bar are not part of the record. -/
structure ToolState where
  display : Option GimpDisplay
  drawable : Option GimpDrawable
  draw_display : Option GimpDisplay
  draw_widget : Option Nat
  gradient : Option GimpGradient
  start_x : ℚ
  start_y : ℚ
  end_x : ℚ
  end_y : ℚ
  graph : Option Nat
  render_node : Option RenderNode
  dist_node : Option DistNode
  dist_buffer : Option GeglBuffer
  filter : Option Nat
  widget : Option GimpToolLine
  grab_widget : Option Nat
  undo_stack : List BlendInfo
  redo_stack : List BlendInfo
  log : List Effect
  fresh : Nat
deriving DecidableEq

/-- The zero-filled instance `gimp_blend_tool_init` leaves behind. -/
def init : ToolState :=
  { display := none, drawable := none,
    draw_display := none, draw_widget := none, gradient := none,
    start_x := 0, start_y := 0, end_x := 0, end_y := 0,
    graph := none, render_node := none, dist_node := none, dist_buffer := none,
    filter := none, widget := none, grab_widget := none,
    undo_stack := [], redo_stack := [], log := [], fresh := 0 }

/-- The current line geometry `(start_x, start_y, end_x, end_y)`. -/
def current (s : ToolState) : BlendInfo :=
  { start_x := s.start_x, start_y := s.start_y, end_x := s.end_x, end_y := s.end_y }

/-! ## Collaborators -/

/-- The constructor `blend_info_new`. -/
def blend_info_new (start_x start_y end_x end_y : ℚ) : BlendInfo :=
  { start_x := start_x, start_y := start_y, end_x := end_x, end_y := end_y }

/-- The GLib call `g_list_remove (list, data)`: drops the first node holding `data`. -/
def g_list_remove (list : List BlendInfo) (data : BlendInfo) : List BlendInfo :=
  list.erase data

/-- Modelled from the spec: `gimp_draw_tool_is_active` (GimpDrawTool is not under
src/): the draw tool is active while it has a display. -/
def gimp_draw_tool_is_active (s : ToolState) : Bool :=
  s.draw_display.isSome

/-- Modelled from the spec: `gimp_draw_tool_start` (not under src/): refuses an
already active draw tool, otherwise records the display. -/
def gimp_draw_tool_start (s : ToolState) (display : GimpDisplay) : ToolState :=
  if gimp_draw_tool_is_active s then s else { s with draw_display := some display }

/-- Modelled from the spec: `gimp_draw_tool_stop` (not under src/): forgets the
display of an active draw tool. -/
def gimp_draw_tool_stop (s : ToolState) : ToolState :=
  if gimp_draw_tool_is_active s then { s with draw_display := none } else s

/-- Modelled from the spec: `gimp_draw_tool_set_widget` (not under src/): the draw
tool keeps its own reference to the widget. -/
def gimp_draw_tool_set_widget (s : ToolState) (widget : Option Nat) : ToolState :=
  { s with draw_widget := widget }

/-- The call `gimp_drawable_filter_apply (blend_tool->filter, NULL)`. -/
def gimp_drawable_filter_apply (s : ToolState) : ToolState :=
  { s with log := s.log ++ [Effect.filter_apply s.filter] }

/-- The call `gimp_image_flush (gimp_display_get_image (display))`. -/
def gimp_image_flush (s : ToolState) (display : Option GimpDisplay) : ToolState :=
  { s with log := s.log ++ [Effect.image_flush display] }

/-! ## The rendering graph -/

/-- The function `gimp_blend_tool_is_shapeburst`. -/
def gimp_blend_tool_is_shapeburst (env : Env) : Bool :=
  decide (GimpGradientType.SHAPEBURST_ANGULAR.toNat ≤ env.gradient_type.toNat) &&
  decide (env.gradient_type.toNat ≤ GimpGradientType.SHAPEBURST_DIMPLED.toNat)

/-- The function `gimp_blend_tool_update_graph`: the line, shifted by the offset of
`tool->drawable`, becomes the parameters of the render node. `gegl_node_set` on an
absent node does nothing; an absent drawable leaves the offsets indeterminate. -/
def gimp_blend_tool_update_graph (s : ToolState) : ToolState :=
  match s.render_node with
  | none => s
  | some node =>
    match s.drawable with
    | none => { s with render_node := some { node with geom := none } }
    | some d =>
      let line : BlendInfo :=
        { start_x := s.start_x - d.off_x, start_y := s.start_y - d.off_y,
          end_x := s.end_x - d.off_x, end_y := s.end_y - d.off_y }
      { s with render_node := some { node with geom := some line } }

/-- The function `gimp_blend_tool_create_graph`; `g_return_if_fail` leaves an existing
graph alone. -/
def gimp_blend_tool_create_graph (s : ToolState) : ToolState :=
  if s.graph.isSome then s
  else
    gimp_blend_tool_update_graph
      { s with graph := some s.fresh,
               dist_node := some { buffer := s.dist_buffer },
               render_node := some { geom := none, gradient := none },
               fresh := s.fresh + 1 }

/-- The function `gimp_blend_tool_create_filter`. -/
def gimp_blend_tool_create_filter (s : ToolState) (drawable : GimpDrawable) : ToolState :=
  let s1 := if s.graph.isSome then s else gimp_blend_tool_create_graph s
  { s1 with filter := some s1.fresh,
            fresh := s1.fresh + 1,
            log := s1.log ++ [Effect.filter_new s1.fresh drawable,
                              Effect.filter_set_region s1.fresh,
                              Effect.filter_set_opacity s1.fresh,
                              Effect.filter_set_mode s1.fresh] }

/-- The function `gimp_blend_tool_set_gradient`: signal wiring carries no state; the
new gradient is stored and, when present, set on an existing render node. -/
def gimp_blend_tool_set_gradient (s : ToolState) (gradient : Option GimpGradient) : ToolState :=
  match gradient, s.render_node with
  | some g, some node =>
    { s with gradient := some g, render_node := some { node with gradient := some g } }
  | _, _ => { s with gradient := gradient }

/-- The function `gimp_blend_tool_gradient_dirty`. -/
def gimp_blend_tool_gradient_dirty (s : ToolState) : ToolState :=
  if s.filter.isNone then s
  else
    let s1 : ToolState :=
      match s.render_node with
      | none => s
      | some node => { s with render_node := some { node with gradient := s.gradient } }
    gimp_drawable_filter_apply s1

/-- The function `gimp_blend_tool_precalc_shapeburst`. -/
def gimp_blend_tool_precalc_shapeburst (s : ToolState) (env : Env) : ToolState :=
  if s.dist_buffer.isSome || s.drawable.isNone then s
  else if !env.mask_intersect then s
  else
    match s.drawable with
    | none => s
    | some d =>
      let s1 : ToolState :=
        { s with dist_buffer := env.distmap,
                 log := s.log ++ [Effect.shapeburst_distmap d] }
      match s1.dist_node with
      | none => s1
      | some _ => { s1 with dist_node := some { buffer := s1.dist_buffer } }

/-! ## The line widget's notifications -/

/-- The signal handler `gimp_blend_tool_line_changed`. -/
def gimp_blend_tool_line_changed (s : ToolState) (widget : GimpToolLine) : ToolState :=
  gimp_drawable_filter_apply
    (gimp_blend_tool_update_graph
      { s with start_x := widget.x1, start_y := widget.y1,
               end_x := widget.x2, end_y := widget.y2 })

/-- Setting `x1`, `y1`, `x2`, `y2` on `blend_tool->widget` (by `g_object_set`, or by
the widget itself while it handles an event): the widget stores the values and emits
`changed` once, which runs `gimp_blend_tool_line_changed`. With no widget the call is
refused and nothing happens. -/
def widget_set_line (s : ToolState) (info : BlendInfo) : ToolState :=
  match s.widget with
  | none => s
  | some w =>
    let w1 : GimpToolLine :=
      { w with x1 := info.start_x, y1 := info.start_y, x2 := info.end_x, y2 := info.end_y }
    gimp_blend_tool_line_changed { s with widget := some w1 } w1

/-- A run of geometry changes the widget makes while it handles one event. -/
def widget_changes (s : ToolState) (changes : List BlendInfo) : ToolState :=
  changes.foldl widget_set_line s

/-! ## Session start, halt and commit -/

/-- The function `gimp_blend_tool_start`. -/
def gimp_blend_tool_start (s : ToolState) (coords : GimpCoords) (display : GimpDisplay)
    (env : Env) : ToolState :=
  let s1 : ToolState :=
    { s with display := some display, drawable := some env.drawable,
             start_x := coords.x, start_y := coords.y,
             end_x := coords.x, end_y := coords.y }
  let line : GimpToolLine :=
    { id := s1.fresh, x1 := s1.start_x, y1 := s1.start_y, x2 := s1.end_x, y2 := s1.end_y }
  let s2 : ToolState :=
    { s1 with widget := some line, fresh := s1.fresh + 1,
              log := s1.log ++ [Effect.line_new line.id (current s1)] }
  let s3 := gimp_draw_tool_set_widget s2 (some line.id)
  let s4 := gimp_blend_tool_create_filter s3 env.drawable
  let s5 : ToolState := { s4 with log := s4.log ++ [Effect.config_sync_node] }
  let s6 := gimp_blend_tool_set_gradient s5 env.gradient
  let s7 := if gimp_blend_tool_is_shapeburst env then gimp_blend_tool_precalc_shapeburst s6 env
            else s6
  gimp_draw_tool_start s7 display

/-- The function `gimp_blend_tool_halt`. -/
def gimp_blend_tool_halt (s : ToolState) : ToolState :=
  let s1 : ToolState :=
    if s.graph.isSome then
      { s with graph := none, render_node := none, dist_node := none }
    else s
  let s2 : ToolState :=
    if s1.dist_buffer.isSome then { s1 with dist_buffer := none } else s1
  let s3 : ToolState :=
    match s2.filter with
    | some f =>
      gimp_image_flush
        { s2 with filter := none, log := s2.log ++ [Effect.filter_abort f] } s2.display
    | none => s2
  let s4 : ToolState :=
    if s3.undo_stack ≠ [] then { s3 with undo_stack := [] } else s3
  let s5 : ToolState :=
    if s4.redo_stack ≠ [] then { s4 with redo_stack := [] } else s4
  let s6 := if gimp_draw_tool_is_active s5 then gimp_draw_tool_stop s5 else s5
  let s7 := gimp_draw_tool_set_widget s6 none
  { s7 with widget := none, display := none, drawable := none }

/-- The function `gimp_blend_tool_commit`. -/
def gimp_blend_tool_commit (s : ToolState) : ToolState :=
  let s1 : ToolState :=
    match s.filter with
    | some f =>
      gimp_image_flush
        { s with filter := none, log := s.log ++ [Effect.filter_commit f] } s.display
    | none => s
  gimp_blend_tool_halt s1

/-- Modelled from the spec: the `control` method of the parent classes (GimpDrawTool
and GimpTool are not under src/): on HALT the draw tool is stopped and the tool
forgets its display and drawable; the other actions touch none of the fields here. -/
def parent_control (s : ToolState) (action : GimpToolAction) : ToolState :=
  match action with
  | .HALT =>
    let s1 := if gimp_draw_tool_is_active s then gimp_draw_tool_stop s else s
    { s1 with display := none, drawable := none }
  | _ => s

/-- The method `gimp_blend_tool_control`. -/
def gimp_blend_tool_control (s : ToolState) (action : GimpToolAction) : ToolState :=
  let s1 : ToolState :=
    match action with
    | .PAUSE => s
    | .RESUME => s
    | .HALT => gimp_blend_tool_halt s
    | .COMMIT => gimp_blend_tool_commit s
  parent_control s1 action

/-- Modelled from the spec: `gimp_tool_control` (GimpTool is not under src/)
dispatches the action to the tool's `control` method. -/
def gimp_tool_control (s : ToolState) (action : GimpToolAction) : ToolState :=
  gimp_blend_tool_control s action

/-- The signal handler `gimp_blend_tool_line_response`. -/
def gimp_blend_tool_line_response (s : ToolState) (response_id : GimpToolWidgetResponse) :
    ToolState :=
  match response_id with
  | .CONFIRM => gimp_tool_control s GimpToolAction.COMMIT
  | .CANCEL => gimp_tool_control s GimpToolAction.HALT
  | .OTHER => s

/-! ## Pointer events -/

/-- The line widget's answer to a button press: the geometry changes it makes and
whether it claims the press. -/
structure PressReaction where
  changes : List BlendInfo
  claimed : Bool
deriving DecidableEq

/-- The method `gimp_blend_tool_button_press`. The hover call after a fresh start only
moves the widget's highlight and leaves the tool's fields alone. -/
def gimp_blend_tool_button_press (s : ToolState) (coords : GimpCoords)
    (display : GimpDisplay) (env : Env) (reaction : PressReaction) : ToolState :=
  let s1 : ToolState :=
    if s.display.isSome && decide (some display ≠ s.display) then
      gimp_tool_control s GimpToolAction.HALT
    else s
  let s2 : ToolState :=
    if s1.widget.isNone then gimp_blend_tool_start s1 coords display env else s1
  let start_x := s2.start_x
  let start_y := s2.start_y
  let end_x := s2.end_x
  let end_y := s2.end_y
  let s3 : ToolState :=
    match s2.widget with
    | none => s2
    | some w =>
      let s2a := widget_changes s2 reaction.changes
      if reaction.claimed then
        { s2a with grab_widget := some w.id,
                   undo_stack := blend_info_new start_x start_y end_x end_y :: s2a.undo_stack }
      else s2a
  s3

/-- Whether `blend_tool->grab_widget` still points at the live widget. -/
def grab_is_live (s : ToolState) (grab : Nat) : Bool :=
  match s.widget with
  | none => false
  | some w => decide (w.id = grab)

/-- The method `gimp_blend_tool_button_release`; `changes` is what the grabbed widget
does with the release. -/
def gimp_blend_tool_button_release (s : ToolState) (_coords : GimpCoords)
    (release_type : GimpButtonReleaseType) (display : GimpDisplay)
    (changes : List BlendInfo) : Except Fault ToolState :=
  let s0 : ToolState := s
  match s0.grab_widget with
  | some grab =>
    if grab_is_live s0 grab then
      let s1 := widget_changes s0 changes
      let s2 : ToolState := { s1 with grab_widget := none }
      if release_type = GimpButtonReleaseType.CANCEL then
        match s2.undo_stack with
        | [] => Except.error Fault.null_dereference
        | data :: _ =>
          Except.ok (gimp_image_flush
            { s2 with undo_stack := g_list_remove s2.undo_stack data } (some display))
      else
        let s3 : ToolState :=
          if s2.redo_stack ≠ [] then { s2 with redo_stack := [] } else s2
        Except.ok (gimp_image_flush s3 (some display))
    else Except.error Fault.freed_widget
  | none =>
    if release_type = GimpButtonReleaseType.CLICK ∨
       release_type = GimpButtonReleaseType.NO_MOTION then
      Except.ok (gimp_tool_control s0 GimpToolAction.COMMIT)
    else Except.ok s0

/-- The method `gimp_blend_tool_motion`. -/
def gimp_blend_tool_motion (s : ToolState) (_coords : GimpCoords)
    (changes : List BlendInfo) : Except Fault ToolState :=
  match s.grab_widget with
  | some grab =>
    if grab_is_live s grab then Except.ok (widget_changes s changes)
    else Except.error Fault.freed_widget
  | none => Except.ok s

/-! ## Undo and redo -/

/-- The method `gimp_blend_tool_get_undo_desc`; `some ()` stands for the string
"Blend Step". -/
def gimp_blend_tool_get_undo_desc (s : ToolState) (display : GimpDisplay) : Option Unit :=
  if some display ≠ s.draw_display ∨ s.undo_stack = [] then none else some ()

/-- The method `gimp_blend_tool_get_redo_desc`. -/
def gimp_blend_tool_get_redo_desc (s : ToolState) (display : GimpDisplay) : Option Unit :=
  if some display ≠ s.draw_display ∨ s.redo_stack = [] then none else some ()

/-- The method `gimp_blend_tool_undo`. -/
def gimp_blend_tool_undo (s : ToolState) (display : GimpDisplay) : Bool × ToolState :=
  if (gimp_blend_tool_get_undo_desc s display).isNone then (false, s)
  else
    let info := blend_info_new s.start_x s.start_y s.end_x s.end_y
    let s1 : ToolState := { s with redo_stack := info :: s.redo_stack }
    match s1.undo_stack with
    | [] => (false, s)
    | info :: _ =>
      let s2 := widget_set_line s1 info
      (true, { s2 with undo_stack := g_list_remove s2.undo_stack info })

/-- The method `gimp_blend_tool_redo`. -/
def gimp_blend_tool_redo (s : ToolState) (display : GimpDisplay) : Bool × ToolState :=
  if (gimp_blend_tool_get_redo_desc s display).isNone then (false, s)
  else
    let info := blend_info_new s.start_x s.start_y s.end_x s.end_y
    let s1 : ToolState := { s with undo_stack := info :: s.undo_stack }
    match s1.redo_stack with
    | [] => (false, s)
    | info :: _ =>
      let s2 := widget_set_line s1 info
      (true, { s2 with redo_stack := g_list_remove s2.redo_stack info })

/-! ## Option changes -/

/-- The property name "gradient". -/
def PROP_GRADIENT : String := "gradient"

/-- The property name "gradient-type". -/
def PROP_GRADIENT_TYPE : String := "gradient-type"

/-- The property name "opacity". -/
def PROP_OPACITY : String := "opacity"

/-- The property name "paint-mode". -/
def PROP_PAINT_MODE : String := "paint-mode"

/-- The method `gimp_blend_tool_options_notify`; `found` is the answer of
`gegl_node_find_property (render_node, pspec->name)`. -/
def gimp_blend_tool_options_notify (s : ToolState) (name : String) (found : Bool)
    (env : Env) : ToolState :=
  if name = PROP_GRADIENT then
    let s1 := gimp_blend_tool_set_gradient s env.gradient
    if s1.filter.isSome then gimp_drawable_filter_apply s1 else s1
  else if s.render_node.isSome && found then
    let s1 : ToolState := { s with log := s.log ++ [Effect.node_set_property name] }
    let s2 : ToolState :=
      if name = PROP_GRADIENT_TYPE then
        let s1a := if gimp_blend_tool_is_shapeburst env then
                     gimp_blend_tool_precalc_shapeburst s1 env
                   else s1
        gimp_blend_tool_update_graph s1a
      else s1
    gimp_drawable_filter_apply s2
  else if s.filter.isSome && decide (name = PROP_OPACITY) then
    match s.filter with
    | some f => { s with log := s.log ++ [Effect.filter_set_opacity f] }
    | none => s
  else if s.filter.isSome && decide (name = PROP_PAINT_MODE) then
    match s.filter with
    | some f => { s with log := s.log ++ [Effect.filter_set_mode f] }
    | none => s
  else s

/-! ## Runs of the tool -/

/-- The calls the application and the collaborators make on the tool. -/
inductive Event where
  | button_press (coords : GimpCoords) (display : GimpDisplay) (env : Env)
      (reaction : PressReaction)
  | button_release (coords : GimpCoords) (release_type : GimpButtonReleaseType)
      (display : GimpDisplay) (changes : List BlendInfo)
  | motion (coords : GimpCoords) (changes : List BlendInfo)
  | undo (display : GimpDisplay)
  | redo (display : GimpDisplay)
  | options_notify (name : String) (found : Bool) (env : Env)
  | gradient_dirty
  | control (action : GimpToolAction)
  | line_changed (info : BlendInfo)
  | line_response (response_id : GimpToolWidgetResponse)

/-- One call on the tool. -/
def step (s : ToolState) : Event → Except Fault ToolState
  | .button_press coords display env reaction =>
    Except.ok (gimp_blend_tool_button_press s coords display env reaction)
  | .button_release coords release_type display changes =>
    gimp_blend_tool_button_release s coords release_type display changes
  | .motion coords changes => gimp_blend_tool_motion s coords changes
  | .undo display => Except.ok (gimp_blend_tool_undo s display).2
  | .redo display => Except.ok (gimp_blend_tool_redo s display).2
  | .options_notify name found env =>
    Except.ok (gimp_blend_tool_options_notify s name found env)
  | .gradient_dirty => Except.ok (gimp_blend_tool_gradient_dirty s)
  | .control action => Except.ok (gimp_tool_control s action)
  | .line_changed info => Except.ok (widget_set_line s info)
  | .line_response response_id => Except.ok (gimp_blend_tool_line_response s response_id)

/-- A sequence of calls, stopping at the first fault. -/
def run (s : ToolState) : List Event → Except Fault ToolState
  | [] => Except.ok s
  | e :: es =>
    match step s e with
    | Except.ok s1 => run s1 es
    | Except.error f => Except.error f

/-- The states the tool can be in: those a sequence of calls reaches from `init`. -/
def Reachable (s : ToolState) : Prop :=
  ∃ es : List Event, run init es = Except.ok s

/-- An active session on `display`: what `gimp_blend_tool_start` sets up is in place. -/
def Active (s : ToolState) (display : GimpDisplay) : Prop :=
  s.display = some display ∧ s.draw_display = some display ∧ s.drawable.isSome ∧
  s.widget.isSome ∧ s.filter.isSome ∧ s.graph.isSome ∧ s.render_node.isSome

/-- Decidability of `Active`, a conjunction of decidable equalities. -/
instance instDecidableActive (s : ToolState) (display : GimpDisplay) :
    Decidable (Active s display) := by
  unfold Active
  infer_instance

/-- An idle tool: nothing of a session is left. -/
def Idle (s : ToolState) : Prop :=
  s.graph = none ∧ s.render_node = none ∧ s.dist_node = none ∧ s.dist_buffer = none ∧
  s.filter = none ∧ s.undo_stack = [] ∧ s.redo_stack = [] ∧ s.widget = none ∧
  s.display = none ∧ s.drawable = none ∧ s.draw_display = none ∧ s.draw_widget = none

/-- Decidability of `Idle`, a conjunction of decidable equalities. -/
instance instDecidableIdle (s : ToolState) : Decidable (Idle s) := by
  unfold Idle
  infer_instance

/-- Exchanging the undo stack and the redo stack. -/
def swap (s : ToolState) : ToolState :=
  { s with undo_stack := s.redo_stack, redo_stack := s.undo_stack }

/-! ## Drag gestures -/

/-- One drag gesture on the line widget: a press the widget claims, motion events, a
release; each event carries the geometry changes the widget makes for it. -/
structure Gesture where
  press_coords : GimpCoords
  press_changes : List BlendInfo
  motions : List (GimpCoords × List BlendInfo)
  release_coords : GimpCoords
  release_type : GimpButtonReleaseType
  release_changes : List BlendInfo
  env : Env

/-- The motion events of a gesture, in order. -/
def run_motions (s : ToolState) : List (GimpCoords × List BlendInfo) → Except Fault ToolState
  | [] => Except.ok s
  | m :: ms =>
    match gimp_blend_tool_motion s m.1 m.2 with
    | Except.ok s1 => run_motions s1 ms
    | Except.error f => Except.error f

/-- The state after the press and the motion events of a gesture on `display`. -/
def run_drag (s : ToolState) (display : GimpDisplay) (g : Gesture) : Except Fault ToolState :=
  run_motions
    (gimp_blend_tool_button_press s g.press_coords display g.env
      { changes := g.press_changes, claimed := true })
    g.motions

/-- A whole gesture on `display`: press, motions, release. -/
def run_gesture (s : ToolState) (display : GimpDisplay) (g : Gesture) :
    Except Fault ToolState :=
  match run_drag s display g with
  | Except.ok s1 =>
    gimp_blend_tool_button_release s1 g.release_coords g.release_type display
      g.release_changes
  | Except.error f => Except.error f

/-- Gestures one after the other. -/
def run_gestures (s : ToolState) (display : GimpDisplay) : List Gesture → Except Fault ToolState
  | [] => Except.ok s
  | g :: gs =>
    match run_gesture s display g with
    | Except.ok s1 => run_gestures s1 display gs
    | Except.error f => Except.error f

/-- The undo method called `n` times on `display`. -/
def undo_times (s : ToolState) (display : GimpDisplay) : Nat → ToolState
  | 0 => s
  | n + 1 => undo_times (gimp_blend_tool_undo s display).2 display n

/-! ## Auxiliary notions for the proofs -/

deriving instance DecidableEq for Except

/-- What widget geometry changes keep: every field but the line, the widget's four
properties, the render node's parameters and the log. -/
def SameSession (s t : ToolState) : Prop :=
  t.display = s.display ∧ t.drawable = s.drawable ∧ t.draw_display = s.draw_display ∧
  t.draw_widget = s.draw_widget ∧ t.gradient = s.gradient ∧ t.graph = s.graph ∧
  t.dist_node = s.dist_node ∧ t.dist_buffer = s.dist_buffer ∧ t.filter = s.filter ∧
  t.grab_widget = s.grab_widget ∧ t.undo_stack = s.undo_stack ∧
  t.redo_stack = s.redo_stack ∧ t.fresh = s.fresh ∧
  t.widget.map GimpToolLine.id = s.widget.map GimpToolLine.id ∧
  t.render_node.isSome = s.render_node.isSome

/-- The part of `Active` the history hooks rely on: the tool and the draw tool are on
`display` and the widget `w` exists. -/
def OnDisplay (s : ToolState) (display : GimpDisplay) (w : Nat) : Prop :=
  s.display = some display ∧ s.draw_display = some display ∧
  s.widget.map GimpToolLine.id = some w

/-- What the graph, filter and draw-tool helpers keep: the widget, both stacks, the
grab, the line, the display and the drawable. -/
def SameHistory (s t : ToolState) : Prop :=
  t.widget = s.widget ∧ t.undo_stack = s.undo_stack ∧ t.redo_stack = s.redo_stack ∧
  t.grab_widget = s.grab_widget ∧ current t = current s ∧ t.display = s.display ∧
  t.drawable = s.drawable

/-- The state in which `gimp_blend_tool_button_press` forwards the press to the widget:
after the halt of a session on another display and after the start of a new session
when there is no widget. -/
def press_prepared (s : ToolState) (coords : GimpCoords) (display : GimpDisplay)
    (env : Env) : ToolState :=
  let s1 : ToolState :=
    if s.display.isSome && decide (some display ≠ s.display) then
      gimp_tool_control s GimpToolAction.HALT
    else s
  if s1.widget.isNone then gimp_blend_tool_start s1 coords display env else s1

/-- What every state of the tool satisfies: the graph, its two nodes, the filter, the
display and the drawable exist exactly when the widget does, the draw tool mirrors the
tool's display and widget, and without a widget there is no history and no distance
buffer. -/
def WellFormed (s : ToolState) : Prop :=
  s.graph.isSome = s.widget.isSome ∧ s.render_node.isSome = s.widget.isSome ∧
  s.dist_node.isSome = s.widget.isSome ∧ s.filter.isSome = s.widget.isSome ∧
  s.display.isSome = s.widget.isSome ∧ s.drawable.isSome = s.widget.isSome ∧
  s.draw_display = s.display ∧ s.draw_widget = s.widget.map GimpToolLine.id ∧
  (s.widget = none → s.undo_stack = [] ∧ s.redo_stack = [] ∧ s.dist_buffer = none)

/-! ## Concrete sessions -/

/-- A display. -/
def display_A : GimpDisplay := 1

/-- Another display. -/
def display_B : GimpDisplay := 2

/-- Surroundings with a linear gradient and a drawable at offset (0, 0). -/
def linear_env : Env :=
  { drawable := { id := 1, off_x := 0, off_y := 0 },
    gradient_type := GimpGradientType.LINEAR,
    gradient := some { id := 1, has_fg_bg_segments := false },
    mask_intersect := true,
    distmap := some { id := 1 } }

/-- The point (10, 10). -/
def p10 : GimpCoords := { x := 10, y := 10 }

/-- The point (50, 50). -/
def p50 : GimpCoords := { x := 50, y := 50 }

/-- A drag with a press at (10, 10), one motion that moves the end point to (50, 50)
and a normal release. -/
def drag_to_50 : Gesture :=
  { press_coords := p10, press_changes := [],
    motions := [(p50, [{ start_x := 10, start_y := 10, end_x := 50, end_y := 50 }])],
    release_coords := p50, release_type := GimpButtonReleaseType.NORMAL,
    release_changes := [], env := linear_env }

/-- A second drag that moves the start point to (20, 30). -/
def drag_start_to_20_30 : Gesture :=
  { press_coords := p10, press_changes := [],
    motions := [({ x := 20, y := 30 },
                 [{ start_x := 20, start_y := 30, end_x := 50, end_y := 50 }])],
    release_coords := { x := 20, y := 30 }, release_type := GimpButtonReleaseType.NORMAL,
    release_changes := [], env := linear_env }

/-- The session `gimp_blend_tool_start` opens at (10, 10) on `display_A`. -/
def started_at_10 : ToolState :=
  gimp_blend_tool_start init p10 display_A linear_env

/-- The events of: press at (10, 10) on `display_A` in the idle tool, drag to (50, 50),
release. -/
def drag_events : List Event :=
  [Event.button_press p10 display_A linear_env { changes := [], claimed := true },
   Event.motion p50 [{ start_x := 10, start_y := 10, end_x := 50, end_y := 50 }],
   Event.button_release p50 GimpButtonReleaseType.NORMAL display_A []]

/-- The state after `drag_events`: line (10, 10)-(50, 50), one undo entry. -/
def dragged_to_50 : ToolState :=
  { display := some 1, drawable := some { id := 1, off_x := 0, off_y := 0 },
    draw_display := some 1, draw_widget := some 0,
    gradient := some { id := 1, has_fg_bg_segments := false },
    start_x := 10, start_y := 10, end_x := 50, end_y := 50,
    graph := some 1,
    render_node := some
      { geom := some { start_x := 10, start_y := 10, end_x := 50, end_y := 50 },
        gradient := some { id := 1, has_fg_bg_segments := false } },
    dist_node := some { buffer := none }, dist_buffer := none,
    filter := some 2,
    widget := some { id := 0, x1 := 10, y1 := 10, x2 := 50, y2 := 50 },
    grab_widget := none,
    undo_stack := [{ start_x := 10, start_y := 10, end_x := 10, end_y := 10 }],
    redo_stack := [],
    log := [Effect.line_new 0 { start_x := 10, start_y := 10, end_x := 10, end_y := 10 },
            Effect.filter_new 2 { id := 1, off_x := 0, off_y := 0 },
            Effect.filter_set_region 2, Effect.filter_set_opacity 2,
            Effect.filter_set_mode 2, Effect.config_sync_node,
            Effect.filter_apply (some 2), Effect.image_flush (some 1)],
    fresh := 3 }

/-- The state after `drag_events` and one undo on `display_A`: line (10, 10)-(10, 10),
empty undo stack, one redo entry. -/
def dragged_then_undone : ToolState :=
  (gimp_blend_tool_undo dragged_to_50 display_A).2

/-- The state `dragged_then_undone` after a further press at (10, 10) that the widget
claims: a grab is held and the redo stack still has its entry. -/
def pressed_after_undo : ToolState :=
  gimp_blend_tool_button_press dragged_then_undone p10 display_A linear_env
    { changes := [], claimed := true }

/-- A drag that starts at (50, 50), moves the end point to (70, 80) and is cancelled;
the widget puts the line back on the cancel. -/
def cancelled_drag : Gesture :=
  { press_coords := p50, press_changes := [],
    motions := [({ x := 70, y := 80 },
                 [{ start_x := 50, start_y := 50, end_x := 70, end_y := 80 }])],
    release_coords := { x := 70, y := 80 }, release_type := GimpButtonReleaseType.CANCEL,
    release_changes := [{ start_x := 50, start_y := 50, end_x := 50, end_y := 50 }],
    env := linear_env }

/-! ## Tool activation and cursor feedback -/

/-- What the target validity queries answer for the active drawable of the display's
image: `gimp_viewable_get_children` (a layer group), `gimp_item_is_content_locked`
and `gimp_item_is_visible`. -/
structure TargetValidity where
  has_children : Bool
  content_locked : Bool
  visible : Bool
deriving DecidableEq

/-- The error text for a layer group. -/
def MSG_LAYER_GROUP : String := "Cannot modify the pixels of layer groups."

/-- The error text for a content-locked layer. -/
def MSG_LOCKED : String := "The active layer's pixels are locked."

/-- The error text for a hidden layer. -/
def MSG_NOT_VISIBLE : String := "The active layer is not visible."

/-- The error text for a context without a gradient. -/
def MSG_NO_GRADIENT : String := "No gradient available for use with this tool."

/-- The method `gimp_blend_tool_initialize`: `Except.ok ()` stands for TRUE, and
`Except.error msg` for FALSE with `msg` set as the error. `parent` is the outcome of
the parent class method, `gradient` is `gimp_context_get_gradient` of the options. -/
def gimp_blend_tool_initialize (parent : Except String Unit) (target : TargetValidity)
    (gradient : Option GimpGradient) : Except String Unit :=
  match parent with
  | Except.error e => Except.error e
  | Except.ok _ =>
    if target.has_children then Except.error MSG_LAYER_GROUP
    else if target.content_locked then Except.error MSG_LOCKED
    else if !target.visible then Except.error MSG_NOT_VISIBLE
    else if gradient.isNone then Except.error MSG_NO_GRADIENT
    else Except.ok ()

/-- What `gimp_blend_tool_cursor_update` does with the cursor: set the modifier
`GIMP_CURSOR_MODIFIER_BAD`, set `GIMP_CURSOR_MODIFIER_PLUS`, or leave the cursor to the
parent class method. -/
inductive CursorChoice where
  | BAD
  | PLUS
  | PARENT
deriving DecidableEq

/-- The method `gimp_blend_tool_cursor_update`. The pointer coordinates and the
gradient of the options are within reach of the method; it reads neither. -/
def gimp_blend_tool_cursor_update (s : ToolState) (_coords : GimpCoords)
    (display : GimpDisplay) (target : TargetValidity) (_gradient : Option GimpGradient) :
    CursorChoice :=
  if target.has_children || target.content_locked || !target.visible then CursorChoice.BAD
  else if decide (some display ≠ s.display) || s.widget.isNone then CursorChoice.PLUS
  else CursorChoice.PARENT

/-! ## Notions for the session properties -/

/-- Whether an effect is a computation of the distance map. -/
def is_distmap : Effect → Bool
  | Effect.shapeburst_distmap _ => true
  | _ => false

/-- How many times the distance map was computed, by the effect log. -/
def distmap_count (s : ToolState) : Nat :=
  s.log.countP is_distmap

/-- Whether call `e` in state `s` stays within the running session: it is not a halt
or a commit, not a press on another display, and not a click release without a grab
(which commits). -/
def keeps_session (s : ToolState) : Event → Bool
  | .button_press _ display _ _ => decide (s.display = some display)
  | .button_release _ release_type _ _ =>
    s.grab_widget.isSome ||
      (decide (release_type ≠ GimpButtonReleaseType.CLICK) &&
       decide (release_type ≠ GimpButtonReleaseType.NO_MOTION))
  | .control action =>
    decide (action = GimpToolAction.PAUSE) || decide (action = GimpToolAction.RESUME)
  | .line_response response_id => decide (response_id = GimpToolWidgetResponse.OTHER)
  | _ => true

/-- A sequence of calls all of which stay within the session that runs in `s`. -/
def InSession (s : ToolState) : List Event → Prop
  | [] => True
  | e :: es =>
    keeps_session s e = true ∧
    match step s e with
    | Except.ok t => InSession t es
    | Except.error _ => True

/-- The line is in step with the widget and the render node: the current geometry is
what the widget holds, and the render node's line parameters are the current geometry
shifted by the drawable offset. -/
def Synced (s : ToolState) : Prop :=
  (∀ w, s.widget = some w → current s = blend_info_new w.x1 w.y1 w.x2 w.y2) ∧
  (∀ node d, s.render_node = some node → s.drawable = some d →
    node.geom = some (blend_info_new (s.start_x - d.off_x) (s.start_y - d.off_y)
      (s.end_x - d.off_x) (s.end_y - d.off_y)))

/-- No call of `gimp_drawable_filter_apply` with an absent filter is on the log. -/
def NoNullApply (s : ToolState) : Prop :=
  Effect.filter_apply none ∉ s.log

/-- Decidability of `InSession`, by running the calls. -/
instance instDecidableInSession : (s : ToolState) → (es : List Event) →
    Decidable (InSession s es)
  | _, [] => isTrue trivial
  | s, e :: es =>
    match hs : step s e with
    | Except.ok t =>
      have := instDecidableInSession t es
      decidable_of_iff (keeps_session s e = true ∧ InSession t es) (by simp [InSession, hs])
    | Except.error _ =>
      decidable_of_iff (keeps_session s e = true) (by simp [InSession, hs])

/-- Surroundings with a shapeburst gradient type, a drawable that meets the mask and a
distance-map computation that returns a buffer. -/
def shapeburst_env : Env :=
  { drawable := { id := 1, off_x := 3, off_y := 4 },
    gradient_type := GimpGradientType.SHAPEBURST_SPHERICAL,
    gradient := some { id := 1, has_fg_bg_segments := false },
    mask_intersect := true,
    distmap := some { id := 7 } }

/-- Calls inside one session: a geometry change, a change of the gradient type (still
shapeburst), an undo and a redo. -/
def session_events : List Event :=
  [Event.motion p50 [{ start_x := 10, start_y := 10, end_x := 50, end_y := 50 }],
   Event.button_release p50 GimpButtonReleaseType.NORMAL display_A [],
   Event.options_notify PROP_GRADIENT_TYPE true shapeburst_env,
   Event.undo display_A,
   Event.redo display_A,
   Event.line_changed { start_x := 20, start_y := 30, end_x := 50, end_y := 50 }]

/-- A press at (10, 10) on `display_A` that the widget claims. -/
def claimed_press : Event :=
  Event.button_press p10 display_A linear_env { changes := [], claimed := true }

/-- A drag that starts at (50, 50), moves the end point to (70, 80) and ends with a
normal release. -/
def drag_from_50 : Gesture :=
  { press_coords := p50, press_changes := [],
    motions := [({ x := 70, y := 80 },
                 [{ start_x := 50, start_y := 50, end_x := 70, end_y := 80 }])],
    release_coords := { x := 70, y := 80 }, release_type := GimpButtonReleaseType.NORMAL,
    release_changes := [], env := linear_env }

/-! ## Facts about widget geometry changes -/

theorem sameSession_refl (s : ToolState) : SameSession s s := by
  simp [SameSession]

theorem sameSession_trans {s t u : ToolState} (h1 : SameSession s t) (h2 : SameSession t u) :
    SameSession s u := by
  obtain ⟨a1, a2, a3, a4, a5, a6, a7, a8, a9, a10, a11, a12, a13, a14, a15⟩ := h1
  obtain ⟨b1, b2, b3, b4, b5, b6, b7, b8, b9, b10, b11, b12, b13, b14, b15⟩ := h2
  exact ⟨b1.trans a1, b2.trans a2, b3.trans a3, b4.trans a4, b5.trans a5, b6.trans a6,
    b7.trans a7, b8.trans a8, b9.trans a9, b10.trans a10, b11.trans a11, b12.trans a12,
    b13.trans a13, b14.trans a14, b15.trans a15⟩

theorem widget_set_line_same (s : ToolState) (info : BlendInfo) :
    SameSession s (widget_set_line s info) := by
  unfold widget_set_line
  cases hw : s.widget with
  | none => exact sameSession_refl s
  | some w =>
    cases hr : s.render_node <;> cases hd : s.drawable <;>
      simp [SameSession, gimp_blend_tool_line_changed, gimp_blend_tool_update_graph,
        gimp_drawable_filter_apply, hw, hr, hd]

theorem widget_changes_same (changes : List BlendInfo) (s : ToolState) :
    SameSession s (widget_changes s changes) := by
  induction changes generalizing s with
  | nil => exact sameSession_refl s
  | cons c cs ih =>
    exact sameSession_trans (widget_set_line_same s c) (ih (widget_set_line s c))

theorem onDisplay_of_same {s t : ToolState} {d : GimpDisplay} {w : Nat}
    (h : OnDisplay s d w) (hst : SameSession s t) : OnDisplay t d w := by
  obtain ⟨h1, h2, h3⟩ := h
  obtain ⟨b1, _, b3, _, _, _, _, _, _, _, _, _, _, b14, _⟩ := hst
  exact ⟨b1.trans h1, b3.trans h2, b14.trans h3⟩

theorem active_onDisplay {s : ToolState} {d : GimpDisplay} (h : Active s d) :
    ∃ w, OnDisplay s d w := by
  obtain ⟨h1, h2, _, h4, _⟩ := h
  cases hw : s.widget with
  | none => simp [hw] at h4
  | some w => exact ⟨w.id, h1, h2, by simp [hw]⟩

theorem widget_set_line_current (s : ToolState) (info : BlendInfo) (h : s.widget.isSome) :
    current (widget_set_line s info) = info := by
  unfold widget_set_line
  cases hw : s.widget with
  | none => simp [hw] at h
  | some w =>
    cases hr : s.render_node <;> cases hd : s.drawable <;>
      simp [current, gimp_blend_tool_line_changed, gimp_blend_tool_update_graph,
        gimp_drawable_filter_apply, hr, hd]

/-! ## Facts about undo, redo and gestures -/

theorem g_list_remove_head (data : BlendInfo) (rest : List BlendInfo) :
    g_list_remove (data :: rest) data = rest := by
  simp [g_list_remove]

theorem widget_isSome_of_onDisplay {s : ToolState} {d : GimpDisplay} {w : Nat}
    (h : OnDisplay s d w) : s.widget.isSome := by
  obtain ⟨_, _, h3⟩ := h
  cases hw : s.widget with
  | none => simp [hw] at h3
  | some v => rfl

theorem undo_eq (s : ToolState) (d : GimpDisplay) (e : BlendInfo) (rest : List BlendInfo)
    (hd : s.draw_display = some d) (hu : s.undo_stack = e :: rest) :
    gimp_blend_tool_undo s d =
      (true, { widget_set_line { s with redo_stack := current s :: s.redo_stack } e with
        undo_stack := g_list_remove
          (widget_set_line { s with redo_stack := current s :: s.redo_stack } e).undo_stack e }) := by
  cases s
  simp only at hd hu
  subst hd hu
  simp [gimp_blend_tool_undo, gimp_blend_tool_get_undo_desc, blend_info_new, current]

theorem redo_eq (s : ToolState) (d : GimpDisplay) (e : BlendInfo) (rest : List BlendInfo)
    (hd : s.draw_display = some d) (hu : s.redo_stack = e :: rest) :
    gimp_blend_tool_redo s d =
      (true, { widget_set_line { s with undo_stack := current s :: s.undo_stack } e with
        redo_stack := g_list_remove
          (widget_set_line { s with undo_stack := current s :: s.undo_stack } e).redo_stack e }) := by
  cases s
  simp only at hd hu
  subst hd hu
  simp [gimp_blend_tool_redo, gimp_blend_tool_get_redo_desc, blend_info_new, current]

theorem undo_pop (s : ToolState) (d : GimpDisplay) (w : Nat) (e : BlendInfo)
    (rest : List BlendInfo) (h : OnDisplay s d w) (hu : s.undo_stack = e :: rest) :
    (gimp_blend_tool_undo s d).1 = true ∧
    OnDisplay (gimp_blend_tool_undo s d).2 d w ∧
    (gimp_blend_tool_undo s d).2.undo_stack = rest ∧
    (gimp_blend_tool_undo s d).2.redo_stack = current s :: s.redo_stack ∧
    current (gimp_blend_tool_undo s d).2 = e := by
  have hs := widget_set_line_same { s with redo_stack := current s :: s.redo_stack } e
  have hc := widget_set_line_current { s with redo_stack := current s :: s.redo_stack } e
    (widget_isSome_of_onDisplay h)
  have hd : s.draw_display = some d := h.2.1
  obtain ⟨b1, _, b3, _, _, _, _, _, _, _, b11, b12, _, b14, _⟩ := hs
  rw [undo_eq s d e rest hd hu]
  refine ⟨rfl, ⟨b1.trans h.1, b3.trans hd, b14.trans h.2.2⟩, ?_, b12, hc⟩
  show g_list_remove (widget_set_line _ e).undo_stack e = rest
  rw [b11]
  show g_list_remove s.undo_stack e = rest
  rw [hu]
  exact g_list_remove_head e rest

theorem grab_is_live_of_widget {s : ToolState} {w : Nat}
    (h : s.widget.map GimpToolLine.id = some w) : grab_is_live s w = true := by
  unfold grab_is_live
  cases hw : s.widget with
  | none => simp [hw] at h
  | some v =>
    simp only [hw, Option.map_some', Option.some.injEq] at h
    simp [h]

theorem press_claimed_eq (s : ToolState) (coords : GimpCoords) (d : GimpDisplay) (env : Env)
    (changes : List BlendInfo) (w : GimpToolLine)
    (hd : s.display = none ∨ s.display = some d) (hw : s.widget = some w) :
    gimp_blend_tool_button_press s coords d env { changes := changes, claimed := true } =
      { widget_changes s changes with
        grab_widget := some w.id,
        undo_stack := current s :: (widget_changes s changes).undo_stack } := by
  cases s
  simp only at hd hw
  subst hw
  rcases hd with hd | hd <;> subst hd <;>
    simp [gimp_blend_tool_button_press, blend_info_new, current]

theorem press_claimed_session (s : ToolState) (coords : GimpCoords) (d : GimpDisplay)
    (env : Env) (changes : List BlendInfo) (w : Nat) (h : OnDisplay s d w) :
    OnDisplay (gimp_blend_tool_button_press s coords d env
      { changes := changes, claimed := true }) d w ∧
    (gimp_blend_tool_button_press s coords d env
      { changes := changes, claimed := true }).grab_widget = some w ∧
    (gimp_blend_tool_button_press s coords d env
      { changes := changes, claimed := true }).undo_stack = current s :: s.undo_stack ∧
    (gimp_blend_tool_button_press s coords d env
      { changes := changes, claimed := true }).redo_stack = s.redo_stack := by
  obtain ⟨h1, h2, h3⟩ := h
  cases hw : s.widget with
  | none => simp [hw] at h3
  | some v =>
    have hv : v.id = w := by simpa [hw] using h3
    rw [press_claimed_eq s coords d env changes v (Or.inr h1) hw]
    obtain ⟨b1, _, b3, _, _, _, _, _, _, _, b11, b12, _, b14, _⟩ := widget_changes_same changes s
    refine ⟨⟨b1.trans h1, b3.trans h2, b14.trans h3⟩, ?_, ?_, b12⟩
    · show some v.id = some w
      rw [hv]
    · show current s :: (widget_changes s changes).undo_stack = current s :: s.undo_stack
      rw [b11]

theorem motion_grabbed (s : ToolState) (coords : GimpCoords) (changes : List BlendInfo)
    (w : Nat) (hg : s.grab_widget = some w) (hw : s.widget.map GimpToolLine.id = some w) :
    gimp_blend_tool_motion s coords changes = Except.ok (widget_changes s changes) := by
  simp [gimp_blend_tool_motion, hg, grab_is_live_of_widget hw]

theorem run_motions_grabbed (ms : List (GimpCoords × List BlendInfo)) (s : ToolState)
    (w : Nat) (hg : s.grab_widget = some w) (hw : s.widget.map GimpToolLine.id = some w) :
    ∃ t, run_motions s ms = Except.ok t ∧ SameSession s t := by
  induction ms generalizing s with
  | nil => exact ⟨s, rfl, sameSession_refl s⟩
  | cons m ms ih =>
    have hs := widget_changes_same m.2 s
    obtain ⟨t, ht, hst⟩ := ih (widget_changes s m.2) (hs.2.2.2.2.2.2.2.2.2.1.trans hg)
      (hs.2.2.2.2.2.2.2.2.2.2.2.2.2.1.trans hw)
    refine ⟨t, ?_, sameSession_trans hs hst⟩
    simp only [run_motions, motion_grabbed s m.1 m.2 w hg hw]
    exact ht

theorem release_grabbed_eq (s : ToolState) (coords : GimpCoords)
    (release_type : GimpButtonReleaseType) (d : GimpDisplay) (changes : List BlendInfo)
    (w : Nat) (hg : s.grab_widget = some w) (hw : s.widget.map GimpToolLine.id = some w) :
    gimp_blend_tool_button_release s coords release_type d changes =
      if release_type = GimpButtonReleaseType.CANCEL then
        match (widget_changes s changes).undo_stack with
        | [] => Except.error Fault.null_dereference
        | data :: _ =>
          Except.ok (gimp_image_flush
            { widget_changes s changes with
              grab_widget := none,
              undo_stack := g_list_remove (widget_changes s changes).undo_stack data } (some d))
      else
        Except.ok (gimp_image_flush
          { widget_changes s changes with grab_widget := none, redo_stack := [] } (some d)) := by
  simp only [gimp_blend_tool_button_release, hg, grab_is_live_of_widget hw, if_true]
  by_cases hc : release_type = GimpButtonReleaseType.CANCEL
  · simp only [hc, if_true]
  · simp only [hc, if_false]
    by_cases hr : (widget_changes s changes).redo_stack = []
    · simp only [ne_eq, hr, not_true_eq_false, if_false]
    · simp only [ne_eq, hr, not_false_eq_true, if_true]

theorem run_drag_session (s : ToolState) (d : GimpDisplay) (g : Gesture) (w : Nat)
    (h : OnDisplay s d w) :
    ∃ t, run_drag s d g = Except.ok t ∧ OnDisplay t d w ∧ t.grab_widget = some w ∧
      t.undo_stack = current s :: s.undo_stack ∧ t.redo_stack = s.redo_stack := by
  obtain ⟨p1, p2, p3, p4⟩ := press_claimed_session s g.press_coords d g.env g.press_changes w h
  obtain ⟨t, ht, hst⟩ := run_motions_grabbed g.motions _ w p2 p1.2.2
  refine ⟨t, ht, onDisplay_of_same p1 hst, ?_, ?_, ?_⟩
  · exact hst.2.2.2.2.2.2.2.2.2.1.trans p2
  · exact hst.2.2.2.2.2.2.2.2.2.2.1.trans p3
  · exact hst.2.2.2.2.2.2.2.2.2.2.2.1.trans p4

theorem gesture_complete (s : ToolState) (d : GimpDisplay) (g : Gesture) (w : Nat)
    (h : OnDisplay s d w) (hr : g.release_type ≠ GimpButtonReleaseType.CANCEL) :
    ∃ t, run_gesture s d g = Except.ok t ∧ OnDisplay t d w ∧ t.grab_widget = none ∧
      t.undo_stack = current s :: s.undo_stack ∧ t.redo_stack = [] := by
  obtain ⟨t1, ht1, q1, q2, q3, _⟩ := run_drag_session s d g w h
  have hs := widget_changes_same g.release_changes t1
  refine ⟨gimp_image_flush
    { widget_changes t1 g.release_changes with grab_widget := none, redo_stack := [] }
    (some d), ?_, ?_, ?_, ?_, ?_⟩
  · simp only [run_gesture, ht1]
    rw [release_grabbed_eq t1 g.release_coords g.release_type d g.release_changes w q2 q1.2.2,
      if_neg hr]
  · obtain ⟨a1, a2, a3⟩ := onDisplay_of_same q1 hs
    exact ⟨a1, a2, a3⟩
  · rfl
  · exact hs.2.2.2.2.2.2.2.2.2.2.1.trans q3
  · rfl

theorem gestures_complete (gs : List Gesture) (g : Gesture) (s : ToolState) (d : GimpDisplay)
    (w : Nat) (h : OnDisplay s d w)
    (hr : ∀ x ∈ g :: gs, x.release_type ≠ GimpButtonReleaseType.CANCEL) :
    ∃ t l, run_gestures s d (g :: gs) = Except.ok t ∧ OnDisplay t d w ∧
      l.length = gs.length ∧ t.undo_stack = l ++ current s :: s.undo_stack ∧
      t.redo_stack = [] ∧ t.grab_widget = none := by
  induction gs generalizing s g with
  | nil =>
    obtain ⟨t, ht, q1, q2, q3, q4⟩ := gesture_complete s d g w h (hr g (by simp))
    exact ⟨t, [], by simp [run_gestures, ht], q1, rfl, by simpa using q3, q4, q2⟩
  | cons g2 gs ih =>
    obtain ⟨t1, ht1, q1, _, q3, _⟩ := gesture_complete s d g w h (hr g (by simp))
    obtain ⟨t, l, ht, r1, r2, r3, r4, r5⟩ := ih g2 t1 q1 (fun x hx => hr x (by simp [hx]))
    refine ⟨t, l ++ [current t1], ?_, r1, by simp [r2], ?_, r4, r5⟩
    · rw [run_gestures, ht1]
      exact ht
    · rw [r3, q3]
      simp

theorem undo_times_pops (l : List BlendInfo) (s : ToolState) (d : GimpDisplay) (w : Nat)
    (x : BlendInfo) (rest : List BlendInfo) (h : OnDisplay s d w)
    (hu : s.undo_stack = l ++ x :: rest) :
    current (undo_times s d (l.length + 1)) = x ∧
    (undo_times s d (l.length + 1)).undo_stack = rest := by
  induction l generalizing s with
  | nil =>
    obtain ⟨_, _, p3, _, p5⟩ := undo_pop s d w x rest h (by simpa using hu)
    exact ⟨p5, p3⟩
  | cons e l ih =>
    obtain ⟨_, p2, p3, _, _⟩ := undo_pop s d w e (l ++ x :: rest) h (by simpa using hu)
    exact ih (gimp_blend_tool_undo s d).2 p2 p3

theorem undo_desc_none_iff (s : ToolState) (d : GimpDisplay) :
    gimp_blend_tool_get_undo_desc s d = none ↔ (some d ≠ s.draw_display ∨ s.undo_stack = []) := by
  unfold gimp_blend_tool_get_undo_desc
  split <;> simp_all

theorem redo_desc_none_iff (s : ToolState) (d : GimpDisplay) :
    gimp_blend_tool_get_redo_desc s d = none ↔ (some d ≠ s.draw_display ∨ s.redo_stack = []) := by
  unfold gimp_blend_tool_get_redo_desc
  split <;> simp_all

theorem undo_of_desc_none (s : ToolState) (d : GimpDisplay)
    (h : gimp_blend_tool_get_undo_desc s d = none) : gimp_blend_tool_undo s d = (false, s) := by
  simp [gimp_blend_tool_undo, h]

theorem redo_of_desc_none (s : ToolState) (d : GimpDisplay)
    (h : gimp_blend_tool_get_redo_desc s d = none) : gimp_blend_tool_redo s d = (false, s) := by
  simp [gimp_blend_tool_redo, h]

theorem undo_desc_some (s : ToolState) (d : GimpDisplay)
    (h : gimp_blend_tool_get_undo_desc s d ≠ none) :
    s.draw_display = some d ∧ ∃ e rest, s.undo_stack = e :: rest := by
  have h1 := (undo_desc_none_iff s d).not.mp h
  simp only [ne_eq, not_or, not_not] at h1
  refine ⟨h1.1.symm, ?_⟩
  cases hu : s.undo_stack with
  | nil => exact absurd hu h1.2
  | cons e rest => exact ⟨e, rest, rfl⟩

theorem redo_desc_some (s : ToolState) (d : GimpDisplay)
    (h : gimp_blend_tool_get_redo_desc s d ≠ none) :
    s.draw_display = some d ∧ ∃ e rest, s.redo_stack = e :: rest := by
  have h1 := (redo_desc_none_iff s d).not.mp h
  simp only [ne_eq, not_or, not_not] at h1
  refine ⟨h1.1.symm, ?_⟩
  cases hu : s.redo_stack with
  | nil => exact absurd hu h1.2
  | cons e rest => exact ⟨e, rest, rfl⟩

theorem widget_set_line_none (s : ToolState) (info : BlendInfo) (h : s.widget = none) :
    widget_set_line s info = s := by
  simp [widget_set_line, h]

theorem widget_isSome_of_same {s t : ToolState} (h : SameSession s t) :
    t.widget.isSome = s.widget.isSome := by
  have h14 := h.2.2.2.2.2.2.2.2.2.2.2.2.2.1
  cases hs : s.widget <;> cases ht : t.widget <;> simp [hs, ht] at h14 ⊢

theorem undo_step (s : ToolState) (d : GimpDisplay) (e : BlendInfo) (rest : List BlendInfo)
    (hd : s.draw_display = some d) (hu : s.undo_stack = e :: rest) :
    ∃ u, gimp_blend_tool_undo s d = (true, u) ∧ u.undo_stack = rest ∧
      u.redo_stack = current s :: s.redo_stack ∧ u.draw_display = some d ∧
      u.widget.isSome = s.widget.isSome ∧
      (s.widget.isSome → current u = e) ∧ (s.widget = none → current u = current s) := by
  have hs := widget_set_line_same { s with redo_stack := current s :: s.redo_stack } e
  refine ⟨_, undo_eq s d e rest hd hu, ?_, ?_, ?_, ?_, ?_, ?_⟩
  · show g_list_remove (widget_set_line _ e).undo_stack e = rest
    rw [hs.2.2.2.2.2.2.2.2.2.2.1]
    show g_list_remove s.undo_stack e = rest
    rw [hu, g_list_remove_head]
  · exact hs.2.2.2.2.2.2.2.2.2.2.2.1
  · exact hs.2.2.1.trans hd
  · have h := widget_isSome_of_same hs
    exact h
  · intro hw
    exact widget_set_line_current { s with redo_stack := current s :: s.redo_stack } e hw
  · intro hw
    show current (widget_set_line _ e) = current s
    rw [widget_set_line_none { s with redo_stack := current s :: s.redo_stack } e hw]
    rfl

theorem redo_step (s : ToolState) (d : GimpDisplay) (e : BlendInfo) (rest : List BlendInfo)
    (hd : s.draw_display = some d) (hu : s.redo_stack = e :: rest) :
    ∃ u, gimp_blend_tool_redo s d = (true, u) ∧ u.redo_stack = rest ∧
      u.undo_stack = current s :: s.undo_stack ∧ u.draw_display = some d ∧
      u.widget.isSome = s.widget.isSome ∧
      (s.widget.isSome → current u = e) ∧ (s.widget = none → current u = current s) := by
  have hs := widget_set_line_same { s with undo_stack := current s :: s.undo_stack } e
  refine ⟨_, redo_eq s d e rest hd hu, ?_, ?_, ?_, ?_, ?_, ?_⟩
  · show g_list_remove (widget_set_line _ e).redo_stack e = rest
    rw [hs.2.2.2.2.2.2.2.2.2.2.2.1]
    show g_list_remove s.redo_stack e = rest
    rw [hu, g_list_remove_head]
  · exact hs.2.2.2.2.2.2.2.2.2.2.1
  · exact hs.2.2.1.trans hd
  · have h := widget_isSome_of_same hs
    exact h
  · intro hw
    exact widget_set_line_current { s with undo_stack := current s :: s.undo_stack } e hw
  · intro hw
    show current (widget_set_line _ e) = current s
    rw [widget_set_line_none { s with undo_stack := current s :: s.undo_stack } e hw]
    rfl

theorem undo_then_redo (s : ToolState) (d : GimpDisplay) (e : BlendInfo)
    (rest : List BlendInfo) (hd : s.draw_display = some d) (hu : s.undo_stack = e :: rest) :
    current (gimp_blend_tool_redo (gimp_blend_tool_undo s d).2 d).2 = current s ∧
    (s.widget.isSome →
      (gimp_blend_tool_redo (gimp_blend_tool_undo s d).2 d).2.undo_stack = s.undo_stack) ∧
    (gimp_blend_tool_redo (gimp_blend_tool_undo s d).2 d).2.redo_stack = s.redo_stack := by
  obtain ⟨u, hu1, hu2, hu3, hu4, hu5, hu6, hu7⟩ := undo_step s d e rest hd hu
  obtain ⟨r, hr1, hr2, hr3, _, _, hr6, hr7⟩ := redo_step u d (current s) s.redo_stack hu4 hu3
  rw [hu1]
  show current (gimp_blend_tool_redo u d).2 = _ ∧ (_ → (gimp_blend_tool_redo u d).2.undo_stack = _)
    ∧ (gimp_blend_tool_redo u d).2.redo_stack = _
  rw [hr1]
  refine ⟨?_, ?_, hr2⟩
  · cases hw : s.widget with
    | none =>
      have h1 : u.widget = none := by
        have := hu5
        rw [hw] at this
        simpa using this
      exact (hr7 h1).trans (hu7 hw)
    | some w =>
      have h1 : u.widget.isSome = true := by rw [hu5, hw]; rfl
      exact hr6 h1
  · intro hw
    show r.undo_stack = s.undo_stack
    rw [hr3, hu2, hu6 hw, hu]

/-! ## Facts about start, halt and commit -/

theorem sameHistory_refl (s : ToolState) : SameHistory s s := by
  simp [SameHistory]

theorem sameHistory_trans {s t u : ToolState} (h1 : SameHistory s t) (h2 : SameHistory t u) :
    SameHistory s u := by
  obtain ⟨a1, a2, a3, a4, a5, a6, a7⟩ := h1
  obtain ⟨b1, b2, b3, b4, b5, b6, b7⟩ := h2
  exact ⟨b1.trans a1, b2.trans a2, b3.trans a3, b4.trans a4, b5.trans a5, b6.trans a6,
    b7.trans a7⟩

theorem update_graph_history (s : ToolState) :
    SameHistory s (gimp_blend_tool_update_graph s) := by
  unfold gimp_blend_tool_update_graph
  split
  · exact sameHistory_refl s
  · split <;> simp [SameHistory, current]

theorem create_graph_history (s : ToolState) :
    SameHistory s (gimp_blend_tool_create_graph s) := by
  unfold gimp_blend_tool_create_graph
  split
  · exact sameHistory_refl s
  · exact sameHistory_trans (by simp [SameHistory, current]) (update_graph_history _)

theorem create_filter_history (s : ToolState) (dr : GimpDrawable) :
    SameHistory s (gimp_blend_tool_create_filter s dr) := by
  unfold gimp_blend_tool_create_filter
  split
  · simp [SameHistory, current]
  · have := create_graph_history s
    simpa [SameHistory, current] using this

theorem set_gradient_history (s : ToolState) (g : Option GimpGradient) :
    SameHistory s (gimp_blend_tool_set_gradient s g) := by
  unfold gimp_blend_tool_set_gradient
  split <;> simp [SameHistory, current]

theorem precalc_history (s : ToolState) (env : Env) :
    SameHistory s (gimp_blend_tool_precalc_shapeburst s env) := by
  unfold gimp_blend_tool_precalc_shapeburst
  split
  · exact sameHistory_refl s
  · split
    · exact sameHistory_refl s
    · split
      · exact sameHistory_refl s
      · dsimp only
        split <;> simp [SameHistory, current]

theorem draw_tool_start_history (s : ToolState) (d : GimpDisplay) :
    SameHistory s (gimp_draw_tool_start s d) := by
  unfold gimp_draw_tool_start
  split <;> simp [SameHistory, current]

theorem start_tail_history (x : ToolState) (w : Option Nat) (env : Env) (d : GimpDisplay) :
    SameHistory x
      (gimp_draw_tool_start
        (if gimp_blend_tool_is_shapeburst env then
          gimp_blend_tool_precalc_shapeburst
            (gimp_blend_tool_set_gradient
              { gimp_blend_tool_create_filter (gimp_draw_tool_set_widget x w) env.drawable with
                log := (gimp_blend_tool_create_filter (gimp_draw_tool_set_widget x w)
                  env.drawable).log ++ [Effect.config_sync_node] } env.gradient) env
         else
          gimp_blend_tool_set_gradient
            { gimp_blend_tool_create_filter (gimp_draw_tool_set_widget x w) env.drawable with
              log := (gimp_blend_tool_create_filter (gimp_draw_tool_set_widget x w)
                env.drawable).log ++ [Effect.config_sync_node] } env.gradient) d) := by
  have h0 : SameHistory x (gimp_draw_tool_set_widget x w) := by
    simp [SameHistory, current, gimp_draw_tool_set_widget]
  have h1 := create_filter_history (gimp_draw_tool_set_widget x w) env.drawable
  have h2 : SameHistory
      (gimp_blend_tool_create_filter (gimp_draw_tool_set_widget x w) env.drawable)
      { gimp_blend_tool_create_filter (gimp_draw_tool_set_widget x w) env.drawable with
        log := (gimp_blend_tool_create_filter (gimp_draw_tool_set_widget x w)
          env.drawable).log ++ [Effect.config_sync_node] } := by
    simp [SameHistory, current]
  have h3 := set_gradient_history
      { gimp_blend_tool_create_filter (gimp_draw_tool_set_widget x w) env.drawable with
        log := (gimp_blend_tool_create_filter (gimp_draw_tool_set_widget x w)
          env.drawable).log ++ [Effect.config_sync_node] } env.gradient
  have h03 := sameHistory_trans (sameHistory_trans h0 h1) (sameHistory_trans h2 h3)
  refine sameHistory_trans ?_ (draw_tool_start_history _ d)
  split
  · exact sameHistory_trans h03 (precalc_history _ env)
  · exact h03

theorem start_history (s : ToolState) (c : GimpCoords) (d : GimpDisplay) (env : Env) :
    (gimp_blend_tool_start s c d env).widget =
      some { id := s.fresh, x1 := c.x, y1 := c.y, x2 := c.x, y2 := c.y } ∧
    (gimp_blend_tool_start s c d env).undo_stack = s.undo_stack ∧
    (gimp_blend_tool_start s c d env).redo_stack = s.redo_stack ∧
    (gimp_blend_tool_start s c d env).grab_widget = s.grab_widget ∧
    current (gimp_blend_tool_start s c d env) =
      { start_x := c.x, start_y := c.y, end_x := c.x, end_y := c.y } ∧
    (gimp_blend_tool_start s c d env).display = some d ∧
    (gimp_blend_tool_start s c d env).drawable = some env.drawable := by
  obtain ⟨a1, a2, a3, a4, a5, a6, a7⟩ := start_tail_history
    { s with display := some d, drawable := some env.drawable,
             start_x := c.x, start_y := c.y, end_x := c.x, end_y := c.y,
             widget := some { id := s.fresh, x1 := c.x, y1 := c.y, x2 := c.x, y2 := c.y },
             fresh := s.fresh + 1,
             log := s.log ++ [Effect.line_new s.fresh
               { start_x := c.x, start_y := c.y, end_x := c.x, end_y := c.y }] }
    (some s.fresh) env d
  exact ⟨a1, a2, a3, a4, a5, a6, a7⟩

theorem halt_eq (s : ToolState) :
    gimp_blend_tool_halt s =
      { s with
        display := none, drawable := none, draw_display := none, draw_widget := none,
        graph := none,
        render_node := if s.graph.isSome then none else s.render_node,
        dist_node := if s.graph.isSome then none else s.dist_node,
        dist_buffer := none, filter := none, widget := none,
        undo_stack := [], redo_stack := [],
        log := s.log ++ (match s.filter with
          | some f => [Effect.filter_abort f, Effect.image_flush s.display]
          | none => []) } := by
  obtain ⟨display, drawable, draw_display, draw_widget, gradient, sx, sy, ex, ey, graph,
    render_node, dist_node, dist_buffer, filter, widget, grab, undo_stack, redo_stack, log,
    fresh⟩ := s
  cases graph <;> cases dist_buffer <;> cases filter <;> cases undo_stack <;>
    cases redo_stack <;> cases draw_display <;>
    simp [gimp_blend_tool_halt, gimp_image_flush, gimp_draw_tool_is_active,
      gimp_draw_tool_stop, gimp_draw_tool_set_widget]

theorem commit_eq (s : ToolState) :
    gimp_blend_tool_commit s =
      { s with
        display := none, drawable := none, draw_display := none, draw_widget := none,
        graph := none,
        render_node := if s.graph.isSome then none else s.render_node,
        dist_node := if s.graph.isSome then none else s.dist_node,
        dist_buffer := none, filter := none, widget := none,
        undo_stack := [], redo_stack := [],
        log := s.log ++ (match s.filter with
          | some f => [Effect.filter_commit f, Effect.image_flush s.display]
          | none => []) } := by
  unfold gimp_blend_tool_commit
  rw [halt_eq]
  cases hf : s.filter <;> simp [gimp_image_flush, hf]

theorem control_halt_eq (s : ToolState) :
    gimp_tool_control s GimpToolAction.HALT = gimp_blend_tool_halt s := by
  simp only [gimp_tool_control, gimp_blend_tool_control, parent_control]
  rw [halt_eq]
  simp [gimp_draw_tool_is_active]

theorem control_commit_eq (s : ToolState) :
    gimp_tool_control s GimpToolAction.COMMIT = gimp_blend_tool_commit s := by
  simp only [gimp_tool_control, gimp_blend_tool_control, parent_control]

/-! ## Facts about a press in any state -/

theorem press_prepared_widget (s : ToolState) (c : GimpCoords) (d : GimpDisplay) (env : Env) :
    ∃ w, (press_prepared s c d env).widget = some w := by
  unfold press_prepared
  dsimp only
  generalize (if s.display.isSome && decide (some d ≠ s.display) then
    gimp_tool_control s GimpToolAction.HALT else s) = s1
  by_cases h : s1.widget.isNone = true
  · rw [if_pos h]
    exact ⟨_, (start_history s1 c d env).1⟩
  · rw [if_neg h]
    cases hw : s1.widget with
    | none => simp [hw] at h
    | some w => exact ⟨w, rfl⟩

theorem press_claimed_general (s : ToolState) (c : GimpCoords) (d : GimpDisplay) (env : Env)
    (changes : List BlendInfo) :
    ∃ w, (press_prepared s c d env).widget = some w ∧
      gimp_blend_tool_button_press s c d env { changes := changes, claimed := true } =
        { widget_changes (press_prepared s c d env) changes with
          grab_widget := some w.id,
          undo_stack := current (press_prepared s c d env) ::
            (widget_changes (press_prepared s c d env) changes).undo_stack } := by
  obtain ⟨w, hw⟩ := press_prepared_widget s c d env
  refine ⟨w, hw, ?_⟩
  show (match (press_prepared s c d env).widget with
    | none => press_prepared s c d env
    | some w =>
      if true = true then
        { widget_changes (press_prepared s c d env) changes with
          grab_widget := some w.id,
          undo_stack := blend_info_new (press_prepared s c d env).start_x
            (press_prepared s c d env).start_y (press_prepared s c d env).end_x
            (press_prepared s c d env).end_y ::
            (widget_changes (press_prepared s c d env) changes).undo_stack }
      else widget_changes (press_prepared s c d env) changes) = _
  rw [hw]
  rfl

theorem press_prepared_same_display (s : ToolState) (c : GimpCoords) (d : GimpDisplay)
    (env : Env) (hd : s.display = none ∨ s.display = some d) :
    (press_prepared s c d env).undo_stack = s.undo_stack ∧
    (press_prepared s c d env).redo_stack = s.redo_stack := by
  have h1 : (if s.display.isSome && decide (some d ≠ s.display) then
      gimp_tool_control s GimpToolAction.HALT else s) = s := by
    rcases hd with hd | hd <;> simp [hd]
  unfold press_prepared
  dsimp only
  rw [h1]
  by_cases h : s.widget.isNone = true
  · rw [if_pos h]
    exact ⟨(start_history s c d env).2.1, (start_history s c d env).2.2.1⟩
  · rw [if_neg h]
    exact ⟨rfl, rfl⟩

theorem run_drag_general (s : ToolState) (d : GimpDisplay) (g : Gesture) :
    ∃ t w, run_drag s d g = Except.ok t ∧ t.grab_widget = some w ∧
      t.widget.map GimpToolLine.id = some w ∧
      t.undo_stack = current (press_prepared s g.press_coords d g.env) ::
        (press_prepared s g.press_coords d g.env).undo_stack ∧
      t.redo_stack = (press_prepared s g.press_coords d g.env).redo_stack := by
  obtain ⟨w, hw, hp⟩ := press_claimed_general s g.press_coords d g.env g.press_changes
  have hs := widget_changes_same g.press_changes (press_prepared s g.press_coords d g.env)
  have hwid : (gimp_blend_tool_button_press s g.press_coords d g.env
      { changes := g.press_changes, claimed := true }).widget.map GimpToolLine.id
      = some w.id := by
    rw [hp]
    show (widget_changes _ g.press_changes).widget.map GimpToolLine.id = some w.id
    rw [hs.2.2.2.2.2.2.2.2.2.2.2.2.2.1, hw]
    rfl
  have hgr : (gimp_blend_tool_button_press s g.press_coords d g.env
      { changes := g.press_changes, claimed := true }).grab_widget = some w.id := by
    rw [hp]
  obtain ⟨t, ht, hst⟩ := run_motions_grabbed g.motions _ w.id hgr hwid
  refine ⟨t, w.id, ht, hst.2.2.2.2.2.2.2.2.2.1.trans hgr,
    hst.2.2.2.2.2.2.2.2.2.2.2.2.2.1.trans hwid, ?_, ?_⟩
  · rw [hst.2.2.2.2.2.2.2.2.2.2.1, hp]
    show _ :: (widget_changes _ g.press_changes).undo_stack = _
    rw [hs.2.2.2.2.2.2.2.2.2.2.1]
  · rw [hst.2.2.2.2.2.2.2.2.2.2.2.1, hp]
    exact hs.2.2.2.2.2.2.2.2.2.2.2.1

theorem gesture_general (s : ToolState) (d : GimpDisplay) (g : Gesture)
    (hr : g.release_type ≠ GimpButtonReleaseType.CANCEL) :
    ∃ t, run_gesture s d g = Except.ok t ∧ t.redo_stack = [] ∧ t.grab_widget = none := by
  obtain ⟨t1, w, ht1, q1, q2, _, _⟩ := run_drag_general s d g
  refine ⟨gimp_image_flush
    { widget_changes t1 g.release_changes with grab_widget := none, redo_stack := [] }
    (some d), ?_, rfl, rfl⟩
  simp only [run_gesture, ht1]
  rw [release_grabbed_eq t1 g.release_coords g.release_type d g.release_changes w q1 q2,
    if_neg hr]

/-! ## The invariant of the tool's states -/

theorem wellFormed_init : WellFormed init := by
  simp [WellFormed, init]

theorem wellFormed_of_same {s t : ToolState} (h : WellFormed s) (hst : SameSession s t) :
    WellFormed t := by
  obtain ⟨a1, a2, a3, a4, a5, a6, a7, a8, a9⟩ := h
  obtain ⟨b1, b2, b3, b4, _, b6, b7, b8, b9, _, b11, b12, _, b14, b15⟩ := hst
  have hw : t.widget.isSome = s.widget.isSome := widget_isSome_of_same
    ⟨b1, b2, b3, b4, ‹_›, b6, b7, b8, b9, ‹_›, b11, b12, ‹_›, b14, b15⟩
  refine ⟨?_, ?_, ?_, ?_, ?_, ?_, ?_, ?_, ?_⟩
  · rw [b6, hw, a1]
  · rw [b15, hw, a2]
  · rw [b7, hw, a3]
  · rw [b9, hw, a4]
  · rw [b1, hw, a5]
  · rw [b2, hw, a6]
  · rw [b3, b1, a7]
  · rw [b4, b14, a8]
  · intro hn
    have hsn : s.widget = none := by
      cases hs : s.widget with
      | none => rfl
      | some w => rw [hn, hs] at hw; simp at hw
    rw [b11, b12, b8]
    exact a9 hsn

theorem wellFormed_set_history {s : ToolState} (h : WellFormed s) (hw : s.widget.isSome)
    (u r : List BlendInfo) (g : Option Nat) (lg : List Effect) :
    WellFormed { s with undo_stack := u, redo_stack := r, grab_widget := g, log := lg } := by
  obtain ⟨a1, a2, a3, a4, a5, a6, a7, a8, _⟩ := h
  refine ⟨a1, a2, a3, a4, a5, a6, a7, a8, ?_⟩
  intro hn
  simp only at hn
  rw [hn] at hw
  simp at hw

theorem wellFormed_set_grab_log {s : ToolState} (h : WellFormed s)
    (g : Option Nat) (lg : List Effect) :
    WellFormed { s with grab_widget := g, log := lg } := by
  obtain ⟨a1, a2, a3, a4, a5, a6, a7, a8, a9⟩ := h
  exact ⟨a1, a2, a3, a4, a5, a6, a7, a8, a9⟩

theorem wellFormed_halt (s : ToolState) (h : WellFormed s) :
    WellFormed (gimp_blend_tool_halt s) := by
  obtain ⟨a1, a2, a3, _⟩ := h
  rw [halt_eq]
  cases hg : s.graph <;> cases hr : s.render_node <;> cases hd : s.dist_node <;>
    cases hw : s.widget <;> simp [WellFormed, hg, hr, hd, hw] at a1 a2 a3 ⊢

theorem wellFormed_commit (s : ToolState) (h : WellFormed s) :
    WellFormed (gimp_blend_tool_commit s) := by
  obtain ⟨a1, a2, a3, _⟩ := h
  rw [commit_eq]
  cases hg : s.graph <;> cases hr : s.render_node <;> cases hd : s.dist_node <;>
    cases hw : s.widget <;> simp [WellFormed, hg, hr, hd, hw] at a1 a2 a3 ⊢

theorem wellFormed_control (s : ToolState) (a : GimpToolAction) (h : WellFormed s) :
    WellFormed (gimp_tool_control s a) := by
  cases a with
  | PAUSE => exact h
  | RESUME => exact h
  | HALT => rw [control_halt_eq]; exact wellFormed_halt s h
  | COMMIT => rw [control_commit_eq]; exact wellFormed_commit s h

theorem start_shape (s : ToolState) (c : GimpCoords) (d : GimpDisplay) (env : Env)
    (hg : s.graph = none) (hdd : s.draw_display = none) :
    (gimp_blend_tool_start s c d env).graph.isSome = true ∧
    (gimp_blend_tool_start s c d env).render_node.isSome = true ∧
    (gimp_blend_tool_start s c d env).dist_node.isSome = true ∧
    (gimp_blend_tool_start s c d env).filter.isSome = true ∧
    (gimp_blend_tool_start s c d env).draw_display = some d ∧
    (gimp_blend_tool_start s c d env).draw_widget = some s.fresh := by
  obtain ⟨display, drawable, draw_display, draw_widget, gradient, sx, sy, ex, ey, graph,
    render_node, dist_node, dist_buffer, filter, widget, grab, undo_stack, redo_stack, log,
    fresh⟩ := s
  simp only at hg hdd
  subst hg hdd
  cases hsb : gimp_blend_tool_is_shapeburst env <;> cases hgr : env.gradient <;>
    cases hdb : dist_buffer <;> cases hmi : env.mask_intersect <;>
    simp [gimp_blend_tool_start, gimp_blend_tool_create_filter, gimp_blend_tool_create_graph,
      gimp_blend_tool_update_graph, gimp_blend_tool_set_gradient,
      gimp_blend_tool_precalc_shapeburst, gimp_draw_tool_start, gimp_draw_tool_is_active,
      gimp_draw_tool_set_widget, hsb, hgr, hmi]

theorem wellFormed_start (s : ToolState) (c : GimpCoords) (d : GimpDisplay) (env : Env)
    (h : WellFormed s) (hw : s.widget = none) :
    WellFormed (gimp_blend_tool_start s c d env) := by
  obtain ⟨a1, _, _, _, a5, _, a7, _, _⟩ := h
  have hg : s.graph = none := by
    cases hsg : s.graph with
    | none => rfl
    | some g => rw [hsg, hw] at a1; simp at a1
  have hdd : s.draw_display = none := by
    rw [a7]
    cases hsd : s.display with
    | none => rfl
    | some g => rw [hsd, hw] at a5; simp at a5
  obtain ⟨b1, b2, b3, b4, b5, b6⟩ := start_shape s c d env hg hdd
  obtain ⟨c1, _, _, _, _, c6, c7⟩ := start_history s c d env
  refine ⟨?_, ?_, ?_, ?_, ?_, ?_, ?_, ?_, ?_⟩
  · rw [b1, c1]; rfl
  · rw [b2, c1]; rfl
  · rw [b3, c1]; rfl
  · rw [b4, c1]; rfl
  · rw [c6, c1]; rfl
  · rw [c7, c1]; rfl
  · rw [b5, c6]
  · rw [b6, c1]; rfl
  · intro hn
    rw [c1] at hn
    simp at hn

theorem wellFormed_press_prepared (s : ToolState) (c : GimpCoords) (d : GimpDisplay)
    (env : Env) (h : WellFormed s) : WellFormed (press_prepared s c d env) := by
  unfold press_prepared
  dsimp only
  have h1 : WellFormed (if s.display.isSome && decide (some d ≠ s.display) then
      gimp_tool_control s GimpToolAction.HALT else s) := by
    split
    · exact wellFormed_control s _ h
    · exact h
  generalize (if s.display.isSome && decide (some d ≠ s.display) then
    gimp_tool_control s GimpToolAction.HALT else s) = s1 at h1
  by_cases hw : s1.widget.isNone = true
  · rw [if_pos hw]
    exact wellFormed_start s1 c d env h1 (by simpa using hw)
  · rw [if_neg hw]
    exact h1

theorem press_general (s : ToolState) (c : GimpCoords) (d : GimpDisplay) (env : Env)
    (r : PressReaction) :
    ∃ w, (press_prepared s c d env).widget = some w ∧
      gimp_blend_tool_button_press s c d env r =
        if r.claimed then
          { widget_changes (press_prepared s c d env) r.changes with
            grab_widget := some w.id,
            undo_stack := current (press_prepared s c d env) ::
              (widget_changes (press_prepared s c d env) r.changes).undo_stack }
        else widget_changes (press_prepared s c d env) r.changes := by
  obtain ⟨w, hw⟩ := press_prepared_widget s c d env
  refine ⟨w, hw, ?_⟩
  show (match (press_prepared s c d env).widget with
    | none => press_prepared s c d env
    | some w =>
      if r.claimed = true then
        { widget_changes (press_prepared s c d env) r.changes with
          grab_widget := some w.id,
          undo_stack := blend_info_new (press_prepared s c d env).start_x
            (press_prepared s c d env).start_y (press_prepared s c d env).end_x
            (press_prepared s c d env).end_y ::
            (widget_changes (press_prepared s c d env) r.changes).undo_stack }
      else widget_changes (press_prepared s c d env) r.changes) = _
  rw [hw]
  rfl

theorem wellFormed_widget_changes (s : ToolState) (changes : List BlendInfo)
    (h : WellFormed s) : WellFormed (widget_changes s changes) :=
  wellFormed_of_same h (widget_changes_same changes s)

theorem wellFormed_press (s : ToolState) (c : GimpCoords) (d : GimpDisplay) (env : Env)
    (r : PressReaction) (h : WellFormed s) :
    WellFormed (gimp_blend_tool_button_press s c d env r) := by
  obtain ⟨w, hw, hp⟩ := press_general s c d env r
  have h2 := wellFormed_widget_changes _ r.changes (wellFormed_press_prepared s c d env h)
  have hws : (widget_changes (press_prepared s c d env) r.changes).widget.isSome = true := by
    rw [widget_isSome_of_same (widget_changes_same r.changes _), hw]
    rfl
  rw [hp]
  split
  · exact wellFormed_set_history h2 hws _ _ _ _
  · exact h2

theorem wellFormed_release (s t : ToolState) (c : GimpCoords) (rt : GimpButtonReleaseType)
    (d : GimpDisplay) (changes : List BlendInfo) (h : WellFormed s)
    (ht : gimp_blend_tool_button_release s c rt d changes = Except.ok t) : WellFormed t := by
  cases hg : s.grab_widget with
  | none =>
    simp only [gimp_blend_tool_button_release, hg] at ht
    split at ht
    · simp only [Except.ok.injEq] at ht
      subst ht
      exact wellFormed_control s _ h
    · simp only [Except.ok.injEq] at ht
      subst ht
      exact h
  | some w =>
    by_cases hl : grab_is_live s w = true
    · have hw : s.widget.isSome = true := by
        unfold grab_is_live at hl
        cases hsw : s.widget with
        | none => simp [hsw] at hl
        | some v => rfl
      have h2 := wellFormed_widget_changes s changes h
      have hws : (widget_changes s changes).widget.isSome = true := by
        rw [widget_isSome_of_same (widget_changes_same changes s), hw]
      simp only [gimp_blend_tool_button_release, hg, hl, if_true] at ht
      split at ht
      · split at ht
        · simp at ht
        · simp only [Except.ok.injEq] at ht
          subst ht
          exact wellFormed_set_history h2 hws _ _ _ _
      · simp only [Except.ok.injEq] at ht
        subst ht
        split
        · exact wellFormed_set_history h2 hws _ _ _ _
        · exact wellFormed_set_history h2 hws _ _ _ _
    · simp [gimp_blend_tool_button_release, hg, hl] at ht

theorem wellFormed_motion (s t : ToolState) (c : GimpCoords) (changes : List BlendInfo)
    (h : WellFormed s) (ht : gimp_blend_tool_motion s c changes = Except.ok t) :
    WellFormed t := by
  unfold gimp_blend_tool_motion at ht
  split at ht
  · split at ht
    · simp only [Except.ok.injEq] at ht
      subst ht
      exact wellFormed_widget_changes s changes h
    · simp at ht
  · simp only [Except.ok.injEq] at ht
    subst ht
    exact h

theorem wellFormed_undo (s : ToolState) (d : GimpDisplay) (h : WellFormed s) :
    WellFormed (gimp_blend_tool_undo s d).2 := by
  by_cases hu : gimp_blend_tool_get_undo_desc s d = none
  · rw [undo_of_desc_none s d hu]
    exact h
  · obtain ⟨hd, e, rest, hst⟩ := undo_desc_some s d hu
    have hw : s.widget.isSome = true := by
      cases hsw : s.widget with
      | none => have := (h.2.2.2.2.2.2.2.2 hsw).1; rw [hst] at this; simp at this
      | some v => rfl
    rw [undo_eq s d e rest hd hst]
    have h1 : WellFormed { s with redo_stack := current s :: s.redo_stack } := by
      have := wellFormed_set_history h hw s.undo_stack (current s :: s.redo_stack) s.grab_widget s.log
      exact this
    have h2 := wellFormed_of_same h1 (widget_set_line_same _ e)
    have hw2 : (widget_set_line { s with redo_stack := current s :: s.redo_stack } e).widget.isSome
        = true := by
      rw [widget_isSome_of_same (widget_set_line_same _ e)]
      exact hw
    exact wellFormed_set_history h2 hw2 _ _ _ _

theorem wellFormed_redo (s : ToolState) (d : GimpDisplay) (h : WellFormed s) :
    WellFormed (gimp_blend_tool_redo s d).2 := by
  by_cases hu : gimp_blend_tool_get_redo_desc s d = none
  · rw [redo_of_desc_none s d hu]
    exact h
  · obtain ⟨hd, e, rest, hst⟩ := redo_desc_some s d hu
    have hw : s.widget.isSome = true := by
      cases hsw : s.widget with
      | none => have := (h.2.2.2.2.2.2.2.2 hsw).2.1; rw [hst] at this; simp at this
      | some v => rfl
    rw [redo_eq s d e rest hd hst]
    have h1 : WellFormed { s with undo_stack := current s :: s.undo_stack } := by
      have := wellFormed_set_history h hw (current s :: s.undo_stack) s.redo_stack s.grab_widget s.log
      exact this
    have h2 := wellFormed_of_same h1 (widget_set_line_same _ e)
    have hw2 : (widget_set_line { s with undo_stack := current s :: s.undo_stack } e).widget.isSome
        = true := by
      rw [widget_isSome_of_same (widget_set_line_same _ e)]
      exact hw
    exact wellFormed_set_history h2 hw2 _ _ _ _

theorem wellFormed_update_graph (s : ToolState) (h : WellFormed s) :
    WellFormed (gimp_blend_tool_update_graph s) := by
  unfold gimp_blend_tool_update_graph
  split
  · exact h
  · rename_i node hn
    obtain ⟨a1, a2, a3, a4, a5, a6, a7, a8, a9⟩ := h
    rw [hn] at a2
    split <;> exact ⟨a1, a2, a3, a4, a5, a6, a7, a8, a9⟩

theorem wellFormed_filter_apply (s : ToolState) (h : WellFormed s) :
    WellFormed (gimp_drawable_filter_apply s) :=
  wellFormed_set_grab_log h s.grab_widget _

theorem wellFormed_set_gradient (s : ToolState) (g : Option GimpGradient) (h : WellFormed s) :
    WellFormed (gimp_blend_tool_set_gradient s g) := by
  obtain ⟨a1, a2, a3, a4, a5, a6, a7, a8, a9⟩ := h
  unfold gimp_blend_tool_set_gradient
  split
  · rename_i g1 node hg hn
    rw [hn] at a2
    exact ⟨a1, a2, a3, a4, a5, a6, a7, a8, a9⟩
  · exact ⟨a1, a2, a3, a4, a5, a6, a7, a8, a9⟩

theorem wellFormed_gradient_dirty (s : ToolState) (h : WellFormed s) :
    WellFormed (gimp_blend_tool_gradient_dirty s) := by
  unfold gimp_blend_tool_gradient_dirty
  split
  · exact h
  · apply wellFormed_filter_apply
    split
    · exact h
    · rename_i node hn
      obtain ⟨a1, a2, a3, a4, a5, a6, a7, a8, a9⟩ := h
      rw [hn] at a2
      exact ⟨a1, a2, a3, a4, a5, a6, a7, a8, a9⟩

theorem wellFormed_precalc (s : ToolState) (env : Env) (h : WellFormed s) :
    WellFormed (gimp_blend_tool_precalc_shapeburst s env) := by
  unfold gimp_blend_tool_precalc_shapeburst
  split
  · exact h
  · split
    · exact h
    · split
      · exact h
      · rename_i dr hdr
        obtain ⟨a1, a2, a3, a4, a5, a6, a7, a8, a9⟩ := h
        have hw : s.widget.isSome = true := by rw [← a6, hdr]; rfl
        have hwn : s.widget ≠ none := by
          intro hn; rw [hn] at hw; simp at hw
        dsimp only
        split
        · exact ⟨a1, a2, a3, a4, a5, a6, a7, a8, fun hn => absurd hn hwn⟩
        · rename_i dn hdn
          rw [hdn] at a3
          exact ⟨a1, a2, a3, a4, a5, a6, a7, a8, fun hn => absurd hn hwn⟩

theorem wellFormed_options_notify (s : ToolState) (name : String) (found : Bool) (env : Env)
    (h : WellFormed s) : WellFormed (gimp_blend_tool_options_notify s name found env) := by
  unfold gimp_blend_tool_options_notify
  split
  · dsimp only
    split
    · exact wellFormed_filter_apply _ (wellFormed_set_gradient s _ h)
    · exact wellFormed_set_gradient s _ h
  · split
    · dsimp only
      apply wellFormed_filter_apply
      have h1 : WellFormed { s with log := s.log ++ [Effect.node_set_property name] } :=
        wellFormed_set_grab_log h s.grab_widget _
      split
      · apply wellFormed_update_graph
        split
        · exact wellFormed_precalc _ env h1
        · exact h1
      · exact h1
    · split
      · split
        · exact wellFormed_set_grab_log h s.grab_widget _
        · exact h
      · split
        · split
          · exact wellFormed_set_grab_log h s.grab_widget _
          · exact h
        · exact h

theorem wellFormed_step (s t : ToolState) (e : Event) (h : WellFormed s)
    (ht : step s e = Except.ok t) : WellFormed t := by
  cases e with
  | button_press c d env r =>
    simp only [step, Except.ok.injEq] at ht
    subst ht
    exact wellFormed_press s c d env r h
  | button_release c rt d changes => exact wellFormed_release s t c rt d changes h ht
  | motion c changes => exact wellFormed_motion s t c changes h ht
  | undo d =>
    simp only [step, Except.ok.injEq] at ht
    subst ht
    exact wellFormed_undo s d h
  | redo d =>
    simp only [step, Except.ok.injEq] at ht
    subst ht
    exact wellFormed_redo s d h
  | options_notify name found env =>
    simp only [step, Except.ok.injEq] at ht
    subst ht
    exact wellFormed_options_notify s name found env h
  | gradient_dirty =>
    simp only [step, Except.ok.injEq] at ht
    subst ht
    exact wellFormed_gradient_dirty s h
  | control a =>
    simp only [step, Except.ok.injEq] at ht
    subst ht
    exact wellFormed_control s a h
  | line_changed info =>
    simp only [step, Except.ok.injEq] at ht
    subst ht
    exact wellFormed_of_same h (widget_set_line_same s info)
  | line_response r =>
    simp only [step, Except.ok.injEq] at ht
    subst ht
    cases r with
    | CONFIRM => exact wellFormed_control s _ h
    | CANCEL => exact wellFormed_control s _ h
    | OTHER => exact h

theorem wellFormed_run (es : List Event) (s t : ToolState) (h : WellFormed s)
    (ht : run s es = Except.ok t) : WellFormed t := by
  induction es generalizing s with
  | nil =>
    simp only [run, Except.ok.injEq] at ht
    subst ht
    exact h
  | cons e es ih =>
    simp only [run] at ht
    cases hs : step s e with
    | error f => simp [hs] at ht
    | ok s1 =>
      simp only [hs] at ht
      exact ih s1 (wellFormed_step s s1 e h hs) ht

theorem reachable_wellFormed {s : ToolState} (h : Reachable s) : WellFormed s := by
  obtain ⟨es, hes⟩ := h
  exact wellFormed_run es init s wellFormed_init hes

/-! ## Facts for idempotence and symmetry -/

theorem halt_halt (s : ToolState) :
    gimp_blend_tool_halt (gimp_blend_tool_halt s) = gimp_blend_tool_halt s := by
  rw [halt_eq (gimp_blend_tool_halt s), halt_eq s]
  simp

theorem halt_of_idle (s : ToolState) (h : Idle s) : gimp_blend_tool_halt s = s := by
  obtain ⟨a1, a2, a3, a4, a5, a6, a7, a8, a9, a10, a11, a12⟩ := h
  rw [halt_eq]
  cases s
  simp only at a1 a2 a3 a4 a5 a6 a7 a8 a9 a10 a11 a12
  subst a1 a2 a3 a4 a5 a6 a7 a8 a9 a10 a11 a12
  simp

theorem idle_halt (s : ToolState) (h : WellFormed s) : Idle (gimp_blend_tool_halt s) := by
  obtain ⟨a1, a2, a3, _⟩ := h
  rw [halt_eq]
  cases hg : s.graph <;> cases hr : s.render_node <;> cases hd : s.dist_node <;>
    cases hw : s.widget <;> simp [Idle, hg, hr, hd, hw] at a1 a2 a3 ⊢

theorem current_swap (s : ToolState) : current (swap s) = current s := rfl

theorem widget_set_line_swap (s : ToolState) (info : BlendInfo) :
    widget_set_line (swap s) info = swap (widget_set_line s info) := by
  unfold widget_set_line
  cases hw : s.widget with
  | none => simp [swap, hw]
  | some w =>
    cases hr : s.render_node <;> cases hd : s.drawable <;>
      simp [swap, hw, hr, hd, gimp_blend_tool_line_changed, gimp_blend_tool_update_graph,
        gimp_drawable_filter_apply]

theorem swap_swap (s : ToolState) : swap (swap s) = s := rfl

theorem redo_as_undo (s : ToolState) (d : GimpDisplay) :
    gimp_blend_tool_redo s d =
      ((gimp_blend_tool_undo (swap s) d).1, swap (gimp_blend_tool_undo (swap s) d).2) := by
  by_cases h : gimp_blend_tool_get_redo_desc s d = none
  · have h2 : gimp_blend_tool_get_undo_desc (swap s) d = none := by
      rw [undo_desc_none_iff]
      exact (redo_desc_none_iff s d).mp h
    rw [redo_of_desc_none s d h, undo_of_desc_none (swap s) d h2]
    rfl
  · obtain ⟨hd, e, rest, hst⟩ := redo_desc_some s d h
    rw [redo_eq s d e rest hd hst, undo_eq (swap s) d e rest hd hst]
    have hx : ({ swap s with redo_stack := current (swap s) :: (swap s).redo_stack } : ToolState)
        = swap { s with undo_stack := current s :: s.undo_stack } := rfl
    rw [hx, widget_set_line_swap]
    rfl

/-! ## Facts about the effect log -/

theorem start_log (s : ToolState) (c : GimpCoords) (d : GimpDisplay) (env : Env)
    (hg : s.graph = none) (hb : s.dist_buffer = none) :
    (gimp_blend_tool_start s c d env).log =
      s.log ++ [Effect.line_new s.fresh (blend_info_new c.x c.y c.x c.y),
        Effect.filter_new (s.fresh + 2) env.drawable,
        Effect.filter_set_region (s.fresh + 2), Effect.filter_set_opacity (s.fresh + 2),
        Effect.filter_set_mode (s.fresh + 2), Effect.config_sync_node] ++
      (if gimp_blend_tool_is_shapeburst env && env.mask_intersect then
        [Effect.shapeburst_distmap env.drawable] else []) ∧
    (gimp_blend_tool_start s c d env).filter = some (s.fresh + 2) := by
  obtain ⟨display, drawable, draw_display, draw_widget, gradient, sx, sy, ex, ey, graph,
    render_node, dist_node, dist_buffer, filter, widget, grab, undo_stack, redo_stack, log,
    fresh⟩ := s
  simp only at hg hb
  subst hg hb
  cases hsb : gimp_blend_tool_is_shapeburst env <;> cases hgr : env.gradient <;>
    cases hmi : env.mask_intersect <;> cases hdd : draw_display <;>
    simp [gimp_blend_tool_start, gimp_blend_tool_create_filter, gimp_blend_tool_create_graph,
      gimp_blend_tool_update_graph, gimp_blend_tool_set_gradient,
      gimp_blend_tool_precalc_shapeburst, gimp_draw_tool_start, gimp_draw_tool_is_active,
      gimp_draw_tool_set_widget, hsb, hgr, hmi, blend_info_new, current]

theorem widget_set_line_log (s : ToolState) (info : BlendInfo) :
    ∃ n, (widget_set_line s info).log = s.log ++ List.replicate n (Effect.filter_apply s.filter) := by
  unfold widget_set_line
  cases hw : s.widget with
  | none => exact ⟨0, by simp⟩
  | some w =>
    refine ⟨1, ?_⟩
    cases hr : s.render_node <;> cases hd : s.drawable <;>
      simp [gimp_blend_tool_line_changed, gimp_blend_tool_update_graph,
        gimp_drawable_filter_apply, hr, hd]

theorem widget_changes_log (changes : List BlendInfo) (s : ToolState) :
    ∃ n, (widget_changes s changes).log =
      s.log ++ List.replicate n (Effect.filter_apply s.filter) := by
  induction changes generalizing s with
  | nil => exact ⟨0, by simp [widget_changes]⟩
  | cons c cs ih =>
    obtain ⟨n1, h1⟩ := widget_set_line_log s c
    obtain ⟨n2, h2⟩ := ih (widget_set_line s c)
    have hf : (widget_set_line s c).filter = s.filter :=
      (widget_set_line_same s c).2.2.2.2.2.2.2.2.1
    refine ⟨n1 + n2, ?_⟩
    show (widget_changes (widget_set_line s c) cs).log = _
    rw [h2, h1, hf, List.append_assoc, ← List.replicate_add]

theorem halt_active (s : ToolState) (A : GimpDisplay) (f : Nat) (hd : s.display = some A)
    (hf : s.filter = some f) (hg : s.graph.isSome) :
    Idle (gimp_blend_tool_halt s) ∧
    (gimp_blend_tool_halt s).log =
      s.log ++ [Effect.filter_abort f, Effect.image_flush (some A)] ∧
    (gimp_blend_tool_halt s).fresh = s.fresh ∧
    (gimp_blend_tool_halt s).grab_widget = s.grab_widget := by
  rw [halt_eq]
  simp [Idle, hd, hf, hg]

theorem active_start (s : ToolState) (c : GimpCoords) (d : GimpDisplay) (env : Env)
    (hi : Idle s) : Active (gimp_blend_tool_start s c d env) d := by
  obtain ⟨b1, b2, _, b4, b5, _⟩ := start_shape s c d env hi.1 hi.2.2.2.2.2.2.2.2.2.2.1
  obtain ⟨c1, _, _, _, _, c6, c7⟩ := start_history s c d env
  refine ⟨c6, b5, ?_, ?_, b4, b1, b2⟩
  · rw [c7]; rfl
  · rw [c1]; rfl

theorem commit_active (s : ToolState) (A : GimpDisplay) (f : Nat) (hd : s.display = some A)
    (hf : s.filter = some f) (hg : s.graph.isSome) :
    Idle (gimp_blend_tool_commit s) ∧
    (gimp_blend_tool_commit s).log =
      s.log ++ [Effect.filter_commit f, Effect.image_flush (some A)] := by
  rw [commit_eq]
  simp [Idle, hd, hf, hg]

/-! ## Reachability of the concrete sessions -/

theorem run_append (es fs : List Event) (s t : ToolState) (h : run s es = Except.ok t) :
    run s (es ++ fs) = run t fs := by
  induction es generalizing s with
  | nil =>
    simp only [run, Except.ok.injEq] at h
    subst h
    rfl
  | cons e es ih =>
    simp only [run, List.cons_append] at h ⊢
    cases hs : step s e with
    | error f => simp [hs] at h
    | ok s1 =>
      simp only [hs] at h ⊢
      exact ih s1 h

theorem reachable_step {s t : ToolState} (e : Event) (h : Reachable s)
    (hs : GimpBlendTool.step s e = Except.ok t) : Reachable t := by
  obtain ⟨es, hes⟩ := h
  refine ⟨es ++ [e], ?_⟩
  rw [run_append es [e] init s hes]
  simp [run, hs]

theorem reachable_init : Reachable init := ⟨[], rfl⟩

theorem run_drag_events : run init drag_events = Except.ok dragged_to_50 := by
  decide!

theorem reachable_dragged_to_50 : Reachable dragged_to_50 := ⟨drag_events, run_drag_events⟩

theorem reachable_dragged_then_undone : Reachable dragged_then_undone :=
  reachable_step (Event.undo display_A) reachable_dragged_to_50 rfl

/-! ## C1 -/

/-- C1: for an active session on display `d`, after any non-empty list of completed
drag gestures on `d` (claimed press, motion events, release other than CANCEL, each
event with arbitrary widget geometry changes) the gestures run without fault, and as
many undo calls on `d` as there were gestures bring the current line geometry back to
what it was before the first press. -/
theorem undo_all_gestures_restores_geometry (s : ToolState) (d : GimpDisplay)
    (gs : List Gesture) (hA : Active s d) (hN : 1 ≤ gs.length)
    (hR : ∀ g ∈ gs, g.release_type ≠ GimpButtonReleaseType.CANCEL) :
    ∃ t, run_gestures s d gs = Except.ok t ∧
      current (undo_times t d gs.length) = current s := by
  obtain ⟨w, hw⟩ := active_onDisplay hA
  cases gs with
  | nil => simp at hN
  | cons g gs =>
    obtain ⟨t, l, ht, r1, r2, r3, _, _⟩ := gestures_complete gs g s d w hw hR
    refine ⟨t, ht, ?_⟩
    have := (undo_times_pops l t d w (current s) s.undo_stack r1 r3).1
    simpa [r2] using this

theorem undo_all_gestures_restores_geometry_witness :
    Active started_at_10 display_A ∧
    ∃ t, run_gestures started_at_10 display_A [drag_to_50, drag_start_to_20_30] = Except.ok t ∧
      current (undo_times t display_A 2) = current started_at_10 :=
  ⟨by decide, undo_all_gestures_restores_geometry started_at_10 display_A
    [drag_to_50, drag_start_to_20_30] (by decide) (by decide) (by decide)⟩

/-! ## C2 -/

/-- C2, as the code has it: undo followed immediately by redo on the same display
leaves the current line geometry unchanged whenever the undo call has something to
undo (`get_undo_desc` is not NULL) or there is nothing to redo (`get_redo_desc` is
NULL). This holds in every state, reachable or not. -/
theorem undo_redo_keeps_current (s : ToolState) (d : GimpDisplay)
    (h : gimp_blend_tool_get_undo_desc s d ≠ none ∨ gimp_blend_tool_get_redo_desc s d = none) :
    current (gimp_blend_tool_redo (gimp_blend_tool_undo s d).2 d).2 = current s := by
  by_cases hu : gimp_blend_tool_get_undo_desc s d = none
  · have hr : gimp_blend_tool_get_redo_desc s d = none := h.resolve_left (fun hn => hn hu)
    rw [undo_of_desc_none s d hu, redo_of_desc_none s d hr]
  · obtain ⟨hd, e, rest, hst⟩ := undo_desc_some s d hu
    exact (undo_then_redo s d e rest hd hst).1

theorem undo_redo_keeps_current_witness :
    Reachable dragged_to_50 ∧
    (gimp_blend_tool_get_undo_desc dragged_to_50 display_A ≠ none ∨
      gimp_blend_tool_get_redo_desc dragged_to_50 display_A = none) ∧
    current (gimp_blend_tool_redo (gimp_blend_tool_undo dragged_to_50 display_A).2
      display_A).2 = current dragged_to_50 :=
  ⟨reachable_dragged_to_50, by decide,
    undo_redo_keeps_current dragged_to_50 display_A (by decide)⟩

/-- C2 fails as stated: in the reachable state after one drag and one undo, the undo
stack is empty and the redo stack holds one entry; a further undo reports nothing to
undo and changes nothing, and the redo that follows moves the line from
(10, 10)-(10, 10) to (10, 10)-(50, 50). -/
theorem undo_redo_moves_line_when_nothing_to_undo :
    Reachable dragged_then_undone ∧
    gimp_blend_tool_undo dragged_then_undone display_A = (false, dragged_then_undone) ∧
    current dragged_then_undone =
      { start_x := 10, start_y := 10, end_x := 10, end_y := 10 } ∧
    current (gimp_blend_tool_redo (gimp_blend_tool_undo dragged_then_undone display_A).2
      display_A).2 = { start_x := 10, start_y := 10, end_x := 50, end_y := 50 } ∧
    current (gimp_blend_tool_redo (gimp_blend_tool_undo dragged_then_undone display_A).2
      display_A).2 ≠ current dragged_then_undone :=
  ⟨reachable_dragged_then_undone, by decide!, by decide!, by decide!, by decide!⟩

/-! ## C3 -/

/-- C3: a button release that ends a held grab with a release type other than CANCEL
leaves the redo stack empty (whenever it returns a state, and it does return one when
the grab points at the live widget). In particular, from every state, after a
completed gesture, an undo and a second completed gesture (on any displays), redo
returns FALSE and changes nothing, and `get_redo_desc` returns NULL. -/
theorem committed_gesture_clears_redo (s : ToolState) (d1 du d2 dr : GimpDisplay)
    (g1 g2 : Gesture)
    (h1 : g1.release_type ≠ GimpButtonReleaseType.CANCEL)
    (h2 : g2.release_type ≠ GimpButtonReleaseType.CANCEL) :
    (∀ (x : ToolState) (c : GimpCoords) (rt : GimpButtonReleaseType) (d : GimpDisplay)
        (changes : List BlendInfo),
        x.grab_widget.isSome → rt ≠ GimpButtonReleaseType.CANCEL →
        (∀ t, gimp_blend_tool_button_release x c rt d changes = Except.ok t →
          t.redo_stack = [] ∧ t.grab_widget = none) ∧
        (x.widget.map GimpToolLine.id = x.grab_widget →
          ∃ t, gimp_blend_tool_button_release x c rt d changes = Except.ok t)) ∧
    ∃ t1 t2, run_gesture s d1 g1 = Except.ok t1 ∧
      run_gesture (gimp_blend_tool_undo t1 du).2 d2 g2 = Except.ok t2 ∧
      t2.redo_stack = [] ∧
      gimp_blend_tool_redo t2 dr = (false, t2) ∧
      gimp_blend_tool_get_redo_desc t2 dr = none := by
  constructor
  · intro x c rt d changes hg hrt
    cases hgw : x.grab_widget with
    | none => simp [hgw] at hg
    | some w =>
      constructor
      · intro t ht
        by_cases hl : grab_is_live x w = true
        · simp only [gimp_blend_tool_button_release, hgw, hl, if_true, if_neg hrt] at ht
          simp only [Except.ok.injEq] at ht
          subst ht
          constructor
          · show (if _ then _ else _ : ToolState).redo_stack = []
            split
            · rfl
            · rename_i hne
              simpa using hne
          · show (if _ then _ else _ : ToolState).grab_widget = none
            split <;> rfl
        · simp [gimp_blend_tool_button_release, hgw, hl] at ht
      · intro hw
        rw [release_grabbed_eq x c rt d changes w hgw hw, if_neg hrt]
        exact ⟨_, rfl⟩
  · obtain ⟨t1, ht1, _, _⟩ := gesture_general s d1 g1 h1
    obtain ⟨t2, ht2, hr2, _⟩ := gesture_general (gimp_blend_tool_undo t1 du).2 d2 g2 h2
    have hdesc : gimp_blend_tool_get_redo_desc t2 dr = none :=
      (redo_desc_none_iff t2 dr).mpr (Or.inr hr2)
    exact ⟨t1, t2, ht1, ht2, hr2, redo_of_desc_none t2 dr hdesc, hdesc⟩

theorem committed_gesture_clears_redo_witness :
    (pressed_after_undo.redo_stack ≠ [] ∧
      ∃ t, gimp_blend_tool_button_release pressed_after_undo p10
        GimpButtonReleaseType.NORMAL display_A [] = Except.ok t ∧ t.redo_stack = []) ∧
    ∃ t1 t2, run_gesture started_at_10 display_A drag_to_50 = Except.ok t1 ∧
      run_gesture (gimp_blend_tool_undo t1 display_A).2 display_A drag_start_to_20_30
        = Except.ok t2 ∧
      t2.redo_stack = [] ∧
      gimp_blend_tool_redo t2 display_A = (false, t2) ∧
      gimp_blend_tool_get_redo_desc t2 display_A = none := by
  have h := committed_gesture_clears_redo started_at_10 display_A display_A display_A
    display_A drag_to_50 drag_start_to_20_30 (by decide) (by decide)
  have hp := h.1 pressed_after_undo p10 GimpButtonReleaseType.NORMAL display_A []
    (by decide) (by decide)
  obtain ⟨t, ht⟩ := hp.2 (by decide)
  exact ⟨⟨by decide, t, ht, (hp.1 t ht).1⟩, h.2⟩

/-! ## C4 -/

/-- C4, as the code has it: when the press does not force a halt (the tool has no
display yet, or the press is on the tool's display), a gesture whose press the widget
claims and whose release type is CANCEL, with any motion events in between, runs
without fault and leaves the undo stack and the redo stack exactly as they were before
the press. After the press and after every motion event the undo stack is the old one
with the single snapshot taken by the press on top, and the redo stack is the old
one; the cancel removes exactly that snapshot. -/
theorem cancelled_gesture_keeps_history (s : ToolState) (d : GimpDisplay) (g : Gesture)
    (hd : s.display = none ∨ s.display = some d)
    (hc : g.release_type = GimpButtonReleaseType.CANCEL) :
    (∃ t, run_gesture s d g = Except.ok t ∧ t.undo_stack = s.undo_stack ∧
      t.redo_stack = s.redo_stack ∧ t.grab_widget = none) ∧
    ∀ k : Nat, ∃ t1, run_drag s d { g with motions := g.motions.take k } = Except.ok t1 ∧
      t1.undo_stack = current (press_prepared s g.press_coords d g.env) :: s.undo_stack ∧
      t1.redo_stack = s.redo_stack := by
  obtain ⟨p1, p2⟩ := press_prepared_same_display s g.press_coords d g.env hd
  constructor
  · obtain ⟨t1, w, ht1, q1, q2, q3, q4⟩ := run_drag_general s d g
    have hs := widget_changes_same g.release_changes t1
    have hu : (widget_changes t1 g.release_changes).undo_stack =
        current (press_prepared s g.press_coords d g.env) :: s.undo_stack := by
      rw [hs.2.2.2.2.2.2.2.2.2.2.1, q3, p1]
    refine ⟨gimp_image_flush
      { widget_changes t1 g.release_changes with
        grab_widget := none,
        undo_stack := g_list_remove (widget_changes t1 g.release_changes).undo_stack
          (current (press_prepared s g.press_coords d g.env)) } (some d), ?_, ?_, ?_, rfl⟩
    · simp only [run_gesture, ht1]
      rw [release_grabbed_eq t1 g.release_coords g.release_type d g.release_changes w q1 q2,
        if_pos hc, hu]
    · show g_list_remove (widget_changes t1 g.release_changes).undo_stack _ = s.undo_stack
      rw [hu, g_list_remove_head]
    · show (widget_changes t1 g.release_changes).redo_stack = s.redo_stack
      rw [hs.2.2.2.2.2.2.2.2.2.2.2.1, q4, p2]
  · intro k
    obtain ⟨t1, _, ht1, _, _, q3, q4⟩ := run_drag_general s d { g with motions := g.motions.take k }
    exact ⟨t1, ht1, by rw [q3]; exact congrArg _ p1, by rw [q4]; exact p2⟩

theorem cancelled_gesture_keeps_history_witness :
    (∃ t, run_gesture dragged_then_undone display_A cancelled_drag = Except.ok t ∧
      t.undo_stack = dragged_then_undone.undo_stack ∧
      t.redo_stack = dragged_then_undone.redo_stack ∧ t.grab_widget = none) ∧
    dragged_then_undone.redo_stack ≠ [] :=
  ⟨(cancelled_gesture_keeps_history dragged_then_undone display_A cancelled_drag
    (by decide) (by decide)).1, by decide⟩

/-- C4 fails as stated: with a session on `display_A` that has one undo entry
(respectively one redo entry), a cancelled gesture whose press arrives on `display_B`
ends with an empty undo stack (respectively an empty redo stack), because the press
first halts the session on `display_A`. -/
theorem cancelled_gesture_on_other_display_drops_history :
    Reachable dragged_to_50 ∧
    dragged_to_50.undo_stack = [{ start_x := 10, start_y := 10, end_x := 10, end_y := 10 }] ∧
    Except.map ToolState.undo_stack (run_gesture dragged_to_50 display_B cancelled_drag)
      = Except.ok [] ∧
    Reachable dragged_then_undone ∧
    dragged_then_undone.redo_stack =
      [{ start_x := 10, start_y := 10, end_x := 50, end_y := 50 }] ∧
    Except.map ToolState.redo_stack
      (run_gesture dragged_then_undone display_B cancelled_drag) = Except.ok [] :=
  ⟨reachable_dragged_to_50, by decide!, by decide!, reachable_dragged_then_undone,
    by decide!, by decide!⟩

/-! ## C5 -/

/-- C5: halt is idempotent. For every state the tool can reach, after halt the graph,
the render node, the distance node, the distance buffer, the preview filter, both
stacks, the widget, the display and the drawable (and the draw tool's display and
widget) are absent or empty; a second halt returns the very same state, so it adds
nothing to the effect log and in particular aborts no filter; and halt on an idle
tool returns it unchanged. -/
theorem halt_idempotent (s : ToolState) (h : Reachable s) :
    Idle (gimp_blend_tool_halt s) ∧
    gimp_blend_tool_halt (gimp_blend_tool_halt s) = gimp_blend_tool_halt s ∧
    (gimp_blend_tool_halt (gimp_blend_tool_halt s)).log = (gimp_blend_tool_halt s).log ∧
    (gimp_blend_tool_halt s).filter = none ∧
    (Idle s → gimp_blend_tool_halt s = s) := by
  have hi := idle_halt s (reachable_wellFormed h)
  refine ⟨hi, halt_halt s, by rw [halt_halt], hi.2.2.2.2.1, halt_of_idle s⟩

theorem halt_idempotent_witness :
    Reachable dragged_to_50 ∧
    Idle (gimp_blend_tool_halt dragged_to_50) ∧
    gimp_blend_tool_halt (gimp_blend_tool_halt dragged_to_50)
      = gimp_blend_tool_halt dragged_to_50 ∧
    (gimp_blend_tool_halt (gimp_blend_tool_halt dragged_to_50)).log
      = (gimp_blend_tool_halt dragged_to_50).log ∧
    (gimp_blend_tool_halt dragged_to_50).filter = none ∧
    (Idle dragged_to_50 → gimp_blend_tool_halt dragged_to_50 = dragged_to_50) :=
  ⟨reachable_dragged_to_50, halt_idempotent dragged_to_50 reachable_dragged_to_50⟩

/-! ## C6 -/

/-- C6: in an active session on `d` with undo stack `e :: rest`, undo on `d` returns
TRUE and yields exactly the old state with: undo stack `rest`, redo stack the old
current geometry on top of the old redo stack, the widget's `x1`, `y1`, `x2`, `y2` set
to `e`, the current geometry `e`, the render node's line parameters `e` shifted by the
drawable offset, and one `gimp_drawable_filter_apply` on the session's filter appended
to the effect log. In the session started at (10, 10) and dragged to (50, 50), undo
gives the line (10, 10)-(10, 10) with the single redo entry (10, 10)-(50, 50), and redo
gives back (10, 10)-(50, 50). -/
theorem undo_pops_to_widget_and_graph :
    (∀ (s : ToolState) (d : GimpDisplay) (e : BlendInfo) (rest : List BlendInfo),
      Active s d → s.undo_stack = e :: rest →
      ∃ w f node dr, s.widget = some w ∧ s.filter = some f ∧ s.render_node = some node ∧
        s.drawable = some dr ∧
        gimp_blend_tool_undo s d =
          (true,
           { s with
             undo_stack := rest,
             redo_stack := current s :: s.redo_stack,
             widget := some { w with x1 := e.start_x, y1 := e.start_y,
                                     x2 := e.end_x, y2 := e.end_y },
             start_x := e.start_x, start_y := e.start_y,
             end_x := e.end_x, end_y := e.end_y,
             render_node := some
               { node with
                 geom := some (blend_info_new (e.start_x - dr.off_x) (e.start_y - dr.off_y)
                   (e.end_x - dr.off_x) (e.end_y - dr.off_y)) },
             log := s.log ++ [Effect.filter_apply (some f)] })) ∧
    run init drag_events = Except.ok dragged_to_50 ∧
    current dragged_to_50 = blend_info_new 10 10 50 50 ∧
    (gimp_blend_tool_undo dragged_to_50 display_A).1 = true ∧
    current (gimp_blend_tool_undo dragged_to_50 display_A).2 = blend_info_new 10 10 10 10 ∧
    (gimp_blend_tool_undo dragged_to_50 display_A).2.redo_stack
      = [blend_info_new 10 10 50 50] ∧
    (gimp_blend_tool_redo (gimp_blend_tool_undo dragged_to_50 display_A).2 display_A).1
      = true ∧
    current (gimp_blend_tool_redo (gimp_blend_tool_undo dragged_to_50 display_A).2
      display_A).2 = blend_info_new 10 10 50 50 := by
  refine ⟨?_, run_drag_events, by decide!, by decide!, by decide!, by decide!, by decide!,
    by decide!⟩
  intro s d e rest hA hu
  obtain ⟨_, h2, h3, h4, h5, _, h7⟩ := hA
  obtain ⟨display, drawable, draw_display, draw_widget, gradient, sx, sy, ex, ey, graph,
    render_node, dist_node, dist_buffer, filter, widget, grab, undo_stack, redo_stack, log,
    fresh⟩ := s
  simp only at h2 h3 h4 h5 h7 hu
  subst h2 hu
  cases widget with
  | none => simp at h4
  | some w =>
    cases filter with
    | none => simp at h5
    | some f =>
      cases render_node with
      | none => simp at h7
      | some node =>
        cases drawable with
        | none => simp at h3
        | some dr =>
          refine ⟨w, f, node, dr, rfl, rfl, rfl, rfl, ?_⟩
          simp [gimp_blend_tool_undo, gimp_blend_tool_get_undo_desc, widget_set_line,
            gimp_blend_tool_line_changed, gimp_blend_tool_update_graph,
            gimp_drawable_filter_apply, g_list_remove, blend_info_new, current]

theorem undo_pops_to_widget_and_graph_witness :
    Active dragged_to_50 display_A ∧
    ∃ w f node dr, dragged_to_50.widget = some w ∧ dragged_to_50.filter = some f ∧
      dragged_to_50.render_node = some node ∧ dragged_to_50.drawable = some dr ∧
      gimp_blend_tool_undo dragged_to_50 display_A =
        (true,
         { dragged_to_50 with
           undo_stack := [],
           redo_stack := current dragged_to_50 :: dragged_to_50.redo_stack,
           widget := some { w with x1 := 10, y1 := 10, x2 := 10, y2 := 10 },
           start_x := 10, start_y := 10, end_x := 10, end_y := 10,
           render_node := some
             { node with
               geom := some (blend_info_new (10 - dr.off_x) (10 - dr.off_y)
                 (10 - dr.off_x) (10 - dr.off_y)) },
           log := dragged_to_50.log ++ [Effect.filter_apply (some f)] }) :=
  ⟨by decide, undo_pops_to_widget_and_graph.1 dragged_to_50 display_A
    (blend_info_new 10 10 10 10) [] (by decide) rfl⟩

/-! ## C7 -/

/-- C7: `get_undo_desc` returns NULL exactly when the call names a display other than
the draw tool's display or the undo stack is empty; undo returns FALSE exactly in that
case, and then returns the state unchanged (geometry, both stacks, widget and all the
rest); in every other case undo returns TRUE. The same holds for redo with the redo
stack and `get_redo_desc`. -/
theorem undo_redo_report_nothing_to_do (s : ToolState) (d : GimpDisplay) :
    (gimp_blend_tool_get_undo_desc s d = none ↔
      (some d ≠ s.draw_display ∨ s.undo_stack = [])) ∧
    ((gimp_blend_tool_undo s d).1 = false ↔ gimp_blend_tool_get_undo_desc s d = none) ∧
    (gimp_blend_tool_get_undo_desc s d = none → gimp_blend_tool_undo s d = (false, s)) ∧
    (gimp_blend_tool_get_undo_desc s d ≠ none → (gimp_blend_tool_undo s d).1 = true) ∧
    (gimp_blend_tool_get_redo_desc s d = none ↔
      (some d ≠ s.draw_display ∨ s.redo_stack = [])) ∧
    ((gimp_blend_tool_redo s d).1 = false ↔ gimp_blend_tool_get_redo_desc s d = none) ∧
    (gimp_blend_tool_get_redo_desc s d = none → gimp_blend_tool_redo s d = (false, s)) ∧
    (gimp_blend_tool_get_redo_desc s d ≠ none → (gimp_blend_tool_redo s d).1 = true) := by
  have hu : gimp_blend_tool_get_undo_desc s d ≠ none → (gimp_blend_tool_undo s d).1 = true := by
    intro h
    obtain ⟨hd, e, rest, hst⟩ := undo_desc_some s d h
    rw [undo_eq s d e rest hd hst]
  have hr : gimp_blend_tool_get_redo_desc s d ≠ none → (gimp_blend_tool_redo s d).1 = true := by
    intro h
    obtain ⟨hd, e, rest, hst⟩ := redo_desc_some s d h
    rw [redo_eq s d e rest hd hst]
  refine ⟨undo_desc_none_iff s d, ⟨?_, ?_⟩, undo_of_desc_none s d, hu,
    redo_desc_none_iff s d, ⟨?_, ?_⟩, redo_of_desc_none s d, hr⟩
  · intro hf
    by_contra hn
    rw [hu hn] at hf
    exact Bool.noConfusion hf
  · intro hn
    rw [undo_of_desc_none s d hn]
  · intro hf
    by_contra hn
    rw [hr hn] at hf
    exact Bool.noConfusion hf
  · intro hn
    rw [redo_of_desc_none s d hn]

theorem undo_redo_report_nothing_to_do_witness :
    dragged_to_50.undo_stack ≠ [] ∧
    gimp_blend_tool_get_undo_desc dragged_to_50 display_B = none ∧
    gimp_blend_tool_undo dragged_to_50 display_B = (false, dragged_to_50) ∧
    gimp_blend_tool_get_redo_desc dragged_to_50 display_A = none ∧
    gimp_blend_tool_redo dragged_to_50 display_A = (false, dragged_to_50) ∧
    (gimp_blend_tool_undo dragged_to_50 display_A).1 = true :=
  ⟨by decide, by decide,
    (undo_redo_report_nothing_to_do dragged_to_50 display_B).2.2.1 (by decide),
    by decide,
    (undo_redo_report_nothing_to_do dragged_to_50 display_A).2.2.2.2.2.2.1 (by decide),
    (undo_redo_report_nothing_to_do dragged_to_50 display_A).2.2.2.1 (by decide)⟩

/-! ## C8 -/

/-- C8: redo is undo with the two stacks exchanged. For every state `s` and display
`d`, redo returns the boolean that undo returns on `swap s`, and the state that undo
yields on `swap s`, swapped back; the states are equal in every field, the widget's
properties and the effect log included. -/
theorem redo_is_swapped_undo (s : ToolState) (d : GimpDisplay) :
    gimp_blend_tool_redo s d =
      ((gimp_blend_tool_undo (swap s) d).1, swap (gimp_blend_tool_undo (swap s) d).2) :=
  redo_as_undo s d

/-! ## C9 -/

/-- C9: in an active session on display `A` with preview filter `f`, a button press at
`p` on a display `B` other than `A` first halts the session on `A`: the halt leaves an
idle tool (both stacks empty, no widget, no filter) and logs the abort of `f`. The
press is then forwarded in the state `gimp_blend_tool_start` builds from that idle
tool: an active session on `B` with line `p`-`p` and empty stacks. After the press the
redo stack is empty and the undo stack is empty, or holds the single snapshot `p`-`p`
when the new widget claims the press. In the effect log the abort of `f` comes before
the creation of the new line widget, and nothing after it is a filter commit or
another abort. -/
theorem press_on_other_display_halts_first (s : ToolState) (A B : GimpDisplay) (p : GimpCoords)
    (env : Env) (r : PressReaction) (hA : Active s A) (hAB : B ≠ A) :
    ∃ f w,
      s.filter = some f ∧
      Idle (gimp_blend_tool_halt s) ∧
      (gimp_blend_tool_halt s).log =
        s.log ++ [Effect.filter_abort f, Effect.image_flush (some A)] ∧
      press_prepared s p B env = gimp_blend_tool_start (gimp_blend_tool_halt s) p B env ∧
      Active (gimp_blend_tool_start (gimp_blend_tool_halt s) p B env) B ∧
      current (gimp_blend_tool_start (gimp_blend_tool_halt s) p B env)
        = blend_info_new p.x p.y p.x p.y ∧
      (gimp_blend_tool_start (gimp_blend_tool_halt s) p B env).widget = some w ∧
      (gimp_blend_tool_start (gimp_blend_tool_halt s) p B env).undo_stack = [] ∧
      (gimp_blend_tool_start (gimp_blend_tool_halt s) p B env).redo_stack = [] ∧
      gimp_blend_tool_button_press s p B env r =
        (if r.claimed then
          { widget_changes (gimp_blend_tool_start (gimp_blend_tool_halt s) p B env) r.changes
            with grab_widget := some w.id,
                 undo_stack := [blend_info_new p.x p.y p.x p.y] }
        else
          widget_changes (gimp_blend_tool_start (gimp_blend_tool_halt s) p B env) r.changes) ∧
      (gimp_blend_tool_button_press s p B env r).undo_stack =
        (if r.claimed then [blend_info_new p.x p.y p.x p.y] else []) ∧
      (gimp_blend_tool_button_press s p B env r).redo_stack = [] ∧
      ∃ l, (gimp_blend_tool_button_press s p B env r).log =
          s.log ++ Effect.filter_abort f :: Effect.image_flush (some A) ::
            Effect.line_new s.fresh (blend_info_new p.x p.y p.x p.y) :: l ∧
        ∀ g, Effect.filter_commit g ∉ l ∧ Effect.filter_abort g ∉ l := by
  obtain ⟨h1, _, _, _, h5, h6, _⟩ := hA
  cases hf : s.filter with
  | none => rw [hf] at h5; simp at h5
  | some f =>
    obtain ⟨i1, i2, i3, _⟩ := halt_active s A f h1 hf h6
    have hprep : press_prepared s p B env
        = gimp_blend_tool_start (gimp_blend_tool_halt s) p B env := by
      have hne : some B ≠ some A := fun h => hAB (Option.some.inj h)
      unfold press_prepared
      dsimp only
      simp only [h1, Option.isSome_some, ne_eq, hne, not_false_eq_true, decide_True,
        Bool.and_self, if_true, control_halt_eq]
      rw [if_pos (by rw [i1.2.2.2.2.2.2.2.1]; rfl)]
    obtain ⟨c1, c2, c3, _, c5, _, _⟩ := start_history (gimp_blend_tool_halt s) p B env
    obtain ⟨l1, l2⟩ := start_log (gimp_blend_tool_halt s) p B env i1.1 i1.2.2.2.1
    obtain ⟨w, hw, hp⟩ := press_general s p B env r
    rw [hprep] at hw hp
    have hs := widget_changes_same r.changes
      (gimp_blend_tool_start (gimp_blend_tool_halt s) p B env)
    obtain ⟨n, hn⟩ := widget_changes_log r.changes
      (gimp_blend_tool_start (gimp_blend_tool_halt s) p B env)
    have hu0 : (gimp_blend_tool_start (gimp_blend_tool_halt s) p B env).undo_stack = [] :=
      c2.trans i1.2.2.2.2.2.1
    have hr0 : (gimp_blend_tool_start (gimp_blend_tool_halt s) p B env).redo_stack = [] :=
      c3.trans i1.2.2.2.2.2.2.1
    have hpress : gimp_blend_tool_button_press s p B env r =
        (if r.claimed then
          { widget_changes (gimp_blend_tool_start (gimp_blend_tool_halt s) p B env) r.changes
            with grab_widget := some w.id,
                 undo_stack := [blend_info_new p.x p.y p.x p.y] }
        else
          widget_changes (gimp_blend_tool_start (gimp_blend_tool_halt s) p B env)
            r.changes) := by
      rw [hp, hs.2.2.2.2.2.2.2.2.2.2.1, hu0, c5]
      rfl
    refine ⟨f, w, rfl, i1, i2, hprep, active_start _ p B env i1, c5, hw, hu0, hr0, hpress,
      ?_, ?_, ?_⟩
    · rw [hpress]
      split
      · rfl
      · exact hs.2.2.2.2.2.2.2.2.2.2.1.trans hu0
    · rw [hpress]
      split
      · exact hs.2.2.2.2.2.2.2.2.2.2.2.1.trans hr0
      · exact hs.2.2.2.2.2.2.2.2.2.2.2.1.trans hr0
    · have hlog : (gimp_blend_tool_button_press s p B env r).log =
          (widget_changes (gimp_blend_tool_start (gimp_blend_tool_halt s) p B env)
            r.changes).log := by
        rw [hpress]
        split <;> rfl
      refine ⟨[Effect.filter_new (s.fresh + 2) env.drawable,
        Effect.filter_set_region (s.fresh + 2), Effect.filter_set_opacity (s.fresh + 2),
        Effect.filter_set_mode (s.fresh + 2), Effect.config_sync_node] ++
        (if gimp_blend_tool_is_shapeburst env && env.mask_intersect then
          [Effect.shapeburst_distmap env.drawable] else []) ++
        List.replicate n (Effect.filter_apply (some (s.fresh + 2))), ?_, ?_⟩
      · rw [hlog, hn, l1, l2, i2, i3]
        simp
      · intro g
        constructor
        · intro hm
          simp only [List.mem_append, List.mem_cons, List.mem_replicate] at hm
          rcases hm with (hm | hm) | hm
          · simp at hm
          · split at hm <;> simp at hm
          · simp at hm
        · intro hm
          simp only [List.mem_append, List.mem_cons, List.mem_replicate] at hm
          rcases hm with (hm | hm) | hm
          · simp at hm
          · split at hm <;> simp at hm
          · simp at hm

theorem press_on_other_display_halts_first_witness :
    Active dragged_to_50 display_A ∧ display_B ≠ display_A ∧
    (gimp_blend_tool_button_press dragged_to_50 p50 display_B linear_env
      { changes := [], claimed := true }).undo_stack = [blend_info_new 50 50 50 50] ∧
    (gimp_blend_tool_button_press dragged_to_50 p50 display_B linear_env
      { changes := [], claimed := true }).redo_stack = [] := by
  obtain ⟨_, _, _, _, _, _, _, _, _, _, _, _, h13, h14, _⟩ :=
    press_on_other_display_halts_first dragged_to_50 display_A display_B p50 linear_env
      { changes := [], claimed := true } (by decide) (by decide)
  exact ⟨by decide, by decide, h13, h14⟩

/-! ## C10 -/

/-- C10: in an active session on `d` with no grab held, a button release of type CLICK
or NO_MOTION (on any display, whatever the coordinates) returns the state
`gimp_blend_tool_commit` yields: the preview filter `f` is committed (the log grows by
the commit of `f` and an image flush, with no abort), the tool is idle afterwards, and
the state has changed, so the release is not a silent no-op. -/
theorem click_without_grab_commits (s : ToolState) (d d1 : GimpDisplay) (c : GimpCoords)
    (rt : GimpButtonReleaseType) (changes : List BlendInfo) (hA : Active s d)
    (hg : s.grab_widget = none)
    (hrt : rt = GimpButtonReleaseType.CLICK ∨ rt = GimpButtonReleaseType.NO_MOTION) :
    ∃ f, s.filter = some f ∧
      gimp_blend_tool_button_release s c rt d1 changes
        = Except.ok (gimp_blend_tool_commit s) ∧
      (gimp_blend_tool_commit s).log =
        s.log ++ [Effect.filter_commit f, Effect.image_flush (some d)] ∧
      (∀ g, Effect.filter_abort g ∉ [Effect.filter_commit f, Effect.image_flush (some d)]) ∧
      Idle (gimp_blend_tool_commit s) ∧
      gimp_blend_tool_commit s ≠ s := by
  obtain ⟨h1, _, _, _, h5, h6, _⟩ := hA
  cases hf : s.filter with
  | none => rw [hf] at h5; simp at h5
  | some f =>
    obtain ⟨i1, i2⟩ := commit_active s d f h1 hf h6
    refine ⟨f, rfl, ?_, i2, by simp, i1, ?_⟩
    · simp only [gimp_blend_tool_button_release, hg, control_commit_eq]
      rw [if_pos hrt]
    · intro he
      have := i1.2.2.2.2.1
      rw [he, hf] at this
      simp at this

theorem click_without_grab_commits_witness :
    Active started_at_10 display_A ∧ started_at_10.grab_widget = none ∧
    ∃ f, started_at_10.filter = some f ∧
      gimp_blend_tool_button_release started_at_10 p10 GimpButtonReleaseType.CLICK
        display_A [] = Except.ok (gimp_blend_tool_commit started_at_10) ∧
      (gimp_blend_tool_commit started_at_10).log =
        started_at_10.log ++ [Effect.filter_commit f, Effect.image_flush (some display_A)] ∧
      (∀ g, Effect.filter_abort g ∉
        [Effect.filter_commit f, Effect.image_flush (some display_A)]) ∧
      Idle (gimp_blend_tool_commit started_at_10) ∧
      gimp_blend_tool_commit started_at_10 ≠ started_at_10 :=
  ⟨by decide, by decide,
    click_without_grab_commits started_at_10 display_A display_A p10
      GimpButtonReleaseType.CLICK [] (by decide) (by decide) (Or.inl rfl)⟩

/-! ## The effect log never records an apply without a filter -/

theorem noNullApply_append {s t : ToolState} (l : List Effect) (ht : t.log = s.log ++ l)
    (h : NoNullApply s) (hl : Effect.filter_apply none ∉ l) : NoNullApply t := by
  unfold NoNullApply at *
  rw [ht, List.mem_append]
  exact fun hm => hm.elim h hl

theorem widget_changes_none (changes : List BlendInfo) (s : ToolState) (h : s.widget = none) :
    widget_changes s changes = s := by
  induction changes with
  | nil => rfl
  | cons c cs ih =>
    show widget_changes (widget_set_line s c) cs = s
    rw [widget_set_line_none s c h]
    exact ih

theorem widget_none_of_filter_none {s : ToolState} (hwf : WellFormed s) (hf : s.filter = none) :
    s.widget = none := by
  have h4 := hwf.2.2.2.1
  rw [hf] at h4
  cases hw : s.widget with
  | none => rfl
  | some w => rw [hw] at h4; simp at h4

theorem noNullApply_widget_changes (s : ToolState) (changes : List BlendInfo)
    (hwf : WellFormed s) (h : NoNullApply s) : NoNullApply (widget_changes s changes) := by
  cases hf : s.filter with
  | none => rw [widget_changes_none changes s (widget_none_of_filter_none hwf hf)]; exact h
  | some f =>
    obtain ⟨n, hn⟩ := widget_changes_log changes s
    rw [hf] at hn
    exact noNullApply_append _ hn h (by simp [List.mem_replicate])

theorem noNullApply_halt (s : ToolState) (h : NoNullApply s) :
    NoNullApply (gimp_blend_tool_halt s) := by
  have hl : (gimp_blend_tool_halt s).log = s.log ++ (match s.filter with
      | some f => [Effect.filter_abort f, Effect.image_flush s.display]
      | none => []) := by
    rw [halt_eq]
  refine noNullApply_append _ hl h ?_
  cases s.filter <;> simp

theorem noNullApply_commit (s : ToolState) (h : NoNullApply s) :
    NoNullApply (gimp_blend_tool_commit s) := by
  have hl : (gimp_blend_tool_commit s).log = s.log ++ (match s.filter with
      | some f => [Effect.filter_commit f, Effect.image_flush s.display]
      | none => []) := by
    rw [commit_eq]
  refine noNullApply_append _ hl h ?_
  cases s.filter <;> simp

theorem noNullApply_control (s : ToolState) (a : GimpToolAction) (h : NoNullApply s) :
    NoNullApply (gimp_tool_control s a) := by
  cases a with
  | PAUSE => exact h
  | RESUME => exact h
  | HALT => rw [control_halt_eq]; exact noNullApply_halt s h
  | COMMIT => rw [control_commit_eq]; exact noNullApply_commit s h

theorem idle_of_wellFormed_no_widget {s : ToolState} (hwf : WellFormed s)
    (hw : s.widget = none) : s.graph = none ∧ s.dist_buffer = none := by
  obtain ⟨a1, _, _, _, _, _, _, _, a9⟩ := hwf
  refine ⟨?_, (a9 hw).2.2⟩
  cases hg : s.graph with
  | none => rfl
  | some g => rw [hg, hw] at a1; simp at a1

theorem noNullApply_start (s : ToolState) (c : GimpCoords) (d : GimpDisplay) (env : Env)
    (hwf : WellFormed s) (hw : s.widget = none) (h : NoNullApply s) :
    NoNullApply (gimp_blend_tool_start s c d env) := by
  obtain ⟨hg, hb⟩ := idle_of_wellFormed_no_widget hwf hw
  obtain ⟨hl, _⟩ := start_log s c d env hg hb
  rw [List.append_assoc] at hl
  refine noNullApply_append _ hl h ?_
  split <;> simp

theorem noNullApply_press_prepared (s : ToolState) (c : GimpCoords) (d : GimpDisplay)
    (env : Env) (hwf : WellFormed s) (h : NoNullApply s) :
    NoNullApply (press_prepared s c d env) := by
  unfold press_prepared
  dsimp only
  have h1 : WellFormed (if s.display.isSome && decide (some d ≠ s.display) then
      gimp_tool_control s GimpToolAction.HALT else s) ∧
      NoNullApply (if s.display.isSome && decide (some d ≠ s.display) then
      gimp_tool_control s GimpToolAction.HALT else s) := by
    split
    · exact ⟨wellFormed_control s _ hwf, noNullApply_control s _ h⟩
    · exact ⟨hwf, h⟩
  generalize (if s.display.isSome && decide (some d ≠ s.display) then
    gimp_tool_control s GimpToolAction.HALT else s) = s1 at h1
  by_cases hw : s1.widget.isNone = true
  · rw [if_pos hw]
    exact noNullApply_start s1 c d env h1.1 (by simpa using hw) h1.2
  · rw [if_neg hw]
    exact h1.2

theorem noNullApply_press (s : ToolState) (c : GimpCoords) (d : GimpDisplay) (env : Env)
    (r : PressReaction) (hwf : WellFormed s) (h : NoNullApply s) :
    NoNullApply (gimp_blend_tool_button_press s c d env r) := by
  obtain ⟨w, _, hp⟩ := press_general s c d env r
  have h2 := noNullApply_widget_changes _ r.changes (wellFormed_press_prepared s c d env hwf)
    (noNullApply_press_prepared s c d env hwf h)
  rw [hp]
  split
  · exact h2
  · exact h2

theorem noNullApply_release (s t : ToolState) (c : GimpCoords) (rt : GimpButtonReleaseType)
    (d : GimpDisplay) (changes : List BlendInfo) (hwf : WellFormed s) (h : NoNullApply s)
    (ht : gimp_blend_tool_button_release s c rt d changes = Except.ok t) :
    NoNullApply t := by
  have h2 := noNullApply_widget_changes s changes hwf h
  cases hg : s.grab_widget with
  | none =>
    simp only [gimp_blend_tool_button_release, hg] at ht
    split at ht
    · simp only [Except.ok.injEq] at ht
      subst ht
      exact noNullApply_control s _ h
    · simp only [Except.ok.injEq] at ht
      subst ht
      exact h
  | some w =>
    by_cases hl : grab_is_live s w = true
    · simp only [gimp_blend_tool_button_release, hg, hl, if_true] at ht
      split at ht
      · split at ht
        · simp at ht
        · simp only [Except.ok.injEq] at ht
          subst ht
          exact noNullApply_append [Effect.image_flush (some d)] rfl h2 (by simp)
      · simp only [Except.ok.injEq] at ht
        subst ht
        refine noNullApply_append (s := widget_changes s changes)
          [Effect.image_flush (some d)] ?_ h2 (by simp)
        split <;> rfl
    · simp [gimp_blend_tool_button_release, hg, hl] at ht

theorem noNullApply_motion (s t : ToolState) (c : GimpCoords) (changes : List BlendInfo)
    (hwf : WellFormed s) (h : NoNullApply s)
    (ht : gimp_blend_tool_motion s c changes = Except.ok t) : NoNullApply t := by
  unfold gimp_blend_tool_motion at ht
  split at ht
  · split at ht
    · simp only [Except.ok.injEq] at ht
      subst ht
      exact noNullApply_widget_changes s changes hwf h
    · simp at ht
  · simp only [Except.ok.injEq] at ht
    subst ht
    exact h

theorem noNullApply_widget_set_line (s : ToolState) (info : BlendInfo)
    (hwf : WellFormed s) (h : NoNullApply s) : NoNullApply (widget_set_line s info) :=
  noNullApply_widget_changes s [info] hwf h

theorem noNullApply_undo (s : ToolState) (d : GimpDisplay) (hwf : WellFormed s)
    (h : NoNullApply s) : NoNullApply (gimp_blend_tool_undo s d).2 := by
  by_cases hu : gimp_blend_tool_get_undo_desc s d = none
  · rw [undo_of_desc_none s d hu]
    exact h
  · obtain ⟨hd, e, rest, hst⟩ := undo_desc_some s d hu
    have hw : s.widget.isSome = true := by
      cases hsw : s.widget with
      | none => have := (hwf.2.2.2.2.2.2.2.2 hsw).1; rw [hst] at this; simp at this
      | some v => rfl
    rw [undo_eq s d e rest hd hst]
    have h1 : WellFormed { s with redo_stack := current s :: s.redo_stack } :=
      wellFormed_set_history hwf hw s.undo_stack (current s :: s.redo_stack) s.grab_widget s.log
    exact noNullApply_widget_set_line { s with redo_stack := current s :: s.redo_stack } e h1 h

theorem noNullApply_redo (s : ToolState) (d : GimpDisplay) (hwf : WellFormed s)
    (h : NoNullApply s) : NoNullApply (gimp_blend_tool_redo s d).2 := by
  by_cases hu : gimp_blend_tool_get_redo_desc s d = none
  · rw [redo_of_desc_none s d hu]
    exact h
  · obtain ⟨hd, e, rest, hst⟩ := redo_desc_some s d hu
    have hw : s.widget.isSome = true := by
      cases hsw : s.widget with
      | none => have := (hwf.2.2.2.2.2.2.2.2 hsw).2.1; rw [hst] at this; simp at this
      | some v => rfl
    rw [redo_eq s d e rest hd hst]
    have h1 : WellFormed { s with undo_stack := current s :: s.undo_stack } :=
      wellFormed_set_history hwf hw (current s :: s.undo_stack) s.redo_stack s.grab_widget s.log
    exact noNullApply_widget_set_line { s with undo_stack := current s :: s.undo_stack } e h1 h

theorem update_graph_log (s : ToolState) :
    (gimp_blend_tool_update_graph s).log = s.log ∧
    (gimp_blend_tool_update_graph s).filter = s.filter ∧
    (gimp_blend_tool_update_graph s).dist_buffer = s.dist_buffer := by
  unfold gimp_blend_tool_update_graph
  split
  · exact ⟨rfl, rfl, rfl⟩
  · split <;> exact ⟨rfl, rfl, rfl⟩

theorem set_gradient_log (s : ToolState) (g : Option GimpGradient) :
    (gimp_blend_tool_set_gradient s g).log = s.log ∧
    (gimp_blend_tool_set_gradient s g).filter = s.filter ∧
    (gimp_blend_tool_set_gradient s g).dist_buffer = s.dist_buffer := by
  unfold gimp_blend_tool_set_gradient
  split <;> exact ⟨rfl, rfl, rfl⟩

theorem precalc_of_buffer (s : ToolState) (env : Env) (h : s.dist_buffer.isSome = true) :
    gimp_blend_tool_precalc_shapeburst s env = s := by
  simp [gimp_blend_tool_precalc_shapeburst, h]

theorem precalc_log (s : ToolState) (env : Env) :
    (gimp_blend_tool_precalc_shapeburst s env).filter = s.filter ∧
    ((gimp_blend_tool_precalc_shapeburst s env = s) ∨
     (s.dist_buffer = none ∧
      (gimp_blend_tool_precalc_shapeburst s env).dist_buffer = env.distmap ∧
      ∃ d, s.drawable = some d ∧
        (gimp_blend_tool_precalc_shapeburst s env).log =
          s.log ++ [Effect.shapeburst_distmap d])) := by
  unfold gimp_blend_tool_precalc_shapeburst
  split
  · exact ⟨rfl, Or.inl rfl⟩
  · rename_i hc
    split
    · exact ⟨rfl, Or.inl rfl⟩
    · split
      · exact ⟨rfl, Or.inl rfl⟩
      · rename_i dr hdr
        have hb : s.dist_buffer = none := by
          cases hsb : s.dist_buffer with
          | none => rfl
          | some b => simp [hsb] at hc
        dsimp only
        split
        · exact ⟨rfl, Or.inr ⟨hb, rfl, dr, hdr, rfl⟩⟩
        · exact ⟨rfl, Or.inr ⟨hb, rfl, dr, hdr, rfl⟩⟩

theorem noNullApply_precalc (s : ToolState) (env : Env) (h : NoNullApply s) :
    NoNullApply (gimp_blend_tool_precalc_shapeburst s env) := by
  rcases (precalc_log s env).2 with he | ⟨_, _, d, _, hl⟩
  · rw [he]; exact h
  · exact noNullApply_append _ hl h (by simp)

theorem noNullApply_filter_apply (s : ToolState) (h : NoNullApply s)
    (hf : s.filter.isSome = true) : NoNullApply (gimp_drawable_filter_apply s) := by
  refine noNullApply_append (s := s) [Effect.filter_apply s.filter] rfl h ?_
  cases hsf : s.filter with
  | none => rw [hsf] at hf; simp at hf
  | some f => simp

theorem noNullApply_gradient_dirty (s : ToolState) (h : NoNullApply s) :
    NoNullApply (gimp_blend_tool_gradient_dirty s) := by
  unfold gimp_blend_tool_gradient_dirty
  split
  · exact h
  · rename_i hf
    have hfs : s.filter.isSome = true := by
      cases hsf : s.filter with
      | none => simp [hsf] at hf
      | some f => rfl
    apply noNullApply_filter_apply
    · split
      · exact h
      · exact h
    · split
      · exact hfs
      · exact hfs

theorem filter_isSome_of_render {s : ToolState} (hwf : WellFormed s)
    (hr : s.render_node.isSome = true) : s.filter.isSome = true := by
  obtain ⟨_, a2, _, a4, _⟩ := hwf
  rw [a4, ← a2, hr]

theorem noNullApply_options_notify (s : ToolState) (name : String) (found : Bool) (env : Env)
    (hwf : WellFormed s) (h : NoNullApply s) :
    NoNullApply (gimp_blend_tool_options_notify s name found env) := by
  unfold gimp_blend_tool_options_notify
  split
  · dsimp only
    split
    · rename_i hf
      exact noNullApply_filter_apply _ (by
        unfold NoNullApply
        rw [(set_gradient_log s env.gradient).1]
        exact h) hf
    · unfold NoNullApply
      rw [(set_gradient_log s env.gradient).1]
      exact h
  · split
    · rename_i hc
      have hr : s.render_node.isSome = true := by
        cases hsr : s.render_node.isSome with
        | true => rfl
        | false => simp [hsr] at hc
      have hf := filter_isSome_of_render hwf hr
      have h1 : NoNullApply { s with log := s.log ++ [Effect.node_set_property name] } :=
        noNullApply_append (s := s) [Effect.node_set_property name] rfl h (by simp)
      dsimp only
      split
      · apply noNullApply_filter_apply
        · unfold NoNullApply
          rw [(update_graph_log _).1]
          split
          · exact noNullApply_precalc _ env h1
          · exact h1
        · rw [(update_graph_log _).2.1]
          split
          · rw [(precalc_log _ env).1]
            exact hf
          · exact hf
      · exact noNullApply_filter_apply _ h1 hf
    · split
      · split
        · exact noNullApply_append (s := s) _ rfl h (by simp)
        · exact h
      · split
        · split
          · exact noNullApply_append (s := s) _ rfl h (by simp)
          · exact h
        · exact h

theorem noNullApply_step (s t : ToolState) (e : Event) (hwf : WellFormed s)
    (h : NoNullApply s) (ht : step s e = Except.ok t) : NoNullApply t := by
  cases e with
  | button_press c d env r =>
    simp only [step, Except.ok.injEq] at ht
    subst ht
    exact noNullApply_press s c d env r hwf h
  | button_release c rt d changes => exact noNullApply_release s t c rt d changes hwf h ht
  | motion c changes => exact noNullApply_motion s t c changes hwf h ht
  | undo d =>
    simp only [step, Except.ok.injEq] at ht
    subst ht
    exact noNullApply_undo s d hwf h
  | redo d =>
    simp only [step, Except.ok.injEq] at ht
    subst ht
    exact noNullApply_redo s d hwf h
  | options_notify name found env =>
    simp only [step, Except.ok.injEq] at ht
    subst ht
    exact noNullApply_options_notify s name found env hwf h
  | gradient_dirty =>
    simp only [step, Except.ok.injEq] at ht
    subst ht
    exact noNullApply_gradient_dirty s h
  | control a =>
    simp only [step, Except.ok.injEq] at ht
    subst ht
    exact noNullApply_control s a h
  | line_changed info =>
    simp only [step, Except.ok.injEq] at ht
    subst ht
    exact noNullApply_widget_set_line s info hwf h
  | line_response r =>
    simp only [step, Except.ok.injEq] at ht
    subst ht
    cases r with
    | CONFIRM => exact noNullApply_control s _ h
    | CANCEL => exact noNullApply_control s _ h
    | OTHER => exact h

theorem noNullApply_run (es : List Event) (s t : ToolState) (hwf : WellFormed s)
    (h : NoNullApply s) (ht : run s es = Except.ok t) : NoNullApply t := by
  induction es generalizing s with
  | nil =>
    simp only [run, Except.ok.injEq] at ht
    subst ht
    exact h
  | cons e es ih =>
    simp only [run] at ht
    cases hs : step s e with
    | error f => simp [hs] at ht
    | ok s1 =>
      simp only [hs] at ht
      exact ih s1 (wellFormed_step s s1 e hwf hs) (noNullApply_step s s1 e hwf h hs) ht

theorem reachable_noNullApply {s : ToolState} (h : Reachable s) : NoNullApply s := by
  obtain ⟨es, hes⟩ := h
  exact noNullApply_run es init s wellFormed_init (by simp [NoNullApply, init]) hes

theorem start_creates_graph_and_filter (s : ToolState) (c : GimpCoords) (d : GimpDisplay)
    (env : Env) :
    (gimp_blend_tool_start s c d env).graph.isSome = true ∧
    (gimp_blend_tool_start s c d env).filter.isSome = true := by
  obtain ⟨display, drawable, draw_display, draw_widget, gradient, sx, sy, ex, ey, graph,
    render_node, dist_node, dist_buffer, filter, widget, grab, undo_stack, redo_stack, log,
    fresh⟩ := s
  cases hsb : gimp_blend_tool_is_shapeburst env <;> cases hgr : env.gradient <;>
    cases hdb : dist_buffer <;> cases hmi : env.mask_intersect <;> cases graph <;>
    cases draw_display <;> cases render_node <;> cases dist_node <;>
    simp [gimp_blend_tool_start, gimp_blend_tool_create_filter, gimp_blend_tool_create_graph,
      gimp_blend_tool_update_graph, gimp_blend_tool_set_gradient,
      gimp_blend_tool_precalc_shapeburst, gimp_draw_tool_start, gimp_draw_tool_is_active,
      gimp_draw_tool_set_widget, hsb, hgr, hmi]

/-! ## The line, the widget and the render node stay in step -/

theorem synced_congr {s t : ToolState} (h : Synced s) (hw : t.widget = s.widget)
    (hc : current t = current s) (hr : t.render_node = s.render_node)
    (hd : t.drawable = s.drawable) : Synced t := by
  obtain ⟨h1, h2⟩ := h
  have hx : t.start_x = s.start_x := congrArg BlendInfo.start_x hc
  have hy : t.start_y = s.start_y := congrArg BlendInfo.start_y hc
  have hex : t.end_x = s.end_x := congrArg BlendInfo.end_x hc
  have hey : t.end_y = s.end_y := congrArg BlendInfo.end_y hc
  constructor
  · intro w hwt
    rw [hc]
    exact h1 w (hw ▸ hwt)
  · intro node d hn hdt
    rw [hx, hy, hex, hey]
    exact h2 node d (hr ▸ hn) (hd ▸ hdt)

theorem synced_of_idle {s : ToolState} (h : Idle s) : Synced s := by
  obtain ⟨_, h2, _, _, _, _, _, h8, _⟩ := h
  constructor
  · intro w hw
    rw [h8] at hw
    exact Option.noConfusion hw
  · intro node d hn _
    rw [h2] at hn
    exact Option.noConfusion hn

theorem synced_widget_set_line (s : ToolState) (info : BlendInfo) (h : Synced s) :
    Synced (widget_set_line s info) := by
  unfold widget_set_line
  cases hw : s.widget with
  | none => exact h
  | some w =>
    cases hr : s.render_node <;> cases hd : s.drawable <;>
      simp [Synced, gimp_blend_tool_line_changed, gimp_blend_tool_update_graph,
        gimp_drawable_filter_apply, hr, hd, current, blend_info_new]

theorem synced_widget_changes (changes : List BlendInfo) (s : ToolState) (h : Synced s) :
    Synced (widget_changes s changes) := by
  induction changes generalizing s with
  | nil => exact h
  | cons c cs ih => exact ih (widget_set_line s c) (synced_widget_set_line s c h)

theorem synced_update_graph (s : ToolState) (h : Synced s) :
    Synced (gimp_blend_tool_update_graph s) := by
  obtain ⟨h1, _⟩ := h
  unfold gimp_blend_tool_update_graph
  split
  · rename_i hr
    exact ⟨h1, fun node d hn => by rw [hr] at hn; exact Option.noConfusion hn⟩
  · split
    · rename_i hd
      refine ⟨h1, ?_⟩
      intro n d _ hdt
      have hdt1 : s.drawable = some d := hdt
      rw [hd] at hdt1
      exact Option.noConfusion hdt1
    · rename_i dr hd
      refine ⟨h1, ?_⟩
      intro n d hn hdt
      have hdt1 : s.drawable = some d := hdt
      rw [hd] at hdt1
      cases hdt1
      cases hn
      rfl

theorem synced_set_gradient (s : ToolState) (g : Option GimpGradient) (h : Synced s) :
    Synced (gimp_blend_tool_set_gradient s g) := by
  obtain ⟨h1, h2⟩ := h
  unfold gimp_blend_tool_set_gradient
  split
  · rename_i node hn
    refine ⟨h1, ?_⟩
    intro n d hnn hd
    cases hnn
    exact h2 node d hn hd
  · exact ⟨h1, h2⟩

theorem synced_gradient_dirty (s : ToolState) (h : Synced s) :
    Synced (gimp_blend_tool_gradient_dirty s) := by
  obtain ⟨h1, h2⟩ := h
  unfold gimp_blend_tool_gradient_dirty
  split
  · exact ⟨h1, h2⟩
  · cases hr : s.render_node with
    | none => exact synced_congr ⟨h1, h2⟩ rfl rfl (by simp [gimp_drawable_filter_apply, hr]) rfl
    | some node =>
      refine ⟨h1, ?_⟩
      intro n d hnn hd
      simp only [gimp_drawable_filter_apply, Option.some.injEq] at hnn
      subst hnn
      exact h2 node d hr hd

theorem synced_precalc (s : ToolState) (env : Env) (h : Synced s) :
    Synced (gimp_blend_tool_precalc_shapeburst s env) := by
  unfold gimp_blend_tool_precalc_shapeburst
  split
  · exact h
  · split
    · exact h
    · split
      · exact h
      · dsimp only
        split
        · exact synced_congr h rfl rfl rfl rfl
        · exact synced_congr h rfl rfl rfl rfl

theorem synced_filter_apply (s : ToolState) (h : Synced s) :
    Synced (gimp_drawable_filter_apply s) :=
  synced_congr h rfl rfl rfl rfl

theorem synced_options_notify (s : ToolState) (name : String) (found : Bool) (env : Env)
    (h : Synced s) : Synced (gimp_blend_tool_options_notify s name found env) := by
  unfold gimp_blend_tool_options_notify
  split
  · dsimp only
    split
    · exact synced_filter_apply _ (synced_set_gradient s _ h)
    · exact synced_set_gradient s _ h
  · split
    · dsimp only
      apply synced_filter_apply
      have h1 : Synced { s with log := s.log ++ [Effect.node_set_property name] } :=
        synced_congr h rfl rfl rfl rfl
      split
      · apply synced_update_graph
        split
        · exact synced_precalc _ env h1
        · exact h1
      · exact h1
    · split
      · split
        · exact synced_congr h rfl rfl rfl rfl
        · exact h
      · split
        · split
          · exact synced_congr h rfl rfl rfl rfl
          · exact h
        · exact h

theorem synced_start (s : ToolState) (c : GimpCoords) (d : GimpDisplay) (env : Env)
    (hg : s.graph = none) : Synced (gimp_blend_tool_start s c d env) := by
  obtain ⟨display, drawable, draw_display, draw_widget, gradient, sx, sy, ex, ey, graph,
    render_node, dist_node, dist_buffer, filter, widget, grab, undo_stack, redo_stack, log,
    fresh⟩ := s
  simp only at hg
  subst hg
  cases hsb : gimp_blend_tool_is_shapeburst env <;> cases hgr : env.gradient <;>
    cases hdb : dist_buffer <;> cases hmi : env.mask_intersect <;> cases draw_display <;>
    simp [Synced, gimp_blend_tool_start, gimp_blend_tool_create_filter,
      gimp_blend_tool_create_graph, gimp_blend_tool_update_graph,
      gimp_blend_tool_set_gradient, gimp_blend_tool_precalc_shapeburst,
      gimp_draw_tool_start, gimp_draw_tool_is_active, gimp_draw_tool_set_widget, hsb, hgr,
      hmi, current, blend_info_new]

theorem idle_commit (s : ToolState) (h : WellFormed s) : Idle (gimp_blend_tool_commit s) := by
  obtain ⟨a1, a2, a3, _⟩ := h
  rw [commit_eq]
  cases hg : s.graph <;> cases hr : s.render_node <;> cases hd : s.dist_node <;>
    cases hw : s.widget <;> simp [Idle, hg, hr, hd, hw] at a1 a2 a3 ⊢

theorem synced_control (s : ToolState) (a : GimpToolAction) (hwf : WellFormed s)
    (h : Synced s) : Synced (gimp_tool_control s a) := by
  cases a with
  | PAUSE => exact h
  | RESUME => exact h
  | HALT => rw [control_halt_eq]; exact synced_of_idle (idle_halt s hwf)
  | COMMIT => rw [control_commit_eq]; exact synced_of_idle (idle_commit s hwf)

theorem synced_press_prepared (s : ToolState) (c : GimpCoords) (d : GimpDisplay)
    (env : Env) (hwf : WellFormed s) (h : Synced s) :
    Synced (press_prepared s c d env) := by
  unfold press_prepared
  dsimp only
  have h1 : WellFormed (if s.display.isSome && decide (some d ≠ s.display) then
      gimp_tool_control s GimpToolAction.HALT else s) ∧
      Synced (if s.display.isSome && decide (some d ≠ s.display) then
      gimp_tool_control s GimpToolAction.HALT else s) := by
    split
    · exact ⟨wellFormed_control s _ hwf, synced_control s _ hwf h⟩
    · exact ⟨hwf, h⟩
  generalize (if s.display.isSome && decide (some d ≠ s.display) then
    gimp_tool_control s GimpToolAction.HALT else s) = s1 at h1
  by_cases hw : s1.widget.isNone = true
  · rw [if_pos hw]
    have hwn : s1.widget = none := by simpa using hw
    have hg : s1.graph = none := by
      have a1 := h1.1.1
      cases hsg : s1.graph with
      | none => rfl
      | some g => rw [hsg, hwn] at a1; simp at a1
    exact synced_start s1 c d env hg
  · rw [if_neg hw]
    exact h1.2

theorem synced_press (s : ToolState) (c : GimpCoords) (d : GimpDisplay) (env : Env)
    (r : PressReaction) (hwf : WellFormed s) (h : Synced s) :
    Synced (gimp_blend_tool_button_press s c d env r) := by
  obtain ⟨w, _, hp⟩ := press_general s c d env r
  have h2 := synced_widget_changes r.changes _ (synced_press_prepared s c d env hwf h)
  rw [hp]
  split
  · exact synced_congr h2 rfl rfl rfl rfl
  · exact h2

theorem synced_release (s t : ToolState) (c : GimpCoords) (rt : GimpButtonReleaseType)
    (d : GimpDisplay) (changes : List BlendInfo) (hwf : WellFormed s) (h : Synced s)
    (ht : gimp_blend_tool_button_release s c rt d changes = Except.ok t) : Synced t := by
  have h2 := synced_widget_changes changes s h
  cases hg : s.grab_widget with
  | none =>
    simp only [gimp_blend_tool_button_release, hg] at ht
    split at ht
    · simp only [Except.ok.injEq] at ht
      subst ht
      exact synced_control s _ hwf h
    · simp only [Except.ok.injEq] at ht
      subst ht
      exact h
  | some w =>
    by_cases hl : grab_is_live s w = true
    · simp only [gimp_blend_tool_button_release, hg, hl, if_true] at ht
      split at ht
      · split at ht
        · simp at ht
        · simp only [Except.ok.injEq] at ht
          subst ht
          exact synced_congr h2 rfl rfl rfl rfl
      · simp only [Except.ok.injEq] at ht
        subst ht
        split
        · exact synced_congr h2 rfl rfl rfl rfl
        · exact synced_congr h2 rfl rfl rfl rfl
    · simp [gimp_blend_tool_button_release, hg, hl] at ht

theorem synced_motion (s t : ToolState) (c : GimpCoords) (changes : List BlendInfo)
    (h : Synced s) (ht : gimp_blend_tool_motion s c changes = Except.ok t) : Synced t := by
  unfold gimp_blend_tool_motion at ht
  split at ht
  · split at ht
    · simp only [Except.ok.injEq] at ht
      subst ht
      exact synced_widget_changes changes s h
    · simp at ht
  · simp only [Except.ok.injEq] at ht
    subst ht
    exact h

theorem synced_undo (s : ToolState) (d : GimpDisplay) (h : Synced s) :
    Synced (gimp_blend_tool_undo s d).2 := by
  by_cases hu : gimp_blend_tool_get_undo_desc s d = none
  · rw [undo_of_desc_none s d hu]
    exact h
  · obtain ⟨hd, e, rest, hst⟩ := undo_desc_some s d hu
    rw [undo_eq s d e rest hd hst]
    have h1 : Synced { s with redo_stack := current s :: s.redo_stack } :=
      synced_congr h rfl rfl rfl rfl
    exact synced_congr (synced_widget_set_line _ e h1) rfl rfl rfl rfl

theorem synced_redo (s : ToolState) (d : GimpDisplay) (h : Synced s) :
    Synced (gimp_blend_tool_redo s d).2 := by
  by_cases hu : gimp_blend_tool_get_redo_desc s d = none
  · rw [redo_of_desc_none s d hu]
    exact h
  · obtain ⟨hd, e, rest, hst⟩ := redo_desc_some s d hu
    rw [redo_eq s d e rest hd hst]
    have h1 : Synced { s with undo_stack := current s :: s.undo_stack } :=
      synced_congr h rfl rfl rfl rfl
    exact synced_congr (synced_widget_set_line _ e h1) rfl rfl rfl rfl

theorem synced_step (s t : ToolState) (e : Event) (hwf : WellFormed s) (h : Synced s)
    (ht : step s e = Except.ok t) : Synced t := by
  cases e with
  | button_press c d env r =>
    simp only [step, Except.ok.injEq] at ht
    subst ht
    exact synced_press s c d env r hwf h
  | button_release c rt d changes => exact synced_release s t c rt d changes hwf h ht
  | motion c changes => exact synced_motion s t c changes h ht
  | undo d =>
    simp only [step, Except.ok.injEq] at ht
    subst ht
    exact synced_undo s d h
  | redo d =>
    simp only [step, Except.ok.injEq] at ht
    subst ht
    exact synced_redo s d h
  | options_notify name found env =>
    simp only [step, Except.ok.injEq] at ht
    subst ht
    exact synced_options_notify s name found env h
  | gradient_dirty =>
    simp only [step, Except.ok.injEq] at ht
    subst ht
    exact synced_gradient_dirty s h
  | control a =>
    simp only [step, Except.ok.injEq] at ht
    subst ht
    exact synced_control s a hwf h
  | line_changed info =>
    simp only [step, Except.ok.injEq] at ht
    subst ht
    exact synced_widget_set_line s info h
  | line_response r =>
    simp only [step, Except.ok.injEq] at ht
    subst ht
    cases r with
    | CONFIRM => exact synced_control s _ hwf h
    | CANCEL => exact synced_control s _ hwf h
    | OTHER => exact h

theorem synced_run (es : List Event) (s t : ToolState) (hwf : WellFormed s) (h : Synced s)
    (ht : run s es = Except.ok t) : Synced t := by
  induction es generalizing s with
  | nil =>
    simp only [run, Except.ok.injEq] at ht
    subst ht
    exact h
  | cons e es ih =>
    simp only [run] at ht
    cases hs : step s e with
    | error f => simp [hs] at ht
    | ok s1 =>
      simp only [hs] at ht
      exact ih s1 (wellFormed_step s s1 e hwf hs) (synced_step s s1 e hwf h hs) ht

theorem reachable_synced {s : ToolState} (h : Reachable s) : Synced s := by
  obtain ⟨es, hes⟩ := h
  exact synced_run es init s wellFormed_init (synced_of_idle (by decide)) hes

/-! ## Distance-map computations within a session -/

theorem distmap_count_append {s t : ToolState} (l : List Effect) (ht : t.log = s.log ++ l) :
    distmap_count t = distmap_count s + l.countP is_distmap := by
  unfold distmap_count
  rw [ht, List.countP_append]

theorem distmap_count_same {s t : ToolState} (l : List Effect) (ht : t.log = s.log ++ l)
    (hl : ∀ e ∈ l, is_distmap e = false) :
    distmap_count t = distmap_count s := by
  rw [distmap_count_append l ht]
  have : l.countP is_distmap = 0 := by
    rw [List.countP_eq_zero]
    intro e he
    rw [hl e he]
    exact Bool.false_ne_true
  omega

theorem quiet_widget_changes (s : ToolState) (changes : List BlendInfo) :
    (widget_changes s changes).dist_buffer = s.dist_buffer ∧
    distmap_count (widget_changes s changes) = distmap_count s := by
  refine ⟨(widget_changes_same changes s).2.2.2.2.2.2.2.1, ?_⟩
  obtain ⟨n, hn⟩ := widget_changes_log changes s
  refine distmap_count_same _ hn ?_
  intro e he
  rw [List.mem_replicate] at he
  rw [he.2]
  rfl

theorem quiet_widget_set_line (s : ToolState) (info : BlendInfo) :
    (widget_set_line s info).dist_buffer = s.dist_buffer ∧
    distmap_count (widget_set_line s info) = distmap_count s :=
  quiet_widget_changes s [info]

theorem press_prepared_in_session (s : ToolState) (c : GimpCoords) (d : GimpDisplay)
    (env : Env) (hwf : WellFormed s) (hd : s.display = some d) :
    press_prepared s c d env = s := by
  have hw : s.widget.isSome = true := by
    rw [← hwf.2.2.2.2.1, hd]
    rfl
  obtain ⟨w, hw1⟩ := Option.isSome_iff_exists.mp hw
  unfold press_prepared
  simp [hd, hw1]

theorem quiet_press (s : ToolState) (c : GimpCoords) (d : GimpDisplay) (env : Env)
    (r : PressReaction) (hwf : WellFormed s) (hd : s.display = some d) :
    (gimp_blend_tool_button_press s c d env r).dist_buffer = s.dist_buffer ∧
    distmap_count (gimp_blend_tool_button_press s c d env r) = distmap_count s := by
  obtain ⟨w, _, hp⟩ := press_general s c d env r
  rw [press_prepared_in_session s c d env hwf hd] at hp
  rw [hp]
  split
  · exact quiet_widget_changes s r.changes
  · exact quiet_widget_changes s r.changes

theorem quiet_release (s t : ToolState) (c : GimpCoords) (rt : GimpButtonReleaseType)
    (d : GimpDisplay) (changes : List BlendInfo)
    (hk : keeps_session s (Event.button_release c rt d changes) = true)
    (ht : gimp_blend_tool_button_release s c rt d changes = Except.ok t) :
    t.dist_buffer = s.dist_buffer ∧ distmap_count t = distmap_count s := by
  obtain ⟨q1, q2⟩ := quiet_widget_changes s changes
  cases hg : s.grab_widget with
  | none =>
    simp only [keeps_session, hg, Option.isSome_none, Bool.false_or, Bool.and_eq_true,
      decide_eq_true_eq] at hk
    simp only [gimp_blend_tool_button_release, hg] at ht
    rw [if_neg (by
      intro h
      rcases h with h | h
      · exact hk.1 h
      · exact hk.2 h)] at ht
    simp only [Except.ok.injEq] at ht
    subst ht
    exact ⟨rfl, rfl⟩
  | some w =>
    by_cases hl : grab_is_live s w = true
    · simp only [gimp_blend_tool_button_release, hg, hl, if_true] at ht
      split at ht
      · split at ht
        · simp at ht
        · simp only [Except.ok.injEq] at ht
          subst ht
          refine ⟨q1, ?_⟩
          rw [← q2]
          exact distmap_count_same (s := widget_changes s changes)
            [Effect.image_flush (some d)] rfl (by simp [is_distmap])
      · simp only [Except.ok.injEq] at ht
        subst ht
        constructor
        · show (if _ then _ else _ : ToolState).dist_buffer = _
          split <;> exact q1
        · rw [← q2]
          refine distmap_count_same (s := widget_changes s changes)
            [Effect.image_flush (some d)] ?_ (by simp [is_distmap])
          split <;> rfl
    · simp [gimp_blend_tool_button_release, hg, hl] at ht

theorem quiet_motion (s t : ToolState) (c : GimpCoords) (changes : List BlendInfo)
    (ht : gimp_blend_tool_motion s c changes = Except.ok t) :
    t.dist_buffer = s.dist_buffer ∧ distmap_count t = distmap_count s := by
  unfold gimp_blend_tool_motion at ht
  split at ht
  · split at ht
    · simp only [Except.ok.injEq] at ht
      subst ht
      exact quiet_widget_changes s changes
    · simp at ht
  · simp only [Except.ok.injEq] at ht
    subst ht
    exact ⟨rfl, rfl⟩

theorem quiet_undo (s : ToolState) (d : GimpDisplay) :
    (gimp_blend_tool_undo s d).2.dist_buffer = s.dist_buffer ∧
    distmap_count (gimp_blend_tool_undo s d).2 = distmap_count s := by
  by_cases hu : gimp_blend_tool_get_undo_desc s d = none
  · rw [undo_of_desc_none s d hu]
    exact ⟨rfl, rfl⟩
  · obtain ⟨hd, e, rest, hst⟩ := undo_desc_some s d hu
    rw [undo_eq s d e rest hd hst]
    exact quiet_widget_set_line { s with redo_stack := current s :: s.redo_stack } e

theorem quiet_redo (s : ToolState) (d : GimpDisplay) :
    (gimp_blend_tool_redo s d).2.dist_buffer = s.dist_buffer ∧
    distmap_count (gimp_blend_tool_redo s d).2 = distmap_count s := by
  by_cases hu : gimp_blend_tool_get_redo_desc s d = none
  · rw [redo_of_desc_none s d hu]
    exact ⟨rfl, rfl⟩
  · obtain ⟨hd, e, rest, hst⟩ := redo_desc_some s d hu
    rw [redo_eq s d e rest hd hst]
    exact quiet_widget_set_line { s with undo_stack := current s :: s.undo_stack } e

theorem quiet_gradient_dirty (s : ToolState) :
    (gimp_blend_tool_gradient_dirty s).dist_buffer = s.dist_buffer ∧
    distmap_count (gimp_blend_tool_gradient_dirty s) = distmap_count s := by
  unfold gimp_blend_tool_gradient_dirty
  split
  · exact ⟨rfl, rfl⟩
  · split
    · exact ⟨rfl, distmap_count_same (s := s) [Effect.filter_apply s.filter] rfl (by simp [is_distmap])⟩
    · exact ⟨rfl, distmap_count_same (s := s) [Effect.filter_apply s.filter] rfl (by simp [is_distmap])⟩

theorem options_notify_count (s : ToolState) (name : String) (found : Bool) (env : Env) :
    (s.dist_buffer.isSome = true →
      (gimp_blend_tool_options_notify s name found env).dist_buffer = s.dist_buffer ∧
      distmap_count (gimp_blend_tool_options_notify s name found env) = distmap_count s) ∧
    (distmap_count (gimp_blend_tool_options_notify s name found env) = distmap_count s ∨
      (distmap_count (gimp_blend_tool_options_notify s name found env)
          = distmap_count s + 1 ∧
        s.dist_buffer = none ∧
        (gimp_blend_tool_options_notify s name found env).dist_buffer = env.distmap)) := by
  have quiet_all : ∀ t : ToolState,
      (t.dist_buffer = s.dist_buffer ∧ distmap_count t = distmap_count s) →
      (s.dist_buffer.isSome = true →
        t.dist_buffer = s.dist_buffer ∧ distmap_count t = distmap_count s) ∧
      (distmap_count t = distmap_count s ∨
        (distmap_count t = distmap_count s + 1 ∧ s.dist_buffer = none ∧
          t.dist_buffer = env.distmap)) :=
    fun t h => ⟨fun _ => h, Or.inl h.2⟩
  have happly : ∀ x : ToolState,
      (gimp_drawable_filter_apply x).dist_buffer = x.dist_buffer ∧
      distmap_count (gimp_drawable_filter_apply x) = distmap_count x :=
    fun x => ⟨rfl, distmap_count_same (s := x) [Effect.filter_apply x.filter] rfl
      (by simp [is_distmap])⟩
  have hupd : ∀ x : ToolState,
      (gimp_blend_tool_update_graph x).dist_buffer = x.dist_buffer ∧
      distmap_count (gimp_blend_tool_update_graph x) = distmap_count x :=
    fun x => ⟨(update_graph_log x).2.2, by
      unfold distmap_count
      rw [(update_graph_log x).1]⟩
  have hgrad : ∀ (x : ToolState) (g : Option GimpGradient),
      (gimp_blend_tool_set_gradient x g).dist_buffer = x.dist_buffer ∧
      distmap_count (gimp_blend_tool_set_gradient x g) = distmap_count x :=
    fun x g => ⟨(set_gradient_log x g).2.2, by
      unfold distmap_count
      rw [(set_gradient_log x g).1]⟩
  unfold gimp_blend_tool_options_notify
  split
  · dsimp only
    apply quiet_all
    split
    · exact ⟨(happly _).1.trans (hgrad s _).1, (happly _).2.trans (hgrad s _).2⟩
    · exact hgrad s _
  · split
    · dsimp only
      have h1 : ({ s with log := s.log ++ [Effect.node_set_property name] } : ToolState).dist_buffer
          = s.dist_buffer ∧
          distmap_count { s with log := s.log ++ [Effect.node_set_property name] }
            = distmap_count s :=
        ⟨rfl, distmap_count_same (s := s) [Effect.node_set_property name] rfl
          (by simp [is_distmap])⟩
      split
      · split
        · rcases (precalc_log { s with log := s.log ++ [Effect.node_set_property name] }
            env).2 with he | ⟨hb, hbuf, d, _, hl⟩
          · rw [he]
            apply quiet_all
            exact ⟨((happly _).1.trans (hupd _).1).trans h1.1,
              ((happly _).2.trans (hupd _).2).trans h1.2⟩
          · constructor
            · intro hs
              have hb1 : s.dist_buffer = none := hb
              rw [hb1] at hs
              simp at hs
            · right
              refine ⟨?_, hb, ?_⟩
              · rw [(happly _).2, (hupd _).2, distmap_count_append _ hl, h1.2]
                simp [is_distmap]
              · rw [(happly _).1, (hupd _).1, hbuf]
        · apply quiet_all
          exact ⟨((happly _).1.trans (hupd _).1).trans h1.1,
            ((happly _).2.trans (hupd _).2).trans h1.2⟩
      · apply quiet_all
        exact ⟨(happly _).1.trans h1.1, (happly _).2.trans h1.2⟩
    · apply quiet_all
      split
      · split
        · exact ⟨rfl, distmap_count_same (s := s) _ rfl (by simp [is_distmap])⟩
        · exact ⟨rfl, rfl⟩
      · split
        · split
          · exact ⟨rfl, distmap_count_same (s := s) _ rfl (by simp [is_distmap])⟩
          · exact ⟨rfl, rfl⟩
        · exact ⟨rfl, rfl⟩

theorem session_step_count (s t : ToolState) (e : Event) (hwf : WellFormed s)
    (hk : keeps_session s e = true) (ht : step s e = Except.ok t) :
    (s.dist_buffer.isSome = true →
      t.dist_buffer = s.dist_buffer ∧ distmap_count t = distmap_count s) ∧
    (distmap_count t = distmap_count s ∨
      (distmap_count t = distmap_count s + 1 ∧ s.dist_buffer = none)) := by
  have quiet_all : (t.dist_buffer = s.dist_buffer ∧ distmap_count t = distmap_count s) →
      (s.dist_buffer.isSome = true →
        t.dist_buffer = s.dist_buffer ∧ distmap_count t = distmap_count s) ∧
      (distmap_count t = distmap_count s ∨
        (distmap_count t = distmap_count s + 1 ∧ s.dist_buffer = none)) :=
    fun h => ⟨fun _ => h, Or.inl h.2⟩
  cases e with
  | button_press c d env r =>
    simp only [step, Except.ok.injEq] at ht
    subst ht
    simp only [keeps_session, decide_eq_true_eq] at hk
    exact quiet_all (quiet_press s c d env r hwf hk)
  | button_release c rt d changes => exact quiet_all (quiet_release s t c rt d changes hk ht)
  | motion c changes => exact quiet_all (quiet_motion s t c changes ht)
  | undo d =>
    simp only [step, Except.ok.injEq] at ht
    subst ht
    exact quiet_all (quiet_undo s d)
  | redo d =>
    simp only [step, Except.ok.injEq] at ht
    subst ht
    exact quiet_all (quiet_redo s d)
  | options_notify name found env =>
    simp only [step, Except.ok.injEq] at ht
    subst ht
    obtain ⟨h1, h2⟩ := options_notify_count s name found env
    refine ⟨h1, ?_⟩
    rcases h2 with h2 | ⟨h2, h3, _⟩
    · exact Or.inl h2
    · exact Or.inr ⟨h2, h3⟩
  | gradient_dirty =>
    simp only [step, Except.ok.injEq] at ht
    subst ht
    exact quiet_all (quiet_gradient_dirty s)
  | control a =>
    simp only [step, Except.ok.injEq] at ht
    subst ht
    cases a with
    | PAUSE => exact quiet_all ⟨rfl, rfl⟩
    | RESUME => exact quiet_all ⟨rfl, rfl⟩
    | HALT => simp [keeps_session] at hk
    | COMMIT => simp [keeps_session] at hk
  | line_changed info =>
    simp only [step, Except.ok.injEq] at ht
    subst ht
    exact quiet_all (quiet_widget_set_line s info)
  | line_response r =>
    simp only [step, Except.ok.injEq] at ht
    subst ht
    cases r with
    | CONFIRM => simp [keeps_session] at hk
    | CANCEL => simp [keeps_session] at hk
    | OTHER => exact quiet_all ⟨rfl, rfl⟩

theorem session_run_count (es : List Event) (s t : ToolState) (b : GeglBuffer)
    (hwf : WellFormed s) (hb : s.dist_buffer = some b) (hin : InSession s es)
    (ht : run s es = Except.ok t) :
    t.dist_buffer = some b ∧ distmap_count t = distmap_count s := by
  induction es generalizing s with
  | nil =>
    simp only [run, Except.ok.injEq] at ht
    subst ht
    exact ⟨hb, rfl⟩
  | cons e es ih =>
    simp only [run] at ht
    obtain ⟨hk, hrest⟩ := hin
    cases hs : step s e with
    | error f => simp [hs] at ht
    | ok s1 =>
      simp only [hs] at ht hrest
      obtain ⟨q1, q2⟩ := (session_step_count s s1 e hwf hk hs).1 (by rw [hb]; rfl)
      obtain ⟨r1, r2⟩ := ih s1 (wellFormed_step s s1 e hwf hs) (q1.trans hb) hrest ht
      exact ⟨r1, r2.trans q2⟩

theorem start_computes_distmap (s : ToolState) (c : GimpCoords) (d : GimpDisplay) (env : Env)
    (b : GeglBuffer) (hwf : WellFormed s) (hw : s.widget = none)
    (hsb : gimp_blend_tool_is_shapeburst env = true) (hmi : env.mask_intersect = true)
    (hdm : env.distmap = some b) :
    (gimp_blend_tool_start s c d env).dist_buffer = some b ∧
    distmap_count (gimp_blend_tool_start s c d env) = distmap_count s + 1 := by
  have hg : s.graph = none := by
    have a1 := hwf.1
    cases hsg : s.graph with
    | none => rfl
    | some g => rw [hsg, hw] at a1; simp at a1
  have hb : s.dist_buffer = none := (hwf.2.2.2.2.2.2.2.2 hw).2.2
  obtain ⟨hl, _⟩ := start_log s c d env hg hb
  constructor
  · obtain ⟨display, drawable, draw_display, draw_widget, gradient, sx, sy, ex, ey, graph,
      render_node, dist_node, dist_buffer, filter, widget, grab, undo_stack, redo_stack, log,
      fresh⟩ := s
    simp only at hg hb
    subst hg hb
    cases hgr : env.gradient <;> cases draw_display <;>
      simp [gimp_blend_tool_start, gimp_blend_tool_create_filter,
        gimp_blend_tool_create_graph, gimp_blend_tool_update_graph,
        gimp_blend_tool_set_gradient, gimp_blend_tool_precalc_shapeburst,
        gimp_draw_tool_start, gimp_draw_tool_is_active, gimp_draw_tool_set_widget, hsb, hgr,
        hmi, hdm]
  · rw [List.append_assoc] at hl
    rw [distmap_count_append _ hl]
    simp [hsb, hmi, is_distmap, blend_info_new]

/-! ## C11 -/

/-- C11: the activation check returns TRUE exactly when the parent class method
succeeds, the active drawable is not a layer group, is not content-locked, is visible,
and the options have a gradient. A failure of the parent is passed on with its error;
otherwise the error reported is the first that applies in the order layer group,
locked, not visible, no gradient, and the four error texts are distinct and not
empty. -/
theorem initialize_checks_in_order (parent : Except String Unit) (target : TargetValidity)
    (gradient : Option GimpGradient) :
    ( gimp_blend_tool_initialize parent target gradient = Except.ok () ↔
      (parent = Except.ok () ∧ target.has_children = false ∧
        target.content_locked = false ∧ target.visible = true ∧ gradient.isSome = true)) ∧
    (∀ e, parent = Except.error e →
      gimp_blend_tool_initialize parent target gradient = Except.error e) ∧
    (parent = Except.ok () → target.has_children = true →
      gimp_blend_tool_initialize parent target gradient = Except.error MSG_LAYER_GROUP) ∧
    (parent = Except.ok () → target.has_children = false → target.content_locked = true →
      gimp_blend_tool_initialize parent target gradient = Except.error MSG_LOCKED) ∧
    (parent = Except.ok () → target.has_children = false → target.content_locked = false →
      target.visible = false →
      gimp_blend_tool_initialize parent target gradient = Except.error MSG_NOT_VISIBLE) ∧
    (parent = Except.ok () → target.has_children = false → target.content_locked = false →
      target.visible = true → gradient = none →
      gimp_blend_tool_initialize parent target gradient = Except.error MSG_NO_GRADIENT) ∧
    [MSG_LAYER_GROUP, MSG_LOCKED, MSG_NOT_VISIBLE, MSG_NO_GRADIENT].Nodup ∧
    "" ∉ [MSG_LAYER_GROUP, MSG_LOCKED, MSG_NOT_VISIBLE, MSG_NO_GRADIENT] := by
  refine ⟨?_, ?_, ?_, ?_, ?_, ?_, by decide, by decide⟩
  · cases parent with
    | error e => simp [ gimp_blend_tool_initialize]
    | ok u =>
      cases hc : target.has_children <;> cases hl : target.content_locked <;>
        cases hv : target.visible <;> cases hg : gradient <;>
        simp [ gimp_blend_tool_initialize, hc, hl, hv]
  · intro e he
    simp [ gimp_blend_tool_initialize, he]
  · intro hp hc
    simp [ gimp_blend_tool_initialize, hp, hc]
  · intro hp hc hl
    simp [ gimp_blend_tool_initialize, hp, hc, hl]
  · intro hp hc hl hv
    simp [ gimp_blend_tool_initialize, hp, hc, hl, hv]
  · intro hp hc hl hv hg
    simp [ gimp_blend_tool_initialize, hp, hc, hl, hv, hg]

theorem initialize_checks_in_order_witness :
    gimp_blend_tool_initialize (Except.ok ())
      { has_children := false, content_locked := true, visible := false } none
      = Except.error MSG_LOCKED :=
  (initialize_checks_in_order (Except.ok ())
    { has_children := false, content_locked := true, visible := false } none).2.2.2.1
    rfl rfl rfl

/-! ## C12 -/

theorem commit_of_idle (s : ToolState) (h : Idle s) : gimp_blend_tool_commit s = s := by
  have hf : s.filter = none := h.2.2.2.2.1
  unfold gimp_blend_tool_commit
  simp only [hf]
  exact halt_of_idle s h

theorem commit_halt_same_fields (s : ToolState) :
    ({ gimp_blend_tool_commit s with log := [] } : ToolState) =
      { gimp_blend_tool_halt s with log := [] } := by
  rw [commit_eq, halt_eq]

/-- C12: in an active session on `d` with preview filter `f`, commit appends to the
effect log exactly the commit of `f` and an image flush: one filter commit and no
abort, since the halt that commit runs afterwards finds no filter. The tool is idle
afterwards, and apart from the log the state is the one halt yields. On an idle tool
commit returns the state unchanged, log included, so it commits nothing. -/
theorem commit_bakes_once (s : ToolState) (d : GimpDisplay) (hA : Active s d) :
    (∃ f, s.filter = some f ∧
      (gimp_blend_tool_commit s).log =
        s.log ++ [Effect.filter_commit f, Effect.image_flush (some d)] ∧
      ([Effect.filter_commit f, Effect.image_flush (some d)].filter
        (fun e => match e with
          | Effect.filter_commit _ => true
          | _ => false)).length = 1 ∧
      (∀ g, Effect.filter_abort g ∉ [Effect.filter_commit f, Effect.image_flush (some d)])) ∧
    Idle (gimp_blend_tool_commit s) ∧
    ({ gimp_blend_tool_commit s with log := [] } : ToolState) =
      { gimp_blend_tool_halt s with log := [] } ∧
    (∀ t, Idle t → gimp_blend_tool_commit t = t ∧
      (gimp_blend_tool_commit t).log = t.log) := by
  obtain ⟨h1, _, _, _, h5, h6, _⟩ := hA
  cases hf : s.filter with
  | none => rw [hf] at h5; simp at h5
  | some f =>
    obtain ⟨i1, i2⟩ := commit_active s d f h1 hf h6
    refine ⟨⟨f, rfl, i2, by simp, by simp⟩, i1, commit_halt_same_fields s, ?_⟩
    intro t ht
    rw [commit_of_idle t ht]
    exact ⟨rfl, rfl⟩

theorem commit_bakes_once_witness :
    Active dragged_to_50 display_A ∧ Idle (gimp_blend_tool_commit dragged_to_50) ∧
    (gimp_blend_tool_commit dragged_to_50).log =
      dragged_to_50.log ++ [Effect.filter_commit 2, Effect.image_flush (some display_A)] := by
  obtain ⟨⟨f, hf, hlog, _, _⟩, hidle, _, _⟩ :=
    commit_bakes_once dragged_to_50 display_A (by decide)
  have h2 : f = 2 := by
    have : dragged_to_50.filter = some 2 := rfl
    rw [this] at hf
    exact (Option.some.inj hf).symm
  subst h2
  exact ⟨by decide, hidle, hlog⟩

/-! ## C13 -/

/-- C13: in every state the tool can reach, the graph is present exactly when the
preview filter is, and the render node exactly when the graph is; no call of
`gimp_drawable_filter_apply` with an absent filter is on the effect log. The same
holds after any further call on the tool. In particular a geometry change reported by
the widget and an option change never log an apply without a filter, and
`gimp_blend_tool_line_changed` applies the session's filter. Start leaves both the
graph and the filter present; halt and commit leave both absent. -/
theorem graph_iff_filter_in_reachable_states (s : ToolState) (h : Reachable s) :
    (s.graph.isSome = true ↔ s.filter.isSome = true) ∧
    (s.render_node.isSome = true ↔ s.graph.isSome = true) ∧
    Effect.filter_apply none ∉ s.log ∧
    (∀ (e : Event) (t : ToolState), step s e = Except.ok t →
      (t.graph.isSome = true ↔ t.filter.isSome = true) ∧
      (t.render_node.isSome = true ↔ t.graph.isSome = true) ∧
      Effect.filter_apply none ∉ t.log) ∧
    (∀ (info : BlendInfo), Effect.filter_apply none ∉ (widget_set_line s info).log) ∧
    (∀ (w : GimpToolLine), s.widget = some w →
      ∃ f, (gimp_blend_tool_line_changed s w).log = s.log ++ [Effect.filter_apply (some f)]) ∧
    (∀ (name : String) (found : Bool) (env : Env),
      Effect.filter_apply none ∉ (gimp_blend_tool_options_notify s name found env).log) ∧
    (∀ (c : GimpCoords) (d : GimpDisplay) (env : Env),
      (gimp_blend_tool_start s c d env).graph.isSome = true ∧
      (gimp_blend_tool_start s c d env).filter.isSome = true) ∧
    ((gimp_blend_tool_halt s).graph = none ∧ (gimp_blend_tool_halt s).filter = none) ∧
    ((gimp_blend_tool_commit s).graph = none ∧ (gimp_blend_tool_commit s).filter = none) := by
  have key : ∀ t : ToolState, Reachable t →
      (t.graph.isSome = true ↔ t.filter.isSome = true) ∧
      (t.render_node.isSome = true ↔ t.graph.isSome = true) ∧
      Effect.filter_apply none ∉ t.log := by
    intro t ht
    obtain ⟨a1, a2, _, a4, _⟩ := reachable_wellFormed ht
    refine ⟨by rw [a1, a4], by rw [a2, a1], reachable_noNullApply ht⟩
  have hwf := reachable_wellFormed h
  have hlog := reachable_noNullApply h
  refine ⟨(key s h).1, (key s h).2.1, (key s h).2.2, ?_, ?_, ?_, ?_, ?_, ?_, ?_⟩
  · intro e t ht
    exact key t (reachable_step e h ht)
  · intro info
    exact noNullApply_widget_set_line s info hwf hlog
  · intro w hw
    have hf : s.filter.isSome = true := by
      rw [hwf.2.2.2.1, hw]
      rfl
    obtain ⟨f, hf1⟩ := Option.isSome_iff_exists.mp hf
    refine ⟨f, ?_⟩
    show (gimp_blend_tool_update_graph _).log ++
      [Effect.filter_apply (gimp_blend_tool_update_graph _).filter] = _
    rw [(update_graph_log _).1, (update_graph_log _).2.1]
    show s.log ++ [Effect.filter_apply s.filter] = _
    rw [hf1]
  · intro name found env
    exact noNullApply_options_notify s name found env hwf hlog
  · intro c d env
    exact start_creates_graph_and_filter s c d env
  · rw [halt_eq]
    exact ⟨rfl, rfl⟩
  · rw [commit_eq]
    exact ⟨rfl, rfl⟩

theorem graph_iff_filter_in_reachable_states_witness :
    Reachable dragged_to_50 ∧
    (dragged_to_50.graph.isSome = true ↔ dragged_to_50.filter.isSome = true) ∧
    Effect.filter_apply none ∉ dragged_to_50.log :=
  ⟨reachable_dragged_to_50,
    (graph_iff_filter_in_reachable_states dragged_to_50 reachable_dragged_to_50).1,
    (graph_iff_filter_in_reachable_states dragged_to_50 reachable_dragged_to_50).2.2.1⟩

/-! ## C14 -/

theorem line_changed_quiet (s : ToolState) (w : GimpToolLine) :
    (gimp_blend_tool_line_changed s w).dist_buffer = s.dist_buffer ∧
    distmap_count (gimp_blend_tool_line_changed s w) = distmap_count s := by
  constructor
  · show (gimp_blend_tool_update_graph _).dist_buffer = _
    rw [(update_graph_log _).2.2]
  · refine distmap_count_same (s := s)
      [Effect.filter_apply (gimp_blend_tool_update_graph
        { s with start_x := w.x1, start_y := w.y1, end_x := w.x2, end_y := w.y2 }).filter]
      ?_ (by simp [is_distmap])
    show (gimp_blend_tool_update_graph _).log ++ _ = _
    rw [(update_graph_log _).1]

theorem press_from_idle (s : ToolState) (c : GimpCoords) (d : GimpDisplay) (env : Env)
    (r : PressReaction) (hwf : WellFormed s) (hw : s.widget = none) :
    (gimp_blend_tool_button_press s c d env r).dist_buffer =
      (gimp_blend_tool_start s c d env).dist_buffer ∧
    distmap_count (gimp_blend_tool_button_press s c d env r) =
      distmap_count (gimp_blend_tool_start s c d env) := by
  have hd : s.display = none := by
    have a5 := hwf.2.2.2.2.1
    cases hsd : s.display with
    | none => rfl
    | some x => rw [hsd, hw] at a5; simp at a5
  have hprep : press_prepared s c d env = gimp_blend_tool_start s c d env := by
    unfold press_prepared
    simp [hd, hw]
  obtain ⟨w, _, hp⟩ := press_general s c d env r
  rw [hprep] at hp
  rw [hp]
  split
  · exact quiet_widget_changes _ r.changes
  · exact quiet_widget_changes _ r.changes

/-- C14: `gimp_blend_tool_precalc_shapeburst` returns the state unchanged whenever a
distance buffer is present, and `gimp_blend_tool_line_changed` neither computes a
distance map nor touches the buffer. When a press starts a session from a reachable
state without a widget, with a shapeburst gradient type, a drawable that meets the
mask and a computation that returns the buffer `b`, then after any calls that stay
within the session the distance map has been computed exactly once more than before
the press and the buffer is still `b`. In every reachable state, a call that stays
within the session computes the map at most once, and only when no buffer is stored. -/
theorem shapeburst_distmap_computed_once :
    (∀ (s : ToolState) (env : Env), s.dist_buffer.isSome = true →
      gimp_blend_tool_precalc_shapeburst s env = s) ∧
    (∀ (s : ToolState) (w : GimpToolLine),
      (gimp_blend_tool_line_changed s w).dist_buffer = s.dist_buffer ∧
      distmap_count (gimp_blend_tool_line_changed s w) = distmap_count s) ∧
    (∀ (s : ToolState) (c : GimpCoords) (d : GimpDisplay) (env : Env) (r : PressReaction)
        (es : List Event) (t : ToolState) (b : GeglBuffer),
      Reachable s → s.widget = none →
      gimp_blend_tool_is_shapeburst env = true → env.mask_intersect = true →
      env.distmap = some b →
      InSession (gimp_blend_tool_button_press s c d env r) es →
      run (gimp_blend_tool_button_press s c d env r) es = Except.ok t →
      distmap_count t = distmap_count s + 1 ∧ t.dist_buffer = some b) ∧
    (∀ (s t : ToolState) (e : Event),
      Reachable s → keeps_session s e = true → step s e = Except.ok t →
      (s.dist_buffer.isSome = true →
        t.dist_buffer = s.dist_buffer ∧ distmap_count t = distmap_count s) ∧
      (distmap_count t = distmap_count s ∨
        (distmap_count t = distmap_count s + 1 ∧ s.dist_buffer = none))) := by
  refine ⟨precalc_of_buffer, line_changed_quiet, ?_, ?_⟩
  · intro s c d env r es t b hR hw hsb hmi hdm hin hrun
    have hwf := reachable_wellFormed hR
    obtain ⟨p1, p2⟩ := press_from_idle s c d env r hwf hw
    obtain ⟨q1, q2⟩ := start_computes_distmap s c d env b hwf hw hsb hmi hdm
    obtain ⟨r1, r2⟩ := session_run_count es _ t b (wellFormed_press s c d env r hwf)
      (p1.trans q1) hin hrun
    exact ⟨r2.trans (p2.trans q2), r1⟩
  · intro s t e hR hk ht
    exact session_step_count s t e (reachable_wellFormed hR) hk ht

theorem shapeburst_distmap_computed_once_witness :
    Reachable init ∧
    InSession (gimp_blend_tool_button_press init p10 display_A shapeburst_env
      { changes := [], claimed := true }) session_events ∧
    ∃ t, run (gimp_blend_tool_button_press init p10 display_A shapeburst_env
        { changes := [], claimed := true }) session_events = Except.ok t ∧
      distmap_count t = distmap_count init + 1 ∧ t.dist_buffer = some { id := 7 } := by
  have hin : InSession (gimp_blend_tool_button_press init p10 display_A shapeburst_env
      { changes := [], claimed := true }) session_events := by decide!
  cases hrun : run (gimp_blend_tool_button_press init p10 display_A shapeburst_env
      { changes := [], claimed := true }) session_events with
  | error f =>
    have : (run (gimp_blend_tool_button_press init p10 display_A shapeburst_env
      { changes := [], claimed := true }) session_events).isOk = true := by decide!
    rw [hrun] at this
    exact Bool.noConfusion this
  | ok t =>
    exact ⟨reachable_init, hin, t, rfl,
      shapeburst_distmap_computed_once.2.2.1 init p10 display_A shapeburst_env
        { changes := [], claimed := true } session_events t { id := 7 } reachable_init rfl
        (by decide) rfl rfl hin hrun⟩

/-! ## C15 -/

theorem press_prepared_of_widget (s : ToolState) (c : GimpCoords) (d : GimpDisplay)
    (env : Env) (w : GimpToolLine) (hd : s.display = none ∨ s.display = some d)
    (hw : s.widget = some w) : press_prepared s c d env = s := by
  unfold press_prepared
  rcases hd with hd | hd <;> simp [hd, hw]

theorem press_prepared_of_no_widget (s : ToolState) (c : GimpCoords) (d : GimpDisplay)
    (env : Env) (hd : s.display = none ∨ s.display = some d) (hw : s.widget = none) :
    press_prepared s c d env = gimp_blend_tool_start s c d env := by
  unfold press_prepared
  rcases hd with hd | hd <;> simp [hd, hw]

/-- C15, as the code has it: when the press does not force a halt (the tool has no
display yet, or the press is on the tool's display), a press the widget claims,
followed by any motion events and a release other than CANCEL, runs without fault and
puts exactly one entry on top of the old undo stack: the current geometry at the
moment the press is forwarded to the widget. That is the geometry on entry to
`button_press` when a widget exists, and the fresh line at the press coordinates when
the press starts the session. A press the widget does not claim leaves the undo stack
as it was. Starting at (10, 10) and dragging to (50, 50) gives the line
(10, 10)-(50, 50) and the single undo entry (10, 10)-(10, 10). -/
theorem one_undo_entry_per_gesture :
    (∀ (s : ToolState) (d : GimpDisplay) (g : Gesture),
      (s.display = none ∨ s.display = some d) →
      g.release_type ≠ GimpButtonReleaseType.CANCEL →
      (∃ t, run_gesture s d g = Except.ok t ∧
        t.undo_stack = current (press_prepared s g.press_coords d g.env) :: s.undo_stack) ∧
      (s.widget.isSome = true →
        current (press_prepared s g.press_coords d g.env) = current s) ∧
      (s.widget = none →
        current (press_prepared s g.press_coords d g.env) =
          blend_info_new g.press_coords.x g.press_coords.y g.press_coords.x g.press_coords.y) ∧
      (∀ changes : List BlendInfo,
        (gimp_blend_tool_button_press s g.press_coords d g.env
          { changes := changes, claimed := false }).undo_stack = s.undo_stack)) ∧
    run init drag_events = Except.ok dragged_to_50 ∧
    current dragged_to_50 = blend_info_new 10 10 50 50 ∧
    dragged_to_50.undo_stack = [blend_info_new 10 10 10 10] := by
  refine ⟨?_, run_drag_events, by decide!, by decide!⟩
  intro s d g hd hr
  obtain ⟨p1, _⟩ := press_prepared_same_display s g.press_coords d g.env hd
  refine ⟨?_, ?_, ?_, ?_⟩
  · obtain ⟨t1, w, ht1, q1, q2, q3, _⟩ := run_drag_general s d g
    have hs := widget_changes_same g.release_changes t1
    refine ⟨gimp_image_flush
      { widget_changes t1 g.release_changes with grab_widget := none, redo_stack := [] }
      (some d), ?_, ?_⟩
    · simp only [run_gesture, ht1]
      rw [release_grabbed_eq t1 g.release_coords g.release_type d g.release_changes w q1 q2,
        if_neg hr]
    · show (widget_changes t1 g.release_changes).undo_stack = _
      rw [hs.2.2.2.2.2.2.2.2.2.2.1, q3, p1]
  · intro hw
    obtain ⟨w, hw1⟩ := Option.isSome_iff_exists.mp hw
    rw [press_prepared_of_widget s g.press_coords d g.env w hd hw1]
  · intro hw
    rw [press_prepared_of_no_widget s g.press_coords d g.env hd hw]
    exact (start_history s g.press_coords d g.env).2.2.2.2.1
  · intro changes
    obtain ⟨w, _, hp⟩ := press_general s g.press_coords d g.env
      { changes := changes, claimed := false }
    rw [hp]
    show (widget_changes _ changes).undo_stack = _
    rw [(widget_changes_same changes _).2.2.2.2.2.2.2.2.2.2.1, p1]

theorem one_undo_entry_per_gesture_witness :
    Active dragged_to_50 display_A ∧
    ∃ t, run_gesture dragged_to_50 display_A drag_start_to_20_30 = Except.ok t ∧
      t.undo_stack = current dragged_to_50 :: dragged_to_50.undo_stack := by
  obtain ⟨⟨t, h1, h2⟩, h3, _⟩ := one_undo_entry_per_gesture.1 dragged_to_50 display_A
    drag_start_to_20_30 (by decide) (by decide)
  refine ⟨by decide, t, h1, ?_⟩
  rw [h2, h3 (by decide)]

/-- C15 fails as stated. A press that starts the session on an idle tool pushes the
fresh line (10, 10)-(10, 10), not the geometry (0, 0)-(0, 0) the tool held on entry.
A gesture whose press arrives on `display_B` while the session on `display_A` holds
one undo entry ends with one undo entry again, (50, 50)-(50, 50), not with two, and
that entry is not the geometry (10, 10)-(50, 50) held on entry. -/
theorem gesture_entry_is_not_always_entry_geometry :
    current init = blend_info_new 0 0 0 0 ∧
    Except.map ToolState.undo_stack (run_gesture init display_A drag_to_50)
      = Except.ok [blend_info_new 10 10 10 10] ∧
    Reachable dragged_to_50 ∧
    current dragged_to_50 = blend_info_new 10 10 50 50 ∧
    dragged_to_50.undo_stack = [blend_info_new 10 10 10 10] ∧
    Except.map ToolState.undo_stack (run_gesture dragged_to_50 display_B drag_from_50)
      = Except.ok [blend_info_new 50 50 50 50] :=
  ⟨by decide!, by decide!, reachable_dragged_to_50, by decide!, by decide!, by decide!⟩

/-! ## C16 -/

/-- C16: in every reachable state with an active session, the render node's line
parameters are the current geometry shifted by the offset of the session's drawable,
and the current geometry is what the line widget holds. The same is true after any
further call on the tool (start, a geometry change, undo, redo and all the others). -/
theorem rendered_geometry_never_stale (s : ToolState) (d : GimpDisplay) (hR : Reachable s)
    (hA : Active s d) :
    (∃ node dr w, s.render_node = some node ∧ s.drawable = some dr ∧ s.widget = some w ∧
      node.geom = some (blend_info_new (s.start_x - dr.off_x) (s.start_y - dr.off_y)
        (s.end_x - dr.off_x) (s.end_y - dr.off_y)) ∧
      current s = blend_info_new w.x1 w.y1 w.x2 w.y2) ∧
    (∀ (e : Event) (t : ToolState), step s e = Except.ok t → Synced t) := by
  obtain ⟨h1, h2⟩ := reachable_synced hR
  obtain ⟨_, _, a3, a4, _, _, a7⟩ := hA
  obtain ⟨node, hn⟩ := Option.isSome_iff_exists.mp a7
  obtain ⟨dr, hdr⟩ := Option.isSome_iff_exists.mp a3
  obtain ⟨w, hw⟩ := Option.isSome_iff_exists.mp a4
  refine ⟨⟨node, dr, w, hn, hdr, hw, h2 node dr hn hdr, h1 w hw⟩, ?_⟩
  intro e t ht
  exact reachable_synced (reachable_step e hR ht)

theorem rendered_geometry_never_stale_witness :
    Reachable dragged_to_50 ∧ Active dragged_to_50 display_A ∧
    ∃ node dr w, dragged_to_50.render_node = some node ∧ dragged_to_50.drawable = some dr ∧
      dragged_to_50.widget = some w ∧
      node.geom = some (blend_info_new (dragged_to_50.start_x - dr.off_x)
        (dragged_to_50.start_y - dr.off_y) (dragged_to_50.end_x - dr.off_x)
        (dragged_to_50.end_y - dr.off_y)) ∧
      current dragged_to_50 = blend_info_new w.x1 w.y1 w.x2 w.y2 :=
  ⟨reachable_dragged_to_50, by decide,
    (rendered_geometry_never_stale dragged_to_50 display_A reachable_dragged_to_50
      (by decide)).1⟩

/-! ## C17 -/

/-- C17, as the code has it: the cursor method shows the blocked modifier exactly when
the active drawable is a layer group, is content-locked or is hidden. The decision is
the same for all pointer coordinates, displays, tool states and gradients: the
gradient of the options is not consulted. -/
theorem cursor_blocked_iff_invalid_target (s : ToolState) (coords : GimpCoords)
    (display : GimpDisplay) (target : TargetValidity) (gradient : Option GimpGradient) :
    (gimp_blend_tool_cursor_update s coords display target gradient = CursorChoice.BAD ↔
      (target.has_children = true ∨ target.content_locked = true ∨ target.visible = false)) ∧
    (∀ (s1 : ToolState) (coords1 : GimpCoords) (display1 : GimpDisplay)
        (gradient1 : Option GimpGradient),
      (gimp_blend_tool_cursor_update s1 coords1 display1 target gradient1 = CursorChoice.BAD ↔
        gimp_blend_tool_cursor_update s coords display target gradient = CursorChoice.BAD)) := by
  have key : ∀ (s1 : ToolState) (c1 : GimpCoords) (d1 : GimpDisplay)
      (g1 : Option GimpGradient),
      gimp_blend_tool_cursor_update s1 c1 d1 target g1 = CursorChoice.BAD ↔
      (target.has_children = true ∨ target.content_locked = true ∨ target.visible = false) := by
    intro s1 c1 d1 g1
    unfold gimp_blend_tool_cursor_update
    cases hc : target.has_children <;> cases hl : target.content_locked <;>
      cases hv : target.visible <;> simp
    split <;> simp
  exact ⟨key s coords display gradient,
    fun s1 c1 d1 g1 => (key s1 c1 d1 g1).trans (key s coords display gradient).symm⟩

/-- C17 fails as stated: with a valid target and no gradient in the options the cursor
method shows no blocked modifier: it sets the plus modifier when no session runs, and
leaves the cursor to the parent class when one does. Only the activation check
refuses that case. -/
theorem cursor_not_blocked_without_gradient :
    gimp_blend_tool_cursor_update init p10 display_A
      { has_children := false, content_locked := false, visible := true } none
      = CursorChoice.PLUS ∧
    gimp_blend_tool_cursor_update dragged_to_50 p10 display_A
      { has_children := false, content_locked := false, visible := true } none
      = CursorChoice.PARENT ∧
    gimp_blend_tool_initialize (Except.ok ())
      { has_children := false, content_locked := false, visible := true } none
      = Except.error MSG_NO_GRADIENT := by
  refine ⟨by decide, by decide, by decide⟩

/-! ## C18 -/

/-- C18 evaluated on the code: after a claimed press and an undo, the grab is still
held while the undo stack is empty, and a CANCEL release then dereferences the empty
stack. After a claimed press and a halt, the grab is still held while the widget is
gone, and a release or a motion event is then forwarded to the dropped widget. -/
theorem held_grab_outlives_undo_and_halt :
    Except.map (fun s => (s.grab_widget, s.widget.map GimpToolLine.id, s.undo_stack))
      (run init [claimed_press, Event.undo display_A]) = Except.ok (some 0, some 0, []) ∧
    run init [claimed_press, Event.undo display_A,
      Event.button_release p10 GimpButtonReleaseType.CANCEL display_A []]
      = Except.error Fault.null_dereference ∧
    Except.map (fun s => (s.grab_widget, s.widget.map GimpToolLine.id, s.undo_stack))
      (run init [claimed_press, Event.control GimpToolAction.HALT])
      = Except.ok (some 0, none, []) ∧
    run init [claimed_press, Event.control GimpToolAction.HALT,
      Event.button_release p10 GimpButtonReleaseType.NORMAL display_A []]
      = Except.error Fault.freed_widget ∧
    run init [claimed_press, Event.control GimpToolAction.HALT,
      Event.motion p50 []] = Except.error Fault.freed_widget :=
  ⟨by decide!, by decide!, by decide!, by decide!, by decide!⟩

/-! ## C19 -/

theorem redo_then_undo (s : ToolState) (d : GimpDisplay) (e : BlendInfo)
    (rest : List BlendInfo) (hd : s.draw_display = some d) (hu : s.redo_stack = e :: rest) :
    current (gimp_blend_tool_undo (gimp_blend_tool_redo s d).2 d).2 = current s ∧
    (s.widget.isSome →
      (gimp_blend_tool_undo (gimp_blend_tool_redo s d).2 d).2.redo_stack = s.redo_stack) ∧
    (gimp_blend_tool_undo (gimp_blend_tool_redo s d).2 d).2.undo_stack = s.undo_stack := by
  obtain ⟨u, hu1, hu2, hu3, hu4, hu5, hu6, hu7⟩ := redo_step s d e rest hd hu
  obtain ⟨r, hr1, hr2, hr3, _, _, hr6, hr7⟩ := undo_step u d (current s) s.undo_stack hu4 hu3
  rw [hu1]
  show current (gimp_blend_tool_undo u d).2 = _ ∧ (_ → (gimp_blend_tool_undo u d).2.redo_stack = _)
    ∧ (gimp_blend_tool_undo u d).2.undo_stack = _
  rw [hr1]
  refine ⟨?_, ?_, hr2⟩
  · cases hw : s.widget with
    | none =>
      have h1 : u.widget = none := by
        have := hu5
        rw [hw] at this
        simpa using this
      exact (hr7 h1).trans (hu7 hw)
    | some w =>
      have h1 : u.widget.isSome = true := by rw [hu5, hw]; rfl
      exact hr6 h1
  · intro hw
    show r.redo_stack = s.redo_stack
    rw [hr3, hu2, hu6 hw, hu]

/-- C19: in an active session on `d` with a non-empty undo stack, undo and then redo
on `d` both succeed and restore the current geometry, the undo stack and the redo
stack exactly; with a non-empty redo stack, redo and then undo do the same. In any
state, an undo or redo that returns TRUE keeps the total number of entries on the two
stacks. -/
theorem undo_redo_whole_state_round_trip (s : ToolState) (d : GimpDisplay)
    (hA : Active s d) :
    (s.undo_stack ≠ [] →
      (gimp_blend_tool_undo s d).1 = true ∧
      (gimp_blend_tool_redo (gimp_blend_tool_undo s d).2 d).1 = true ∧
      current (gimp_blend_tool_redo (gimp_blend_tool_undo s d).2 d).2 = current s ∧
      (gimp_blend_tool_redo (gimp_blend_tool_undo s d).2 d).2.undo_stack = s.undo_stack ∧
      (gimp_blend_tool_redo (gimp_blend_tool_undo s d).2 d).2.redo_stack = s.redo_stack) ∧
    (s.redo_stack ≠ [] →
      (gimp_blend_tool_redo s d).1 = true ∧
      (gimp_blend_tool_undo (gimp_blend_tool_redo s d).2 d).1 = true ∧
      current (gimp_blend_tool_undo (gimp_blend_tool_redo s d).2 d).2 = current s ∧
      (gimp_blend_tool_undo (gimp_blend_tool_redo s d).2 d).2.undo_stack = s.undo_stack ∧
      (gimp_blend_tool_undo (gimp_blend_tool_redo s d).2 d).2.redo_stack = s.redo_stack) ∧
    (∀ (t : ToolState) (dt : GimpDisplay), (gimp_blend_tool_undo t dt).1 = true →
      (gimp_blend_tool_undo t dt).2.undo_stack.length +
        (gimp_blend_tool_undo t dt).2.redo_stack.length =
      t.undo_stack.length + t.redo_stack.length) ∧
    (∀ (t : ToolState) (dt : GimpDisplay), (gimp_blend_tool_redo t dt).1 = true →
      (gimp_blend_tool_redo t dt).2.undo_stack.length +
        (gimp_blend_tool_redo t dt).2.redo_stack.length =
      t.undo_stack.length + t.redo_stack.length) := by
  obtain ⟨_, hdd, _, hw, _⟩ := hA
  refine ⟨?_, ?_, ?_, ?_⟩
  · intro hne
    cases hu : s.undo_stack with
    | nil => exact absurd hu hne
    | cons e rest =>
      obtain ⟨u, hu1, _, hu3, hu4, _⟩ := undo_step s d e rest hdd hu
      obtain ⟨r, hr1, _⟩ := redo_step u d (current s) s.redo_stack hu4 hu3
      obtain ⟨a1, a2, a3⟩ := undo_then_redo s d e rest hdd hu
      refine ⟨by rw [hu1], ?_, a1, ?_, a3⟩
      · rw [hu1]
        show (gimp_blend_tool_redo u d).1 = true
        rw [hr1]
      · rw [a2 hw, hu]
  · intro hne
    cases hu : s.redo_stack with
    | nil => exact absurd hu hne
    | cons e rest =>
      obtain ⟨u, hu1, _, hu3, hu4, _⟩ := redo_step s d e rest hdd hu
      obtain ⟨r, hr1, _⟩ := undo_step u d (current s) s.undo_stack hu4 hu3
      obtain ⟨a1, a2, a3⟩ := redo_then_undo s d e rest hdd hu
      refine ⟨by rw [hu1], ?_, a1, a3, ?_⟩
      · rw [hu1]
        show (gimp_blend_tool_undo u d).1 = true
        rw [hr1]
      · rw [a2 hw, hu]
  · intro t dt ht
    by_cases hn : gimp_blend_tool_get_undo_desc t dt = none
    · rw [undo_of_desc_none t dt hn] at ht
      exact Bool.noConfusion ht
    · obtain ⟨hd, e, rest, hst⟩ := undo_desc_some t dt hn
      obtain ⟨u, hu1, hu2, hu3, _⟩ := undo_step t dt e rest hd hst
      rw [hu1]
      show u.undo_stack.length + u.redo_stack.length = _
      rw [hu2, hu3, hst]
      simp
      omega
  · intro t dt ht
    by_cases hn : gimp_blend_tool_get_redo_desc t dt = none
    · rw [redo_of_desc_none t dt hn] at ht
      exact Bool.noConfusion ht
    · obtain ⟨hd, e, rest, hst⟩ := redo_desc_some t dt hn
      obtain ⟨u, hu1, hu2, hu3, _⟩ := redo_step t dt e rest hd hst
      rw [hu1]
      show u.undo_stack.length + u.redo_stack.length = _
      rw [hu2, hu3, hst]
      simp
      omega

theorem undo_redo_whole_state_round_trip_witness :
    Active dragged_to_50 display_A ∧ dragged_to_50.undo_stack ≠ [] ∧
    current (gimp_blend_tool_redo (gimp_blend_tool_undo dragged_to_50 display_A).2
      display_A).2 = current dragged_to_50 ∧
    (gimp_blend_tool_redo (gimp_blend_tool_undo dragged_to_50 display_A).2
      display_A).2.undo_stack = dragged_to_50.undo_stack ∧
    (gimp_blend_tool_redo (gimp_blend_tool_undo dragged_to_50 display_A).2
      display_A).2.redo_stack = dragged_to_50.redo_stack := by
  obtain ⟨_, _, h3, h4, h5⟩ :=
    (undo_redo_whole_state_round_trip dragged_to_50 display_A (by decide)).1 (by decide)
  exact ⟨by decide, by decide, h3, h4, h5⟩

end GimpBlendTool
